import Mathlib

/-!
# Lowering of linalg generics to TPP micro-kernels

A shallow embedding of `lib/TPP/ConvertLinalgToTpp.cpp`: the tile-size
heuristics, the unit-dimension rank reduction of memref operands, the rewrite
patterns that replace an annotated `linalg.generic` by a TPP operation, and the
pass with its constructor; of the checks and the slice computation of
`lib/TPP/MapConvToMatmul.cpp`; and of the lowering of xsmm operations to
function calls of `lib/TPP/ConvertXsmmToFunc.cpp`.

Conventions of the embedding.

* `int64_t` quantities are `Int`; the arithmetic of the tile-size heuristics
  cannot overflow (the only operations are `%`, `-` of a remainder and
  comparisons), and the products of affine constants are assumed in range. The
  C++ operator `%` truncates towards zero and is `Int.tmod`.
* An `arith.constant` index value is identified with the integer it holds.
* A failed `assert` (and an out-of-range `operator[]`, which asserts in
  `SmallVector` and `ArrayRef`) aborts the process; functions that can abort
  return `Except String`, the error carrying the assertion message. The one
  `assert` whose argument has a side effect, the walk of the W expression in
  `getSlicedConvOperandImpl`, takes the build mode (`NDEBUG` or not) as a
  parameter.
* A rewriter is modelled by explicit state passing, see `Rewriter`.
-/

namespace Tpp

/-! ## Data model -/

deriving instance DecidableEq for Except

/-- Layout of a memref: the identity (row-major, offset 0) layout or an explicit
strided form with an offset and one stride per dimension. -/
inductive Layout where
  | identity
  | strided (offset : Int) (strides : List Int)
deriving DecidableEq, Repr

/-- The type `MemRefType`: a shape whose extents are static (`some n`) or
dynamic (`none`), an element type, a layout and a memory space. -/
structure MemRefType where
  shape : List (Option Int)
  elementType : String
  layout : Layout
  memorySpace : Nat
deriving DecidableEq, Repr

/-- The type of an SSA value: a non-shaped (scalar) type, a memref, or a ranked
tensor. Memrefs and tensors are the shaped types. -/
inductive Ty where
  | scalar (name : String)
  | memref (t : MemRefType)
  | tensor (shape : List (Option Int)) (elementType : String)
deriving DecidableEq, Repr

/-- An SSA value, identified by a number, together with its type. -/
structure Value where
  id : Nat
  type : Ty
deriving DecidableEq, Repr

/-- Iterator kind of one loop dimension. -/
inductive IteratorType where
  | parallel
  | reduction
deriving DecidableEq, Repr

/-- A `linalg.generic` as far as the conversion inspects it: the operand list
(inputs followed by outputs), the number of inputs, the number of results, the
iterator kinds (one per loop), the optional `library_call` attribute and the
result of `computeStaticLoopSizes`. -/
structure GenericOp where
  operands : List Value
  numInputs : Nat
  numResults : Nat
  iteratorTypes : List IteratorType
  libraryCall : Option String
  staticLoopSizes : List Int
deriving DecidableEq, Repr

namespace GenericOp

/-- Number of loops, `getNumLoops`: one per iterator. -/
def getNumLoops (op : GenericOp) : Nat := op.iteratorTypes.length

/-- The accessor `getLibraryCallName` of upstream linalg: the attribute's string,
or a fixed placeholder when the attribute is absent. -/
def getLibraryCallName (op : GenericOp) : String :=
  match op.libraryCall with
  | some s => s
  | none => "op_has_no_registered_library_name"

/-- The method `computeStaticLoopSizes`. -/
def computeStaticLoopSizes (op : GenericOp) : List Int := op.staticLoopSizes

end GenericOp

/-! ## Tile-size heuristics -/

/-- Tile sizes selection specific for matmul
(`getTileSizesForOptimalMappingMatmulImpl`). The reads `dims[0..2]` abort when
the op has fewer than three loops. -/
def getTileSizesForOptimalMappingMatmulImpl (linalgOp : GenericOp) :
    Except String (List Int) :=
  let dims := linalgOp.computeStaticLoopSizes
  match dims[0]?, dims[1]?, dims[2]? with
  | some m, some n, some k =>
    let bestTileN₀ := n
    let bestTileN :=
      if n.tmod 16 = 0 then
        let t := n - n.tmod 16
        if t > 64 then 64 else t
      else bestTileN₀
    let bestTileK := k
    let bestTileM := if m.tmod 32 = 0 then 32 else m
    let tppTiles : List Int := List.replicate 3 0
    -- do not tile.
    if bestTileM = m ∧ bestTileK = k ∧ bestTileN = n then
      .ok tppTiles
    else
      .ok (((tppTiles.set 0 bestTileM).set 1 bestTileN).set 2 bestTileK)
  | _, _, _ => .error "idx < size()"

/-- Body of the loop `for (idx = 0; idx < dims.size(); idx++)` of
`getTileSizesForOptimalMappingImpl`: `remaining` iterations are left, the next
one at index `idx`. -/
def getTileSizesForOptimalMappingImpl.loop (dims : List Int) :
    Nat → Nat → List Int → List Int
  | 0, _, tppTiles => tppTiles
  | remaining + 1, idx, tppTiles =>
    let d := dims.getD idx 0
    let tppTiles :=
      if d.tmod 32 = 0 then
        if d = 32 then tppTiles.set idx 0 else tppTiles.set idx 32
      else
        -- do not tile.
        tppTiles.set idx 0
    getTileSizesForOptimalMappingImpl.loop dims remaining (idx + 1) tppTiles

/-- Tile sizes selection for all the other tpp ops
(`getTileSizesForOptimalMappingImpl`). -/
def getTileSizesForOptimalMappingImpl (linalgOp : GenericOp) : List Int :=
  let dims := linalgOp.computeStaticLoopSizes
  let tppTiles : List Int := List.replicate dims.length 0
  getTileSizesForOptimalMappingImpl.loop dims dims.length 0 tppTiles

/-! ## Memref types

The queries of upstream MLIR that the conversion calls on memref types. Layouts
are identified by their offset and strides, both static. -/

/-- The sentinel `ShapedType::kDynamicSize` that `getShape` reports for a dynamic
extent. Every embedded reader of `getShape` runs behind a static-shape check, so
its value is immaterial. -/
def kDynamicSize : Int := -1

namespace MemRefType

/-- The rank, `getRank`. -/
def getRank (t : MemRefType) : Nat := t.shape.length

/-- The query `hasStaticShape`: no extent is dynamic. -/
def hasStaticShape (t : MemRefType) : Bool := t.shape.all Option.isSome

/-- The extents as `int64_t`s, `getShape`. -/
def getShape (t : MemRefType) : List Int := t.shape.map (fun d => d.getD kDynamicSize)

/-- The invariant of a strided layout that the memref verifier enforces: it has
one stride per dimension. -/
def hasValidLayout (t : MemRefType) : Bool :=
  match t.layout with
  | .identity => true
  | .strided _ strides => strides.length == t.getRank

end MemRefType

/-- Row-major (contiguous) strides of a shape: the stride of a dimension is the
product of the extents to its right. -/
def canonicalStrides : List Int → List Int
  | [] => []
  | _ :: ds => ds.prod :: canonicalStrides ds

/-- Strides and offset of a memref type, `getStridesAndOffset`. -/
def getStridesAndOffset (t : MemRefType) : List Int × Int :=
  match t.layout with
  | .identity => (canonicalStrides t.getShape, 0)
  | .strided offset strides => (strides, offset)

/-- The normal form `canonicalizeStridedLayout`: a strided layout that is the
contiguous one (offset 0, row-major strides) becomes the identity layout. -/
def canonicalizeStridedLayout (t : MemRefType) : MemRefType :=
  match t.layout with
  | .identity => t
  | .strided offset strides =>
    if offset = 0 ∧ strides = canonicalStrides t.getShape then
      { t with layout := .identity }
    else t

/-- Result type of a sub-view with static offsets, sizes and strides,
`SubViewOp::inferResultType`: the offset is
`sourceOffset + sum_i (staticOffset_i * sourceStride_i)` and the i-th stride is
`sourceStride_i * staticStride_i`. -/
def inferResultType (sourceMemRefType : MemRefType)
    (staticOffsets staticSizes staticStrides : List Int) : MemRefType :=
  let (sourceStrides, sourceOffset) := getStridesAndOffset sourceMemRefType
  let targetOffset :=
    (List.zip staticOffsets sourceStrides).foldl
      (fun acc p => acc + p.1 * p.2) sourceOffset
  let targetStrides :=
    (List.zip sourceStrides staticStrides).map (fun p => p.1 * p.2)
  { sourceMemRefType with
    shape := staticSizes.map some
    layout := .strided targetOffset targetStrides }

/-- The greedy scan `computeRankReductionMask`: walks the original shape and
matches it against the reduced shape; an unmatched extent must be 1 and is
marked as dropped (`true`). Fails when an unmatched extent is not 1 or when the
reduced shape is not consumed. -/
def computeRankReductionMask : List Int → List Int → Option (List Bool)
  | [], [] => some []
  | [], _ :: _ => none
  | o :: os, [] =>
    if o = 1 then (computeRankReductionMask os []).map (true :: ·) else none
  | o :: os, r :: rs =>
    if o = r then (computeRankReductionMask os rs).map (false :: ·)
    else if o = 1 then (computeRankReductionMask os (r :: rs)).map (true :: ·)
    else none

/-- Keeps the entries of `xs` whose mask bit is `false` (not dropped). -/
def projectOut : List Int → List Bool → List Int
  | x :: xs, b :: bs => if b then projectOut xs bs else x :: projectOut xs bs
  | _, _ => []

/-- Rank-reduced result type, `SubViewOp::inferRankReducedResultType`: the inferred
type when the ranks agree, otherwise the inferred type with the dropped
dimensions projected out of shape and strides. It asserts that the rank
reduction is valid. -/
def inferRankReducedResultType (resultShape : List Int) (sourceType : MemRefType)
    (offsets sizes strides : List Int) : Except String MemRefType :=
  let inferredType := inferResultType sourceType offsets sizes strides
  if inferredType.getRank < resultShape.length then
    .error "expected inferred rank to be at least the result rank"
  else if inferredType.getRank = resultShape.length then
    .ok inferredType
  else
    match computeRankReductionMask inferredType.getShape resultShape with
    | none => .error "invalid rank reduction"
    | some dimsToProject =>
      let (inferredStrides, inferredOffset) := getStridesAndOffset inferredType
      .ok { inferredType with
            shape := resultShape.map some
            layout := .strided inferredOffset (projectOut inferredStrides dimsToProject) }

/-! ## Operations and the rewriter -/

/-- The fixed kernels of the TPP dialect. -/
inductive TppKernel where
  | identity
  | relu
  | add
  | matmul
  | brgemm
deriving DecidableEq, Repr

/-- The operations the conversion creates: a `memref.subview`, a TPP operation
with its operands in order, and the loop nest that upstream tiling leaves in
place of a tiled generic. -/
inductive Operation where
  | subview (result : Value) (source : Value) (offsets sizes strides : List Int)
  | tpp (kernel : TppKernel) (operands : List Value)
  | tiledLoopNest (parallel : Bool) (tileSizes : List Int) (op : GenericOp)
deriving DecidableEq, Repr

/-- What stands at the position of the operation a pattern is applied to. -/
inductive RootState where
  | inPlace
  | erased
  | replacedBy (op : Operation)
deriving DecidableEq, Repr

/-- State of an `OpBuilder` / `PatternRewriter` during one pattern application:
the next unused SSA id, the operations inserted so far (in creation order) and
the fate of the root operation. -/
structure Rewriter where
  nextValue : Nat
  inserted : List Operation
  root : RootState
deriving DecidableEq, Repr

namespace Rewriter

/-- Creates a `memref.subview` with the given result type (`builder.create`) and
returns its result value. -/
def createSubView (b : Rewriter) (resultType : MemRefType) (source : Value)
    (offsets sizes strides : List Int) : Value × Rewriter :=
  let result : Value := { id := b.nextValue, type := .memref resultType }
  (result, { b with
    nextValue := b.nextValue + 1
    inserted := b.inserted ++ [.subview result source offsets sizes strides] })

/-- Replaces the root by a newly created operation (`replaceOpWithNewOp`). -/
def replaceOpWithNewOp (b : Rewriter) (op : Operation) : Rewriter :=
  { b with root := .replacedBy op }

/-- Erases the root operation (`eraseOp`). -/
def eraseOp (b : Rewriter) : Rewriter := { b with root := .erased }

/-- Inserts an operation at the insertion point. -/
def insert (b : Rewriter) (op : Operation) : Rewriter :=
  { b with inserted := b.inserted ++ [op] }

end Rewriter

/-- The result of a rewrite step: `success()`, a plain `failure()`, a match
failure reported with `notifyMatchFailure`, or the failure that results from
emitting an error diagnostic with `emitError`. -/
inductive LogicalResult where
  | success
  | failure
  | matchFailure (reason : String)
  | error (diagnostic : String)
deriving DecidableEq, Repr

/-- The predicate `failed`. -/
def failed (r : LogicalResult) : Bool := r != .success

/-- The predicate `succeeded`. -/
def succeeded (r : LogicalResult) : Bool := r == .success

/-! ## Shape normalizer -/

/-- Type of `input` with its unit dimensions dropped (`dropUnitDims`). -/
def dropUnitDims (inputType : MemRefType) (offsets sizes strides : List Int) :
    Except String MemRefType :=
  let targetShape := sizes.filter (fun sz => sz != 1)
  match inferRankReducedResultType targetShape inputType offsets sizes strides with
  | .error e => .error e
  | .ok rankReducedType => .ok (canonicalizeStridedLayout rankReducedType)

/-- Reduce rank for `input` by dropping unit dimension
(`rankReducingSubviewDroppingUnitDims`). -/
def rankReducingSubviewDroppingUnitDims (builder : Rewriter) (input : Value) :
    Except String (Value × Rewriter) :=
  match input.type with
  | .memref inputType =>
    if !inputType.hasStaticShape then .error "expect static shape"
    else
      let subViewOffsets : List Int := List.replicate inputType.getRank 0
      let subViewStrides : List Int := List.replicate inputType.getRank 1
      let subViewSizes := inputType.getShape
      match dropUnitDims inputType subViewOffsets subViewSizes subViewStrides with
      | .error e => .error e
      | .ok resultType =>
        if canonicalizeStridedLayout resultType = canonicalizeStridedLayout inputType then
          .ok (input, builder)
        else
          .ok (builder.createSubView resultType input subViewOffsets subViewSizes
            subViewStrides)
  | _ => .error "cast<MemRefType>() argument of incompatible type"

/-! ## Queries on a generic op -/

namespace Ty

/-- Whether the type is a `ShapedType`. -/
def isShaped : Ty → Bool
  | .scalar _ => false
  | .memref _ => true
  | .tensor _ _ => true

/-- Rank of a shaped type. -/
def getRank : Ty → Nat
  | .scalar _ => 0
  | .memref t => t.getRank
  | .tensor shape _ => shape.length

/-- Whether the type is a `MemRefType`. -/
def isMemRef : Ty → Bool
  | .memref _ => true
  | _ => false

end Ty

namespace GenericOp

/-- The query `hasBufferSemantics` of upstream linalg: the op has no result and
every operand is a scalar or a memref. -/
def hasBufferSemantics (op : GenericOp) : Bool :=
  op.numResults == 0 && op.operands.all (fun v => !v.type.isShaped || v.type.isMemRef)

/-- The accessor `getNumInputs`. -/
def getNumInputs (op : GenericOp) : Nat := op.numInputs

/-- The accessor `getNumResults`. -/
def getNumResults (op : GenericOp) : Nat := op.numResults

end GenericOp

/-- Modelled from the spec: `hasTppMark` is declared in
`TPP/Dialect/Tpp/TppUtils.h` and its body is not among the sources. The op bears
the tpp mark when its library-call annotation is non-empty and names a kernel of
the `tpp` family, that is, the text of the annotation before its first `.` is
`tpp`. -/
def hasTppMark (linalgOp : GenericOp) : Bool :=
  let libraryCall := linalgOp.getLibraryCallName
  !libraryCall.isEmpty &&
    libraryCall.toList.takeWhile (fun c => c != '.') == "tpp".toList

/-- Modelled from the spec: `isMarkedWithTpp` is declared in
`TPP/Dialect/Tpp/TppUtils.h` and its body is not among the sources. The op is
marked with `target` when its library-call annotation is exactly `target`. -/
def isMarkedWithTpp (linalgOp : GenericOp) (target : String) : Bool :=
  linalgOp.getLibraryCallName == target

/-- The predicate `linalg::isParallelIterator`. -/
def isParallelIterator (t : IteratorType) : Bool := t == .parallel

/-! ## Reshaping to two dimensions -/

/-- The loop `for (i = 0; i < numberOfLoops; i++) tppTiles.push_back(1)`. -/
def getTileSizes.pushLoop : Nat → List Int → List Int
  | 0, tppTiles => tppTiles
  | remaining + 1, tppTiles => getTileSizes.pushLoop remaining (tppTiles ++ [1])

/-- Tiling function to remove all but the zero and first dimension
(`getTileSizes`). The indices `numberOfLoops - 1` and `numberOfLoops - 2` are
`size_t` and wrap modulo `2^64`; a write outside the vector aborts. -/
def getTileSizes (linalgOp : GenericOp) : Except String (List Int) :=
  let numberOfLoops := linalgOp.getNumLoops
  let tppTiles := getTileSizes.pushLoop numberOfLoops []
  let zeroVal : Int := 0
  let last := (numberOfLoops + 2 ^ 64 - 1) % 2 ^ 64
  let beforeLast := (numberOfLoops + 2 ^ 64 - 2) % 2 ^ 64
  if last < tppTiles.length then
    let tppTiles := tppTiles.set last zeroVal
    if beforeLast < tppTiles.length then
      .ok (tppTiles.set beforeLast zeroVal)
    else .error "idx < size()"
  else .error "idx < size()"

/-- The options handed to upstream tiling: the loop type and the function that
computes the tile sizes. -/
structure LinalgTilingOptions where
  parallelLoops : Bool
  tileSizeComputationFunction : GenericOp → Except String (List Int)

/-- Model of upstream `linalg::tileLinalgOp`: it evaluates the tile-size function
on the op and, when tiling is possible (decided by the parameter `canTile`),
inserts the tiled loop nest and returns it; otherwise it fails and inserts
nothing. -/
def linalg.tileLinalgOp (canTile : GenericOp → List Int → Bool) (rewriter : Rewriter)
    (linalgOp : GenericOp) (options : LinalgTilingOptions) :
    Except String (Option Operation × Rewriter) :=
  match options.tileSizeComputationFunction linalgOp with
  | .error e => .error e
  | .ok tileSizes =>
    if canTile linalgOp tileSizes then
      let tiled := Operation.tiledLoopNest options.parallelLoops tileSizes linalgOp
      .ok (some tiled, rewriter.insert tiled)
    else .ok (none, rewriter)

/-- Make the generic operation mappable to tpp by preserving the last and first
dimension only (`reshape2D`). -/
def reshape2D (canTile : GenericOp → List Int → Bool) (rewriter : Rewriter)
    (linalgOp : GenericOp) (useParallelLoops : Bool) :
    Except String (LogicalResult × Rewriter) :=
  if !linalgOp.hasBufferSemantics then
    .ok (.error "Expect linalgOp with buffer semantics", rewriter)
  -- bail-out if we don't need to do tiling or all the dimensions are not parallel.
  else if linalgOp.getNumLoops ≤ 2 then
    .ok (.success, rewriter)
  else if !linalgOp.iteratorTypes.all isParallelIterator then
    .ok (.success, rewriter)
  else
    let linalgTilingOptions : LinalgTilingOptions :=
      { parallelLoops := useParallelLoops, tileSizeComputationFunction := getTileSizes }
    match linalg.tileLinalgOp canTile rewriter linalgOp linalgTilingOptions with
    | .error e => .error e
    | .ok (none, rewriter) => .ok (.error "Failed to tile linalgOp", rewriter)
    | .ok (some _, rewriter) => .ok (.success, rewriter.eraseOp)

/-- The pattern `ReshapeGenericOpForTpp`: loops are forced to be sequential. -/
def ReshapeGenericOpForTpp.matchAndRewrite (canTile : GenericOp → List Int → Bool)
    (linalgOp : GenericOp) (rewriter : Rewriter) :
    Except String (LogicalResult × Rewriter) :=
  reshape2D canTile rewriter linalgOp false

/-! ## Conversion of an annotated generic to a TPP operation -/

/-- Given an operand returns the updated operand to be used when building a TPP
operation (`getOperandForTpp`): scalars and shaped operands of rank at most 2
are returned as they are, shaped operands of higher rank are rank reduced. -/
def getOperandForTpp (operand : Value) (rewriter : Rewriter) :
    Except String (Value × Rewriter) :=
  if !operand.type.isShaped then .ok (operand, rewriter)
  else if operand.type.getRank ≤ 2 then .ok (operand, rewriter)
  -- Attempt to rank reduce, it may fail.
  else rankReducingSubviewDroppingUnitDims rewriter operand

/-- Check that an operand is a scalar or a shaped type of rank at most 2
(`checkOperandForTpp`). -/
def checkOperandForTpp (operand : Value) : LogicalResult :=
  if !operand.type.isShaped then .success
  else if operand.type.isShaped && operand.type.getRank ≤ 2 then .success
  else .failure

/-- The method `ConvertGenericOpToTpp::rewriteToTppOp`. Reads `operands[i]`
outside the list abort, as does the assertion on the operand count of
`tpp.identity`. -/
def ConvertGenericOpToTpp.rewriteToTppOp (linalgOp : GenericOp) (operands : List Value)
    (rewriter : Rewriter) : Except String (LogicalResult × Rewriter) :=
  let libraryCall := linalgOp.getLibraryCallName
  if libraryCall = "tpp.identity" then
    if operands.length ≠ 2 then .error "Expect two operands"
    else
      match operands[0]?, operands[1]? with
      | some o0, some o1 =>
        .ok (.success, rewriter.replaceOpWithNewOp (.tpp .identity [o0, o1]))
      | _, _ => .error "Invalid index!"
  else if libraryCall = "tpp.relu" then
    if linalgOp.getNumInputs = 2 then
      match operands[0]?, operands[1]? with
      | some o0, some o1 =>
        .ok (.success, rewriter.replaceOpWithNewOp (.tpp .relu [o0, o1]))
      | _, _ => .error "Invalid index!"
    else
      match operands[0]? with
      | some o0 => .ok (.success, rewriter.replaceOpWithNewOp (.tpp .relu [o0, o0]))
      | none => .error "Invalid index!"
  else if libraryCall = "tpp.add" then
    match operands[0]?, operands[1]? with
    | some o0, some o1 =>
      .ok (.success, rewriter.replaceOpWithNewOp (.tpp .add [o0, o1]))
    | _, _ => .error "Invalid index!"
  else if libraryCall = "tpp.matmul" then
    match operands[0]?, operands[1]?, operands[2]? with
    | some o0, some o1, some o2 =>
      .ok (.success, rewriter.replaceOpWithNewOp (.tpp .matmul [o0, o1, o2]))
    | _, _, _ => .error "Invalid index!"
  else
    .ok (.matchFailure "failed to match a known library_call attribute", rewriter)

/-- Where `ConvertGenericOpToTpp::matchAndRewrite` stands after its checks: it
has returned a result, or it has reached its last statement, the call of
`rewriteToTppOp`, with the prepared operands. -/
inductive MatchStage where
  | returned (result : LogicalResult)
  | kernelSelection (newOperands : List Value)
deriving DecidableEq, Repr

/-- The loop `for (Value operand : linalgOp->getOperands())` of `matchAndRewrite`,
with the operands still to visit and the operands collected so far. -/
def ConvertGenericOpToTpp.operandLoop :
    List Value → Rewriter → List Value → Except String (MatchStage × Rewriter)
  | [], rewriter, newOperands => .ok (.kernelSelection newOperands, rewriter)
  | operand :: rest, rewriter, newOperands =>
    match getOperandForTpp operand rewriter with
    | .error e => .error e
    | .ok (newOperand, rewriter) =>
      if failed (checkOperandForTpp newOperand) then
        .ok (.returned (.matchFailure "expect scalar or rank 2 memref"), rewriter)
      else
        ConvertGenericOpToTpp.operandLoop rest rewriter (newOperands ++ [newOperand])

/-- The checks of `ConvertGenericOpToTpp::matchAndRewrite`, up to the call of
`rewriteToTppOp`. -/
def ConvertGenericOpToTpp.checks (linalgOp : GenericOp) (rewriter : Rewriter) :
    Except String (MatchStage × Rewriter) :=
  if !linalgOp.hasBufferSemantics then
    .ok (.returned (.matchFailure "expect buffer semantics"), rewriter)
  else if linalgOp.libraryCall.isNone || !hasTppMark linalgOp then
    .ok (.returned (.matchFailure "not enough information to map to tpps"), rewriter)
  else if linalgOp.getNumResults != 0 then
    .ok (.returned (.matchFailure "expect at least 1 result"), rewriter)
  else
    ConvertGenericOpToTpp.operandLoop linalgOp.operands rewriter []

/-- The method `ConvertGenericOpToTpp::matchAndRewrite`. -/
def ConvertGenericOpToTpp.matchAndRewrite (linalgOp : GenericOp) (rewriter : Rewriter) :
    Except String (LogicalResult × Rewriter) :=
  match ConvertGenericOpToTpp.checks linalgOp rewriter with
  | .error e => .error e
  | .ok (.returned result, rewriter) => .ok (result, rewriter)
  | .ok (.kernelSelection newOperands, rewriter) =>
    ConvertGenericOpToTpp.rewriteToTppOp linalgOp newOperands rewriter

/-! ## The named-op patterns and the pattern set -/

/-- A `linalg.matmul` or `linalg.batch_reduce_matmul` as far as its pattern
inspects it. -/
structure NamedOp where
  inputs : List Value
  outputs : List Value
  numResults : Nat
deriving DecidableEq, Repr

/-- The query `hasBufferSemantics` on a named op. -/
def NamedOp.hasBufferSemantics (op : NamedOp) : Bool :=
  op.numResults == 0 &&
    (op.inputs ++ op.outputs).all (fun v => !v.type.isShaped || v.type.isMemRef)

/-- The pattern `ConvertBrgemmToTpp`. -/
def ConvertBrgemmToTpp.matchAndRewrite (brMatmulOp : NamedOp) (rewriter : Rewriter) :
    Except String (LogicalResult × Rewriter) :=
  if !brMatmulOp.hasBufferSemantics then
    .ok (.matchFailure "expect buffer semantics", rewriter)
  else
    match brMatmulOp.outputs[0]? with
    | some out =>
      .ok (.success, rewriter.replaceOpWithNewOp (.tpp .brgemm (brMatmulOp.inputs ++ [out])))
    | none => .error "idx < size()"

/-- The pattern `ConvertMatmulToTpp`. -/
def ConvertMatmulToTpp.matchAndRewrite (matmulOp : NamedOp) (rewriter : Rewriter) :
    Except String (LogicalResult × Rewriter) :=
  if !matmulOp.hasBufferSemantics then
    .ok (.matchFailure "expect buffer semantics", rewriter)
  else
    match matmulOp.outputs[0]? with
    | some out =>
      .ok (.success, rewriter.replaceOpWithNewOp (.tpp .matmul (matmulOp.inputs ++ [out])))
    | none => .error "idx < size()"

/-- The operation a pattern is tried on. -/
inductive RootOp where
  | generic (op : GenericOp)
  | matmul (op : NamedOp)
  | batchReduceMatmul (op : NamedOp)
deriving DecidableEq, Repr

/-- The four patterns that `populateConvertLinalgToTppPatterns` adds itself. -/
inductive Pattern where
  | ConvertGenericOpToTpp
  | ConvertBrgemmToTpp
  | ConvertMatmulToTpp
  | ReshapeGenericOpForTpp
deriving DecidableEq, Repr

/-- The patterns added by `populateConvertLinalgToTppPatterns`, in order. (The
patterns of `populateMapLinalgToTppPatterns`, defined elsewhere, are not
included.) -/
def populateConvertLinalgToTppPatterns : List Pattern :=
  [.ConvertGenericOpToTpp, .ConvertBrgemmToTpp, .ConvertMatmulToTpp, .ReshapeGenericOpForTpp]

/-- Tries a pattern on an operation. An `OpRewritePattern<T>` is only ever
applied to operations of kind `T`; on any other operation it does not match. -/
def Pattern.matchAndRewrite (canTile : GenericOp → List Int → Bool) :
    Pattern → RootOp → Rewriter → Except String (LogicalResult × Rewriter)
  | .ConvertGenericOpToTpp, .generic op, rewriter =>
    ConvertGenericOpToTpp.matchAndRewrite op rewriter
  | .ReshapeGenericOpForTpp, .generic op, rewriter =>
    ReshapeGenericOpForTpp.matchAndRewrite canTile op rewriter
  | .ConvertBrgemmToTpp, .batchReduceMatmul op, rewriter =>
    ConvertBrgemmToTpp.matchAndRewrite op rewriter
  | .ConvertMatmulToTpp, .matmul op, rewriter =>
    ConvertMatmulToTpp.matchAndRewrite op rewriter
  | _, _, rewriter => .ok (.failure, rewriter)

/-! ## Tiling of an annotated generic and the pass -/

/-- Try to select optimal tile sizes (`getTileSizesForOptimalMapping`). -/
def getTileSizesForOptimalMapping (linalgOp : GenericOp) : Except String (List Int) :=
  if isMarkedWithTpp linalgOp "tpp.matmul" then
    getTileSizesForOptimalMappingMatmulImpl linalgOp
  else .ok (getTileSizesForOptimalMappingImpl linalgOp)

/-- The option setter `LinalgTilingOptions::setTileSizes` of upstream linalg: the
tile-size function returns the given constants whatever the op. -/
def LinalgTilingOptions.setTileSizes (options : LinalgTilingOptions) (ts : List Int) :
    LinalgTilingOptions :=
  { options with tileSizeComputationFunction := fun _ => .ok ts }

/-- The option setter `setTileSizeComputationFunction`. -/
def LinalgTilingOptions.setTileSizeComputationFunction (options : LinalgTilingOptions)
    (f : GenericOp → Except String (List Int)) : LinalgTilingOptions :=
  { options with tileSizeComputationFunction := f }

/-- Tile the generic operation such that we can select the best micro-kernel
(`tileLinalgOp` of this repository). The rewriter state stands for the builder
the function creates at the op. -/
def tileLinalgOp (canTile : GenericOp → List Int → Bool) (linalgOp : GenericOp)
    (tileSizes : List Int) (rewriter : Rewriter) :
    Except String (LogicalResult × Rewriter) :=
  if !linalgOp.hasBufferSemantics then
    .ok (.error "Expect linalgOp with buffer semantics", rewriter)
  else if !hasTppMark linalgOp then
    .ok (.failure, rewriter)
  else
    let linalgTilingOptions : LinalgTilingOptions :=
      { parallelLoops := false, tileSizeComputationFunction := fun _ => .ok [] }
    let linalgTilingOptions :=
      if tileSizes.length != 0 then linalgTilingOptions.setTileSizes tileSizes
      else linalgTilingOptions.setTileSizeComputationFunction getTileSizesForOptimalMapping
    match linalg.tileLinalgOp canTile rewriter linalgOp linalgTilingOptions with
    | .error e => .error e
    | .ok (none, rewriter) => .ok (.error "Failed to tile linalgOp", rewriter)
    | .ok (some _, rewriter) => .ok (.success, rewriter.eraseOp)

/-- The options of the pass `ConvertLinalgToTpp`. -/
structure ConvertLinalgToTpp where
  enableTiling : Bool
  useParallelLoops : Bool
  tileSizes : List Int
deriving DecidableEq, Repr

/-- The builder `OpBuilder builder(linalgOp)` that the pass creates at an op:
nothing inserted yet, the op in place. -/
def Rewriter.atOp : Rewriter := { nextValue := 0, inserted := [], root := .inPlace }

/-- The first statement of `ConvertLinalgToTpp::runOnOperation`: the walk that
calls `reshape2D` on every generic op of the function, each with its own
rewriter, and calls `signalPassFailure` when `reshape2D` fails. The callback
returns `void`, so the walk goes on after a failure. The result is the pass
failure flag and, for each op in order, what `reshape2D` returned and did. -/
def ConvertLinalgToTpp.reshapeWalk (canTile : GenericOp → List Int → Bool)
    (pass : ConvertLinalgToTpp) :
    List GenericOp → Bool → Except String (Bool × List (LogicalResult × Rewriter))
  | [], passFailed => .ok (passFailed, [])
  | linalgOp :: rest, passFailed =>
    match reshape2D canTile Rewriter.atOp linalgOp pass.useParallelLoops with
    | .error e => .error e
    | .ok (result, rewriter) =>
      match ConvertLinalgToTpp.reshapeWalk canTile pass rest (passFailed || failed result) with
      | .error e => .error e
      | .ok (flag, outcomes) => .ok (flag, (result, rewriter) :: outcomes)

set_option linter.unusedVariables false in
/-- The constructor `ConvertLinalgToTpp(bool enabledPreconditions, bool
useParallelLoops, ArrayRef<int64_t> tileSizes)`. The members start from the
values that the generated base class `ConvertLinalgToTppBase` gives the options;
their declaration is not among the sources, so they are the parameter
`defaults`. In `this->enableTiling = enableTiling` no parameter is named
`enableTiling`: the right-hand side is the member itself. -/
def ConvertLinalgToTpp.new (defaults : ConvertLinalgToTpp)
    (enabledPreconditions useParallelLoops : Bool) (tileSizes : List Int) :
    ConvertLinalgToTpp :=
  let this := defaults
  let this := { this with enableTiling := this.enableTiling }
  let this := { this with useParallelLoops := useParallelLoops }
  { this with tileSizes := tileSizes }

/-- The factory `createConvertLinalgToTppPass(bool enableTiling, bool
useParallelLoops, ArrayRef<int64_t> tileSizes)`, which forwards its arguments to
the constructor. -/
def createConvertLinalgToTppPass (defaults : ConvertLinalgToTpp)
    (enableTiling useParallelLoops : Bool) (tileSizes : List Int) : ConvertLinalgToTpp :=
  ConvertLinalgToTpp.new defaults enableTiling useParallelLoops tileSizes

/-- The loop of the tiling walk: `(void)tileLinalgOp(linalgOp, tileSizes)` on
every generic op, each with its own builder; the results are discarded by the
pass and returned here for inspection. -/
def ConvertLinalgToTpp.tilingLoop (canTile : GenericOp → List Int → Bool)
    (pass : ConvertLinalgToTpp) :
    List GenericOp → Except String (List (LogicalResult × Rewriter))
  | [] => .ok []
  | linalgOp :: rest =>
    match tileLinalgOp canTile linalgOp pass.tileSizes Rewriter.atOp with
    | .error e => .error e
    | .ok outcome =>
      match ConvertLinalgToTpp.tilingLoop canTile pass rest with
      | .error e => .error e
      | .ok outcomes => .ok (outcome :: outcomes)

/-- The second statement of `ConvertLinalgToTpp::runOnOperation`: when
`enableTiling || tileSizes.size()`, the walk that calls `tileLinalgOp` on every
generic op of the function. The result is `none` when the walk does not run. -/
def ConvertLinalgToTpp.tilingWalk (canTile : GenericOp → List Int → Bool)
    (pass : ConvertLinalgToTpp) (ops : List GenericOp) :
    Except String (Option (List (LogicalResult × Rewriter))) :=
  if pass.enableTiling || pass.tileSizes.length != 0 then
    match ConvertLinalgToTpp.tilingLoop canTile pass ops with
    | .error e => .error e
    | .ok outcomes => .ok (some outcomes)
  else .ok none

/-! ## Folding a sub-view of a sub-view -/

/-- An `OpFoldResult`: a static index attribute or an SSA value. The SSA value
that a `dim` operation created on the fly yields for dimension `index` of
`source` is written `dim source index`. -/
inductive OpFoldResult where
  | attr (value : Int)
  | value (v : Value)
  | dim (source : Value) (index : Nat)
deriving DecidableEq, Repr

/-- A `memref.subview` with its mixed offsets, sizes and strides and its result
value, whose type is the declared result type. -/
structure SubViewOp where
  source : Value
  offsets : List OpFoldResult
  sizes : List OpFoldResult
  strides : List OpFoldResult
  result : Value
deriving DecidableEq, Repr

/-- The pattern `SubViewOfSubViewWithUnitDims`. The parameter `getDefiningSubView`
is `getDefiningOp<memref::SubViewOp>` of the surrounding IR and `nextValue` the
id of the next SSA value. On success the second component is the sub-view that
was created and whose result replaces the result of `subViewOp`. -/
def SubViewOfSubViewWithUnitDims.matchAndRewrite
    (getDefiningSubView : Value → Option SubViewOp) (subViewOp : SubViewOp)
    (nextValue : Nat) : Except String (LogicalResult × Option SubViewOp) :=
  let source := subViewOp.source
  match source.type with
  | .memref sourceType =>
    -- bail out if the memref is dynamic.
    if !sourceType.hasStaticShape then .ok (.failure, none)
    else
      let numberOfOnes := sourceType.getShape.filter (fun sz => sz == 1)
      -- no work to do.
      if numberOfOnes.length == 0 then .ok (.failure, none)
      else
        -- the producer of the current memref should be another subview.
        match getDefiningSubView source with
        | none => .ok (.failure, none)
        | some producer =>
          match subViewOp.result.type with
          | .memref resultType =>
            let rankReduced : SubViewOp :=
              { source := producer.source
                offsets := producer.offsets
                sizes := producer.sizes
                strides := producer.strides
                result := { id := nextValue, type := .memref resultType } }
            .ok (.success, some rankReduced)
          | _ => .error "cast<MemRefType>() argument of incompatible type"
  | _ => .error "cast<MemRefType>() argument of incompatible type"

/-! ## Mapping a convolution to a matmul (`lib/TPP/MapConvToMatmul.cpp`)

Conventions: an `unsigned` is a natural number below `2^32` and a `size_t` one
below `2^64`, with wrapping subtraction written out; the constants of affine
expressions are `int64_t` values whose products are assumed not to overflow. -/

/-- Kinds of binary affine expressions. -/
inductive AffineExprKind where
  | Add
  | Mul
  | Mod
  | FloorDiv
  | CeilDiv
deriving DecidableEq, Repr

/-- An affine expression: a loop dimension, a symbol, a constant or a binary
expression. -/
inductive AffineExpr where
  | dim (position : Nat)
  | symbol (position : Nat)
  | constant (value : Int)
  | binary (kind : AffineExprKind) (lhs rhs : AffineExpr)
deriving DecidableEq, Repr

/-- A `linalg::LinalgOp` as far as the convolution mapping inspects it. The flags
record the answers of queries whose code is not part of this file:
`isa<linalg::GenericOp>`, `verifyConvolutionInterface` of upstream linalg and
`tpp::hasMatmulBody`. The operands are the inputs followed by the outputs and
`indexingMaps` holds, per operand, the results of its indexing map. -/
structure LinalgOp where
  isGeneric : Bool
  isConvolution : Bool
  hasMatmulBody : Bool
  hasTensorSemantics : Bool
  iteratorTypes : List IteratorType
  inputs : List Value
  outputs : List Value
  indexingMaps : List (List AffineExpr)
deriving DecidableEq, Repr

/-- The extents of a shaped type (`cast<ShapedType>().getShape()`); the cast
asserts on a type that is not shaped. -/
def Ty.getShape (ty : Ty) : Except String (List (Option Int)) :=
  match ty with
  | .memref t => .ok t.shape
  | .tensor shape _ => .ok shape
  | .scalar _ => .error "cast<ShapedType>() argument of incompatible type"

/-- Conversion of an `int64_t` to `unsigned`. -/
def toUnsigned (x : Int) : Nat := (x % 2 ^ 32).toNat

/-- The helper `linalg::createFoldedDimOp` of upstream linalg: the extent as an
index attribute when it is static, a `dim` operation on the value otherwise.
Asking for a dimension outside the rank asserts. -/
def createFoldedDimOp (source : Value) (dim : Int) : Except String OpFoldResult :=
  match source.type.getShape with
  | .error e => .error e
  | .ok shape =>
    if dim < 0 then .error "invalid index for shaped type"
    else
      match shape[dim.toNat]? with
      | none => .error "invalid index for shaped type"
      | some (some n) => .ok (.attr n)
      | some none => .ok (.dim source dim.toNat)

/-- Return the size of the image slice to extract and use into the GEMM
operation (`computeSizeGemmForImage`): ones for all dimensions but the last two,
then the second-to-last extent of the output and of the filter. -/
def computeSizeGemmForImage (linalgOp : LinalgOp) : Except String (List OpFoldResult) :=
  match linalgOp.inputs[0]? with
  | none => .error "idx < size()"
  | some image =>
    match image.type.getShape with
    | .error e => .error e
    | .ok imageShape =>
      let rank := imageShape.length % 2 ^ 32
      -- All other dimesions but the last two are not involved.
      let e := (rank + 2 ^ 32 - 2) % 2 ^ 32
      let sizes : List OpFoldResult := List.replicate e (.attr 1)
      match linalgOp.outputs[0]?, linalgOp.inputs[1]? with
      | some output, some filter =>
        match output.type.getShape, filter.type.getShape with
        | .ok outputShape, .ok filterShape =>
          let mIdx : Int := (outputShape.length : Int) - 2
          let kIdx : Int := (filterShape.length : Int) - 2
          match createFoldedDimOp output mIdx, createFoldedDimOp filter kIdx with
          | .ok m, .ok k => .ok (sizes ++ [m] ++ [k])
          | .error e, _ => .error e
          | _, .error e => .error e
        | .error e, _ => .error e
        | _, .error e => .error e
      | _, _ => .error "idx < size()"

/-- Check dimension at index `i` and `j`: true when both are 1
(`hasFilterWithRandSEqualOne`). The indices must be in range and the extents
static, which is asserted. -/
def hasFilterWithRandSEqualOne (filter : Value) (i j : Nat) : Except String Bool :=
  match filter.type.getShape with
  | .error e => .error e
  | .ok filterShape =>
    if !(i < filterShape.length) then .error "out of bound"
    else if !(j < filterShape.length) then .error "out of bound"
    else
      match filterShape[i]?, filterShape[j]? with
      | some (some ei), some (some ej) => .ok (ei == 1 && ej == 1)
      | _, _ => .error "must be static"

/-- Return success if `expr` is either a dimExpr or a mul expression dim * cst
or cst * dim (`isDimExprOrMulExpr`). The multiplicative factor, passed by
reference in the source, is returned; it is always a constant. A symbol operand
of a product trips an assertion. -/
def isDimExprOrMulExpr (expr : AffineExpr) (multiplicativeFactor : Int) :
    Except String (LogicalResult × Int) :=
  match expr with
  | .dim _ => .ok (.success, multiplicativeFactor)
  | .binary kind lhs rhs =>
    if kind != .Mul then .ok (.failure, multiplicativeFactor)
    else
      match lhs, rhs with
      | .symbol _, _ => .error "unexpected symbol expr"
      | _, .symbol _ => .error "unexpected symbol expr"
      -- If the lhs is a constant the rhs is a dim and viceversa.
      | .constant c, .dim _ => .ok (.success, multiplicativeFactor * c)
      | .constant _, _ => .ok (.failure, multiplicativeFactor)
      | .dim _, .constant c => .ok (.success, multiplicativeFactor * c)
      | _, .constant _ => .ok (.failure, multiplicativeFactor)
      | _, _ => .ok (.failure, multiplicativeFactor)
  | _ => .ok (.failure, multiplicativeFactor)

/-- Walk `convExpr` and extract a constant if any (`walkConvExpr`): success on a
dimension and on a sum both of whose operands pass `isDimExprOrMulExpr`; the right
operand is only looked at when the left one passed. -/
def walkConvExpr (convExpr : AffineExpr) (multiplicativeFactor : Int) :
    Except String (LogicalResult × Int) :=
  match convExpr with
  | .dim _ => .ok (.success, multiplicativeFactor)
  | .binary kind lhs rhs =>
    if kind != .Add then .ok (.failure, multiplicativeFactor)
    else
      match isDimExprOrMulExpr lhs multiplicativeFactor with
      | .error e => .error e
      | .ok (lhsResult, multiplicativeFactor) =>
        if !succeeded lhsResult then .ok (.failure, multiplicativeFactor)
        else
          match isDimExprOrMulExpr rhs multiplicativeFactor with
          | .error e => .error e
          | .ok (rhsResult, multiplicativeFactor) =>
            .ok (if succeeded rhsResult then .success else .failure, multiplicativeFactor)
  | _ => .ok (.failure, multiplicativeFactor)

/-- The predicate `linalg::isReductionIterator`. -/
def isReductionIterator (t : IteratorType) : Bool := t == .reduction

/-- The arguments with which `getSlicedConvOperandImpl` calls
`utils::getSliceOperand`, a helper of `TPP/TransformUtils.h` whose code is not
among the sources. -/
structure SliceArgs where
  operandToUse : Value
  offsets : List OpFoldResult
  sizes : List OpFoldResult
  strides : List OpFoldResult
  desiredResultRank : Nat
deriving DecidableEq, Repr

/-- The loop `for (idx = start; idx < e; idx++) sizes.push_back(createFoldedDimOp(
operand, idx))` of `getSlicedConvOperandImpl`, with `remaining` iterations left. -/
def getSlicedConvOperandImpl.dimLoop (operand : Value) :
    Nat → Nat → List OpFoldResult → Except String (List OpFoldResult)
  | 0, _, sizes => .ok sizes
  | remaining + 1, idx, sizes =>
    match createFoldedDimOp operand idx with
    | .error e => .error e
    | .ok d => getSlicedConvOperandImpl.dimLoop operand remaining (idx + 1) (sizes ++ [d])

/-- The offsets block of `getSlicedConvOperandImpl`: the induction variables, then
zeros up to the rank. -/
def getSlicedConvOperandImpl.offsets (rank : Nat) (ivs : List Value) : List OpFoldResult :=
  ivs.map .value ++ List.replicate (rank - ivs.length) (.attr 0)

/-- The sizes block of `getSlicedConvOperandImpl`. `operand` is `operand->get()`,
`rank` the rank of the value to use. For the image, when the filter has R and S
not both 1, the sizes are those of `computeSizeGemmForImage`; otherwise ones for
the first `rank - 2` dimensions, then the extents of the operand from
`rank - 2` on. `rank - 2` is computed in `size_t`. -/
def getSlicedConvOperandImpl.sizes (linalgOp : LinalgOp) (operand : Value) (rank : Nat)
    (isImage : Bool) (rAndSPos : List Int) : Except String (List OpFoldResult) :=
  match linalgOp.inputs[1]? with
  | none => .error "idx < size()"
  | some filter =>
    let plain : Except String (List OpFoldResult) :=
      -- Get full sizes from [rank - desiredResultRank, rank).
      let e := (rank + 2 ^ 64 - 2) % 2 ^ 64
      getSlicedConvOperandImpl.dimLoop operand (rank - e) e (List.replicate e (.attr 1))
    if isImage then
      match rAndSPos[0]?, rAndSPos[1]? with
      | some r, some s =>
        match hasFilterWithRandSEqualOne filter (toUnsigned r) (toUnsigned s) with
        | .error e => .error e
        | .ok true => plain
        | .ok false => computeSizeGemmForImage linalgOp
      | _, _ => .error "Invalid index!"
    else plain

/-- The statement `assert(succeeded(walkConvExpr(wExpr, multiplicativeFactor)) &&
"something went really wrong")` of `getSlicedConvOperandImpl`, the only call of
`walkConvExpr`: it returns the value of `multiplicativeFactor` after the
statement. The call is the argument of `assert`. When the build defines `NDEBUG`
(`ndebug`) the argument is not evaluated and the factor keeps the value it had;
otherwise the walk runs, its factor is kept, and the assertion fails when the
walk does. -/
def getSlicedConvOperandImpl.assertWalk (ndebug : Bool) (wExpr : AffineExpr)
    (multiplicativeFactor : Int) : Except String Int :=
  if ndebug then .ok multiplicativeFactor
  else
    match walkConvExpr wExpr multiplicativeFactor with
    | .error e => .error e
    | .ok (result, multiplicativeFactor) =>
      if !succeeded result then .error "something went really wrong"
      else .ok multiplicativeFactor

/-- The strides block of `getSlicedConvOperandImpl`: all ones, except that for
the image the stride of the dimension before the last is the value of
`multiplicativeFactor`, initially 1, after the asserted walk of the W expression
of the image map. `ndebug` tells whether the build defines `NDEBUG`. -/
def getSlicedConvOperandImpl.strides (ndebug : Bool) (linalgOp : LinalgOp)
    (operandNumber rank : Nat) (isImage : Bool) : Except String (List OpFoldResult) :=
  let strides : List OpFoldResult := List.replicate rank (.attr 1)
  if isImage then
    match linalgOp.indexingMaps[operandNumber]? with
    | none => .error "idx < size()"
    | some imageMap =>
      let wIdx := ((imageMap.length % 2 ^ 32) + 2 ^ 32 - 2) % 2 ^ 32
      match imageMap[wIdx]? with
      | none => .error "idx < size()"
      | some wExpr =>
        match getSlicedConvOperandImpl.assertWalk ndebug wExpr 1 with
        | .error e => .error e
        | .ok multiplicativeFactor =>
          let pos := (strides.length + 2 ^ 64 - 2) % 2 ^ 64
          if pos < strides.length then .ok (strides.set pos (.attr multiplicativeFactor))
          else .error "idx < size()"
  else .ok strides

/-- The function `getSlicedConvOperandImpl` up to its last statement: it returns
the arguments of the call of `utils::getSliceOperand`. `operandNumber` is the
number of `operand` among the operands of `linalgOp`, and `ndebug` tells whether
the build defines `NDEBUG`, which decides whether the walk of the W expression
runs. -/
def getSlicedConvOperandImpl (ndebug : Bool) (linalgOp : LinalgOp) (operandNumber : Nat)
    (ivs : List Value) (valuesToUse : List Value) (rAndSPos : List Int) :
    Except String SliceArgs :=
  match valuesToUse[operandNumber]?, (linalgOp.inputs ++ linalgOp.outputs)[operandNumber]? with
  | some operandToUse, some operand =>
    match operandToUse.type.getShape with
    | .error e => .error e
    | .ok shape =>
      let rank := shape.length
      let isImage := operandNumber == 0
      let desiredResultRank := 2
      -- Offset into the tensor is the induction var or 0.
      let offsets := getSlicedConvOperandImpl.offsets rank ivs
      match getSlicedConvOperandImpl.sizes linalgOp operand rank isImage rAndSPos with
      | .error e => .error e
      | .ok sizes =>
        match getSlicedConvOperandImpl.strides ndebug linalgOp operandNumber rank isImage with
        | .error e => .error e
        | .ok strides =>
          .ok { operandToUse := operandToUse, offsets := offsets, sizes := sizes,
                strides := strides, desiredResultRank := desiredResultRank }
  | _, _ => .error "idx < size()"

/-- Check if the three innermost loop can be mapped to a matmul operation
(`checkMappingToMatmul`). Reading an iterator outside the list would abort. -/
def checkMappingToMatmul (linalgOp : LinalgOp) : Except String Bool :=
  if !linalgOp.hasMatmulBody then .ok false
  else
    let iteratorTypes := linalgOp.iteratorTypes
    if iteratorTypes.length < 3 then .ok false
    else
      let size := iteratorTypes.length - 1
      match iteratorTypes[size]?, iteratorTypes[size - 1]?, iteratorTypes[size - 2]? with
      | some t0, some t1, some t2 =>
        .ok (isReductionIterator t0 && isParallelIterator t1 && isParallelIterator t2)
      | _, _, _ => .error "idx < size()"

/-- Return true if Rpos and Spos are valid (`isValidRandS`). The positions and
the rank are `unsigned`. -/
def isValidRandS (filter : Value) (rPos sPos : Nat) : Except String Bool :=
  match filter.type.getShape with
  | .error e => .error e
  | .ok filterShape =>
    let filterRank := filterShape.length % 2 ^ 32
    if sPos != (rPos + 1) % 2 ^ 32 then .ok false
    else .ok (!(decide (rPos ≥ filterRank) || decide (sPos ≥ filterRank)))

/-- Return true if the filter shape at pos rPos and sPos is statically known
(`isValidFilterShape`). Indexing the shape outside its rank aborts. -/
def isValidFilterShape (filter : Value) (rPos sPos : Nat) : Except String Bool :=
  match filter.type.getShape with
  | .error e => .error e
  | .ok filterShape =>
    match filterShape[rPos]?, filterShape[sPos]? with
    | some er, some es => .ok (er.isSome && es.isSome)
    | _, _ => .error "Invalid index!"

/-- The function `mapConvToMatmul`. Its checks are embedded as written; the rest
of the function, from `getLoopsToMaterialize` on, builds the loop nest with
helpers of `TPP/TransformUtils.h` and upstream linalg and is the parameter
`peelAndRewrite`, which returns whether the op was replaced. The second
component of the result tells whether the op was modified. -/
def mapConvToMatmul (peelAndRewrite : LinalgOp → Int → Int → Except String LogicalResult)
    (linalgOp : LinalgOp) (rPos sPos : Int) : Except String (LogicalResult × Bool) :=
  if !linalgOp.isGeneric then
    .ok (.matchFailure "require a linalg.generic", false)
  else if !linalgOp.isConvolution then
    .ok (.matchFailure "operation is not a convolution", false)
  else
    match checkMappingToMatmul linalgOp with
    | .error e => .error e
    | .ok false =>
      .ok (.matchFailure "cannot match operation iterators with matmul iterators", false)
    | .ok true =>
      match linalgOp.inputs[1]? with
      | none => .error "idx < size()"
      | some filter =>
        match isValidRandS filter (toUnsigned rPos) (toUnsigned sPos) with
        | .error e => .error e
        | .ok false => .ok (.matchFailure "invalid rPos and SPos", false)
        | .ok true =>
          match isValidFilterShape filter (toUnsigned rPos) (toUnsigned sPos) with
          | .error e => .error e
          | .ok false => .ok (.matchFailure "invalid filter shape", false)
          | .ok true =>
            match peelAndRewrite linalgOp rPos sPos with
            | .error e => .error e
            | .ok result => .ok (result, succeeded result)

/-! ## Lowering of xsmm operations to function calls (`lib/TPP/ConvertXsmmToFunc.cpp`)

A rewriter carries the module, the operations inserted at the op being lowered,
the next SSA id and the fate of that op. -/

namespace Xsmm

/-- The types that occur in the emitted calls: the types of the operands
themselves, the unranked memref a memref is cast to, and the LLVM pointer that
the metadata convention passes. The index and i64 types are `Ty.scalar`. -/
inductive CallTy where
  | ofTy (ty : Ty)
  | unrankedMemRef (elementType : String) (memorySpace : Nat)
  | llvmPointer (elementType : String)
deriving DecidableEq, Repr

/-- The index type. -/
def indexType : CallTy := .ofTy (.scalar "index")

/-- The 64-bit integer type. -/
def integer64 : CallTy := .ofTy (.scalar "i64")

/-- An SSA value at the level of the emitted calls. -/
structure CallValue where
  id : Nat
  type : CallTy
deriving DecidableEq, Repr

/-- An operand of the op being lowered, seen as a call-level value. -/
def CallValue.ofValue (v : Value) : CallValue := { id := v.id, type := .ofTy v.type }

/-- A `func.func` declaration: its name, its function type, whether it carries
the `llvm.emit_c_interface` attribute and whether it is private. -/
structure FuncOp where
  name : String
  inputs : List CallTy
  results : List CallTy
  emitCInterface : Bool
  isPrivate : Bool
deriving DecidableEq, Repr

/-- The operations the lowering inserts. -/
inductive Operation where
  | memrefCast (result : CallValue) (source : Value)
  | extractStridedMetadata (baseBuffer offset : CallValue) (sizes strides : List CallValue)
      (source : Value)
  | extractAlignedPointerAsIndex (result : CallValue) (source : Value)
  | indexCast (result : CallValue) (source : CallValue)
  | intToPtr (result : CallValue) (source : CallValue)
  | constant (result : CallValue) (value : Int)
  | call (callee : String) (operands : List CallValue) (results : List CallValue)
deriving DecidableEq, Repr

/-- What has become of the op being lowered. -/
inductive RootState where
  | inPlace
  | erased
  | replacedWith (v : CallValue)
deriving DecidableEq, Repr

/-- The body of the module as the lowering sees it. `last` is the operation at
`std::prev(module.getBody()->end())`, the last one of the body, which the source
calls the module terminator: `none` when that operation defines no symbol, the
function when it is one. `symbols` are the symbol operations before it, in
order; operations that define no symbol are left out. The body always has a last
operation, since it holds the op being lowered. -/
structure ModuleOp where
  symbols : List FuncOp
  last : Option FuncOp
deriving DecidableEq, Repr

/-- The symbol operations of the module body, in order (`getBody`). -/
def ModuleOp.getBody (module : ModuleOp) : List FuncOp :=
  module.symbols ++ module.last.toList

/-- Creates a function at the insertion point
`(module.getBody(), std::prev(module.getBody()->end()))`: immediately before the
last operation of the body. -/
def ModuleOp.insertBeforeLast (module : ModuleOp) (funcOp : FuncOp) : ModuleOp :=
  { module with symbols := module.symbols ++ [funcOp] }

/-- State of the pattern rewriter while one xsmm op is lowered. -/
structure Rewriter where
  module : ModuleOp
  inserted : List Operation
  nextValue : Nat
  root : RootState
deriving DecidableEq, Repr

/-- The lookup `module.lookupSymbol(name)`. -/
def lookupSymbol (module : ModuleOp) (name : String) : Option FuncOp :=
  module.getBody.find? (fun f => f.name == name)

/-- A fresh SSA value of the given type. -/
def Rewriter.fresh (rewriter : Rewriter) (type : CallTy) : CallValue × Rewriter :=
  ({ id := rewriter.nextValue, type := type },
   { rewriter with nextValue := rewriter.nextValue + 1 })

/-- Inserts an operation at the insertion point. -/
def Rewriter.insert (rewriter : Rewriter) (op : Operation) : Rewriter :=
  { rewriter with inserted := rewriter.inserted ++ [op] }

/-- Cast memref to unranked memref and leave all the other operands as they are
(`extractInvokeOperandTypes`). -/
def extractInvokeOperandTypes : List Value → List CallTy
  | [] => []
  | operand :: rest =>
    match operand.type with
    | .memref memrefType =>
      CallTy.unrankedMemRef memrefType.elementType memrefType.memorySpace
        :: extractInvokeOperandTypes rest
    | operandType => CallTy.ofTy operandType :: extractInvokeOperandTypes rest

/-- The operand types under the metadata convention
(`extractInvokeOperandTypesForMeta`): a base pointer and an offset per memref. -/
def extractInvokeOperandTypesForMeta (indexType : CallTy) : List Value → List CallTy
  | [] => []
  | operand :: rest =>
    match operand.type with
    | .memref memrefType =>
      CallTy.llvmPointer memrefType.elementType :: indexType
        :: extractInvokeOperandTypesForMeta indexType rest
    | operandType => CallTy.ofTy operandType :: extractInvokeOperandTypesForMeta indexType rest

/-- Similar to `extractInvokeOperandTypes` but acting on values: memrefs are cast
to unranked memrefs by introducing a cast op (`getMemRefOperands`). -/
def getMemRefOperands (b : Rewriter) : List Value → List CallValue × Rewriter
  | [] => ([], b)
  | op :: rest =>
    match op.type with
    | .memref rankedMemref =>
      let (cast, b) := b.fresh (.unrankedMemRef rankedMemref.elementType rankedMemref.memorySpace)
      let b := b.insert (.memrefCast cast op)
      let (res, b) := getMemRefOperands b rest
      (cast :: res, b)
    | _ =>
      let (res, b) := getMemRefOperands b rest
      (CallValue.ofValue op :: res, b)

/-- Creates `count` fresh values of one type. -/
def Rewriter.freshMany (rewriter : Rewriter) (type : CallTy) :
    Nat → List CallValue × Rewriter
  | 0 => ([], rewriter)
  | count + 1 =>
    let (v, rewriter) := rewriter.fresh type
    let (vs, rewriter) := Rewriter.freshMany rewriter type count
    (v :: vs, rewriter)

/-- The operands under the metadata convention
(`getMemRefOperandsUsingMetadata`): for each memref a base pointer obtained
through `extract_aligned_pointer_as_index`, `index_cast` and `inttoptr`, and the
offset result of `extract_strided_metadata`. -/
def getMemRefOperandsUsingMetadata (builder : Rewriter) :
    List Value → List CallValue × Rewriter
  | [] => ([], builder)
  | operand :: rest =>
    match operand.type with
    | .memref memrefType =>
      let baseMemrefType : CallTy :=
        .ofTy (.memref { shape := [], elementType := memrefType.elementType,
                         layout := .identity, memorySpace := 0 })
      let basePtrType := indexType
      let offsetType := indexType
      let (baseBuffer, builder) := builder.fresh baseMemrefType
      let (offset, builder) := builder.fresh offsetType
      let (sizes, builder) := builder.freshMany offsetType memrefType.getRank
      let (strides, builder) := builder.freshMany offsetType memrefType.getRank
      let builder := builder.insert (.extractStridedMetadata baseBuffer offset sizes strides operand)
      let (basePointerAsIndex, builder) := builder.fresh basePtrType
      let builder := builder.insert (.extractAlignedPointerAsIndex basePointerAsIndex operand)
      let (basePointerAsI64, builder) := builder.fresh integer64
      let builder := builder.insert (.indexCast basePointerAsI64 basePointerAsIndex)
      let (basePointer, builder) := builder.fresh (.llvmPointer memrefType.elementType)
      let builder := builder.insert (.intToPtr basePointer basePointerAsI64)
      let (res, builder) := getMemRefOperandsUsingMetadata builder rest
      (basePointer :: offset :: res, builder)
    | _ =>
      let (res, builder) := getMemRefOperandsUsingMetadata builder rest
      (CallValue.ofValue operand :: res, builder)

/-- Declares the function before the module terminator when no symbol of that
name exists: the block shared by `buildInvokeCall` and `buildDispatchCall`. -/
def declareIfAbsent (rewriter : Rewriter) (fnName : String) (inputs results : List CallTy)
    (useMeta : Bool) : Rewriter :=
  match lookupSymbol rewriter.module fnName with
  | some _ => rewriter
  | none =>
    -- Insert before module terminator.
    let funcOp : FuncOp :=
      { name := fnName, inputs := inputs, results := results, emitCInterface := false,
        isPrivate := false }
    -- the attribute that triggers the emission of the `_mlir_ciface_xxx` interface.
    let funcOp := if !useMeta then { funcOp with emitCInterface := true } else funcOp
    let funcOp := { funcOp with isPrivate := true }
    { rewriter with module := rewriter.module.insertBeforeLast funcOp }

/-- The function `buildInvokeCall`: declare the callee if absent, then create the
call on the converted operands. -/
def buildInvokeCall (funcName : String) (operands : List Value) (useMeta : Bool)
    (rewriter : Rewriter) : LogicalResult × Rewriter :=
  let fnName := funcName
  let libFnInputs :=
    if useMeta == false then extractInvokeOperandTypes operands
    else extractInvokeOperandTypesForMeta indexType operands
  let rewriter := declareIfAbsent rewriter fnName libFnInputs [] useMeta
  let (callOperands, rewriter) :=
    if useMeta == false then getMemRefOperands rewriter operands
    else getMemRefOperandsUsingMetadata rewriter operands
  (.success, rewriter.insert (.call fnName callOperands []))

/-- An `xsmm.ternary` invoke op: the stringified callee kind, the operand type
tag (`getOperandTypeAsString`) and the operands. -/
structure TernaryOp where
  callee : String
  operandTypeAsString : String
  operands : List Value
deriving DecidableEq, Repr

/-- An `xsmm.unary` invoke op; `hasScalarInput` is the answer of the method of
that name. -/
structure UnaryOp where
  operandTypeAsString : String
  hasScalarInput : Bool
  operands : List Value
deriving DecidableEq, Repr

/-- An `xsmm.binary` invoke op. -/
structure BinaryOp where
  operandTypeAsString : String
  operands : List Value
deriving DecidableEq, Repr

/-- The pattern `ConvertTernaryXsmmOp`. -/
def ConvertTernaryXsmmOp.matchAndRewrite (useMeta : Bool) (ternaryOp : TernaryOp)
    (rewriter : Rewriter) : LogicalResult × Rewriter :=
  let funcName := "xsmm_" ++ ternaryOp.callee ++ "_invoke_" ++ ternaryOp.operandTypeAsString
  match buildInvokeCall funcName ternaryOp.operands useMeta rewriter with
  | (.success, rewriter) => (.success, { rewriter with root := .erased })
  | (_, rewriter) => (.failure, rewriter)

/-- The pattern `ConvertUnaryXsmmOp`. -/
def ConvertUnaryXsmmOp.matchAndRewrite (useMeta : Bool) (unaryOp : UnaryOp)
    (rewriter : Rewriter) : LogicalResult × Rewriter :=
  let funcName := "xsmm_unary_invoke_" ++ unaryOp.operandTypeAsString
  let funcName :=
    if unaryOp.hasScalarInput then "xsmm_unary_scalar_invoke_" ++ unaryOp.operandTypeAsString
    else funcName
  match buildInvokeCall funcName unaryOp.operands useMeta rewriter with
  | (.success, rewriter) => (.success, { rewriter with root := .erased })
  | (_, rewriter) => (.failure, rewriter)

/-- The pattern `ConvertBinaryXsmmOp`. -/
def ConvertBinaryXsmmOp.matchAndRewrite (useMeta : Bool) (binaryOp : BinaryOp)
    (rewriter : Rewriter) : LogicalResult × Rewriter :=
  let funcName := "xsmm_binary_invoke"
  match buildInvokeCall funcName binaryOp.operands useMeta rewriter with
  | (.success, rewriter) => (.success, { rewriter with root := .erased })
  | (_, rewriter) => (.failure, rewriter)

/-- The function `buildDispatchCall`: declare the callee if absent, then create
the call, which returns one 64-bit integer. -/
def buildDispatchCall (dispatchOperands : List CallValue) (dispatchOperandTypes : List CallTy)
    (fnName : String) (useMeta : Bool) (rewriter : Rewriter) : CallValue × Rewriter :=
  let rewriter := declareIfAbsent rewriter fnName dispatchOperandTypes [integer64] useMeta
  let (result, rewriter) := rewriter.fresh integer64
  (result, rewriter.insert (.call fnName dispatchOperands [result]))

/-- The loop of the dispatch patterns that turns the integers of the `inputs`
attribute into 64-bit constants, collecting the operands and their types. -/
def dispatchConstants (rewriter : Rewriter) :
    List Int → List CallValue → List CallTy → List CallValue × List CallTy × Rewriter
  | [], dispatchOperands, dispatchOperandTypes =>
    (dispatchOperands, dispatchOperandTypes, rewriter)
  | value :: rest, dispatchOperands, dispatchOperandTypes =>
    let (c, rewriter) := rewriter.fresh integer64
    let rewriter := rewriter.insert (.constant c value)
    dispatchConstants rewriter rest (dispatchOperands ++ [c]) (dispatchOperandTypes ++ [integer64])

/-- An `xsmm.ternary.dispatch` op: the stringified kind and data type and the
integers of its `inputs` attribute. -/
structure TernaryDispatchOp where
  kind : String
  dataType : String
  inputs : List Int
deriving DecidableEq, Repr

/-- An `xsmm.binary.dispatch` op; `kind` and `flags` are the integer values of its
enum attributes. -/
structure BinaryDispatchOp where
  dataType : String
  inputs : List Int
  kind : Int
  flags : Int
deriving DecidableEq, Repr

/-- An `xsmm.unary.dispatch` op. -/
structure UnaryDispatchOp where
  dataType : String
  inputs : List Int
  kind : Int
  flags : Int
deriving DecidableEq, Repr

/-- The pattern `ConvertTernaryDispatch`. -/
def ConvertTernaryDispatch.matchAndRewrite (useMeta : Bool) (dispatchOp : TernaryDispatchOp)
    (rewriter : Rewriter) : LogicalResult × Rewriter :=
  let kindAsString := dispatchOp.kind
  let typeAsString := dispatchOp.dataType
  let kindAsString := "xsmm_" ++ kindAsString ++ "_dispatch_" ++ typeAsString
  let fnName := kindAsString
  let (dispatchOperands, dispatchOperandTypes, rewriter) :=
    dispatchConstants rewriter dispatchOp.inputs [] []
  let (call, rewriter) :=
    buildDispatchCall dispatchOperands dispatchOperandTypes fnName useMeta rewriter
  (.success, { rewriter with root := .replacedWith call })

/-- The pattern `ConvertBinaryDispatch`. -/
def ConvertBinaryDispatch.matchAndRewrite (useMeta : Bool) (dispatchOp : BinaryDispatchOp)
    (rewriter : Rewriter) : LogicalResult × Rewriter :=
  let kindAsString := "xsmm_binary_dispatch"
  let fnName := kindAsString
  let (dispatchOperands, dispatchOperandTypes, rewriter) :=
    dispatchConstants rewriter dispatchOp.inputs [] []
  -- kind of operation to invoke.
  let (kind, rewriter) := rewriter.fresh integer64
  let rewriter := rewriter.insert (.constant kind dispatchOp.kind)
  let dispatchOperands := dispatchOperands ++ [kind]
  let dispatchOperandTypes := dispatchOperandTypes ++ [integer64]
  -- kind of broadcast
  let (flags, rewriter) := rewriter.fresh integer64
  let rewriter := rewriter.insert (.constant flags dispatchOp.flags)
  let dispatchOperands := dispatchOperands ++ [flags]
  let dispatchOperandTypes := dispatchOperandTypes ++ [integer64]
  let (call, rewriter) :=
    buildDispatchCall dispatchOperands dispatchOperandTypes fnName useMeta rewriter
  (.success, { rewriter with root := .replacedWith call })

/-- The pattern `ConvertUnaryDispatch`. -/
def ConvertUnaryDispatch.matchAndRewrite (useMeta : Bool) (dispatchOp : UnaryDispatchOp)
    (rewriter : Rewriter) : LogicalResult × Rewriter :=
  let kindAsString := "xsmm_unary_dispatch_"
  let typeAsString := dispatchOp.dataType
  let fnName := kindAsString ++ typeAsString
  let (dispatchOperands, dispatchOperandTypes, rewriter) :=
    dispatchConstants rewriter dispatchOp.inputs [] []
  -- kind of operation to invoke.
  let (kind, rewriter) := rewriter.fresh integer64
  let rewriter := rewriter.insert (.constant kind dispatchOp.kind)
  let dispatchOperands := dispatchOperands ++ [kind]
  let dispatchOperandTypes := dispatchOperandTypes ++ [integer64]
  -- kind of broadcast
  let (flags, rewriter) := rewriter.fresh integer64
  let rewriter := rewriter.insert (.constant flags dispatchOp.flags)
  let dispatchOperands := dispatchOperands ++ [flags]
  let dispatchOperandTypes := dispatchOperandTypes ++ [integer64]
  let (call, rewriter) :=
    buildDispatchCall dispatchOperands dispatchOperandTypes fnName useMeta rewriter
  (.success, { rewriter with root := .replacedWith call })

/-- The callee of the last operation inserted, when that operation is a call. -/
def Rewriter.lastCallee (rewriter : Rewriter) : Option String :=
  match rewriter.inserted.getLast? with
  | some (.call callee _ _) => some callee
  | _ => none

end Xsmm

/-! ## Specification-side definitions and example data -/

/-- The matmul tile sizes as the specification words them: `min n 64` on N when
16 divides `n`, 32 on M when 32 divides `m`, and `k` on K. -/
def matmulTileSpec (m n k : Int) : Int × Int × Int :=
  (if (32 : Int) ∣ m then 32 else m, if (16 : Int) ∣ n then min n 64 else n, k)

/-- The per-dimension tile size as the specification words it: 32 when the
extent is divisible by 32 and is not exactly 32, and 0 (no tiling) otherwise. -/
def tileSpec (d : Int) : Int := if (32 : Int) ∣ d ∧ d ≠ 32 then 32 else 0

/-- A contiguous `f32` memref type of the given static shape. -/
def f32MemRef (shape : List Int) : Ty :=
  .memref { shape := shape.map some, elementType := "f32", layout := .identity,
            memorySpace := 0 }

/-- A rewriter that has not inserted anything, with the root in place. -/
def freshRewriter : Rewriter := { nextValue := 100, inserted := [], root := .inPlace }

/-- An unannotated generic op over one `2x2x2x2x2` memref with five parallel
loops. -/
def unannotated5D : GenericOp :=
  { operands := [{ id := 0, type := f32MemRef [2, 2, 2, 2, 2] }]
    numInputs := 0
    numResults := 0
    iteratorTypes := List.replicate 5 .parallel
    libraryCall := none
    staticLoopSizes := [2, 2, 2, 2, 2] }

/-- A generic `tpp.matmul` over three 2-D memrefs `A : 4x8`, `B : 8x4`,
`C : 4x4`. -/
def matmulExample : GenericOp :=
  { operands := [{ id := 0, type := f32MemRef [4, 8] }, { id := 1, type := f32MemRef [8, 4] },
                 { id := 2, type := f32MemRef [4, 4] }]
    numInputs := 2
    numResults := 0
    iteratorTypes := [.parallel, .parallel, .reduction]
    libraryCall := some "tpp.matmul"
    staticLoopSizes := [4, 4, 8] }

/-- The rank an operand has once operands of rank greater than 2 have been rank
reduced: the number of extents other than 1 for a memref of rank greater than 2,
the rank itself otherwise. -/
def reducedRank (ty : Ty) : Nat :=
  match ty with
  | .memref t =>
    if t.getRank ≤ 2 then t.getRank else (t.getShape.filter (fun sz => sz != 1)).length
  | other => other.getRank

/-- An operand is eligible when it is a scalar or, after rank reduction, a shaped
value of rank at most 2. -/
def operandEligible (v : Value) : Bool := !v.type.isShaped || decide (reducedRank v.type ≤ 2)

/-- The applicability condition of `ConvertGenericOpToTpp` as the specification
words it: buffer semantics, a library-call annotation bearing the tpp mark, zero
results, and only eligible operands. -/
def applicable (op : GenericOp) : Prop :=
  op.hasBufferSemantics = true ∧ op.libraryCall.isSome = true ∧ hasTppMark op = true
    ∧ op.getNumResults = 0 ∧ ∀ v ∈ op.operands, operandEligible v = true

/-- A memref of shape `?x4x4`: its first extent is dynamic. -/
def dynamicMemRef : Ty :=
  .memref { shape := [none, some 4, some 4], elementType := "f32", layout := .identity,
            memorySpace := 0 }

/-- A generic `tpp.identity` with buffer semantics over two `?x4x4` memrefs. -/
def dynamicIdentity : GenericOp :=
  { operands := [{ id := 0, type := dynamicMemRef }, { id := 1, type := dynamicMemRef }]
    numInputs := 1
    numResults := 0
    iteratorTypes := [.parallel, .parallel, .parallel]
    libraryCall := some "tpp.identity"
    staticLoopSizes := [-1, 4, 4] }

/-- A generic op with buffer semantics over one `1x32x32` memref whose annotation
`tpp.foo` bears the tpp mark but names no known kernel. -/
def unknownKernel : GenericOp :=
  { operands := [{ id := 0, type := f32MemRef [1, 32, 32] }]
    numInputs := 0
    numResults := 0
    iteratorTypes := [.parallel, .parallel, .parallel]
    libraryCall := some "tpp.foo"
    staticLoopSizes := [1, 32, 32] }

/-- A generic op with value (tensor) semantics over one `4x4` tensor with two
parallel loops. -/
def tensorGeneric : GenericOp :=
  { operands := [{ id := 0, type := .tensor [some 4, some 4] "f32" }]
    numInputs := 1
    numResults := 1
    iteratorTypes := [.parallel, .parallel]
    libraryCall := none
    staticLoopSizes := [4, 4] }

/-- The linear addresses reached from the given base addresses through
dimensions given as (size, stride) pairs, outermost first: each dimension adds
`k * stride` for `0 ≤ k < size`. -/
def addressesFrom : List Int → List (Int × Int) → List Int
  | bases, [] => bases
  | bases, (size, stride) :: rest =>
    addressesFrom
      (bases.flatMap (fun b => (List.range size.toNat).map (fun k => b + (k : Int) * stride)))
      rest

/-- The addresses of the elements of a statically shaped memref with a static
layout, relative to its base buffer. -/
def viewAddresses (t : MemRefType) : List Int :=
  addressesFrom [(getStridesAndOffset t).2] (List.zip t.getShape (getStridesAndOffset t).1)

/-- The static values of a list of `OpFoldResult`s, when all of them are static. -/
def staticValues : List OpFoldResult → Option (List Int)
  | [] => some []
  | .attr n :: rest => (staticValues rest).map (n :: ·)
  | .value _ :: _ => none
  | .dim _ _ :: _ => none

/-- The addresses that a sub-view with static offsets, sizes and strides reaches
in the base buffer of its source: those of its inferred, not rank-reduced, result
type (dropping unit dimensions does not change them). -/
def SubViewOp.addresses (op : SubViewOp) : Option (List Int) :=
  match op.source.type, staticValues op.offsets, staticValues op.sizes,
      staticValues op.strides with
  | .memref sourceType, some offsets, some sizes, some strides =>
    some (viewAddresses (inferResultType sourceType offsets sizes strides))
  | _, _, _, _ => none

/-- The inner sub-view `S1` of the example: rows `[1, 2)` of a `4x2x2` buffer, of
type `1x2x2` with strides `[4, 2, 1]` and offset 4. -/
def innerSubView : SubViewOp :=
  { source := { id := 0, type := f32MemRef [4, 2, 2] }
    offsets := [.attr 1, .attr 0, .attr 0]
    sizes := [.attr 1, .attr 2, .attr 2]
    strides := [.attr 1, .attr 1, .attr 1]
    result :=
      { id := 1
        type := .memref { shape := [some 1, some 2, some 2], elementType := "f32",
                          layout := .strided 4 [4, 2, 1], memorySpace := 0 } } }

/-- The outer sub-view `S2` of the example: it takes the second row of the
result of `S1`, so it has a non-zero offset and is not a pure removal of unit
dimensions; its type is `2` with stride `[1]` and offset 6. -/
def outerSubView : SubViewOp :=
  { source := innerSubView.result
    offsets := [.attr 0, .attr 1, .attr 0]
    sizes := [.attr 1, .attr 1, .attr 2]
    strides := [.attr 1, .attr 1, .attr 1]
    result :=
      { id := 2
        type := .memref { shape := [some 2], elementType := "f32",
                          layout := .strided 6 [1], memorySpace := 0 } } }

/-- The def-use relation of the example: the only sub-view result is that of
`S1`. -/
def exampleDefiningSubView (v : Value) : Option SubViewOp :=
  if v = innerSubView.result then some innerSubView else none

/-- A tensor type of the given static shape with `f32` elements. -/
def f32Tensor (shape : List Int) : Ty := .tensor (shape.map some) "f32"

/-- A convolution-shaped generic in the layout of the example of the source
(`N H W C`, `R S C F`, `N P Q F`): image `1x4x4x3`, filter `1x1x3x8`, output
`1x4x4x8`, loops `(n, p, q, f, r, s, c)` reordered so that the three innermost
are `(q, f, c)` = parallel, parallel, reduction. -/
def convExample : LinalgOp :=
  { isGeneric := true
    isConvolution := true
    hasMatmulBody := true
    hasTensorSemantics := true
    iteratorTypes := [.parallel, .parallel, .reduction, .reduction, .parallel, .parallel,
                      .reduction]
    inputs := [{ id := 0, type := f32Tensor [1, 4, 4, 3] },
               { id := 1, type := f32Tensor [1, 1, 3, 8] }]
    outputs := [{ id := 2, type := f32Tensor [1, 4, 4, 8] }]
    indexingMaps :=
      [[.dim 0, .binary .Add (.dim 1) (.dim 2), .binary .Add (.dim 4) (.dim 3), .dim 6],
       [.dim 2, .dim 3, .dim 6, .dim 5],
       [.dim 0, .dim 1, .dim 4, .dim 5]] }

/-- A stand-in for the loop-building remainder of `mapConvToMatmul` that always
replaces the op. -/
def alwaysRewrites : LinalgOp → Int → Int → Except String LogicalResult :=
  fun _ _ _ => .ok .success

/-- The size that stands for dimension `idx` of a value of the given shape: the
extent when it is static, the result of a `dim` operation otherwise. -/
def foldedExtent (v : Value) (shape : List (Option Int)) (idx : Nat) : OpFoldResult :=
  match shape[idx]? with
  | some (some n) => .attr n
  | _ => .dim v idx

/-- The plain 2-D tail slice of an operand of the given shape: 1 for each of the
first `r - 2` dimensions, then the operand's own extents in its last two
dimensions. -/
def tailSliceSizes (operand : Value) (shape : List (Option Int)) : List OpFoldResult :=
  List.replicate (shape.length - 2) (.attr 1)
    ++ [foldedExtent operand shape (shape.length - 2),
        foldedExtent operand shape (shape.length - 1)]

/-- A module that declares nothing and a rewriter that has inserted nothing. -/
def Xsmm.freshRewriter : Xsmm.Rewriter :=
  { module := { symbols := [], last := none }, inserted := [], nextValue := 100,
    root := .inPlace }

/-- An `xsmm.binary` invoke op on a dispatch handle and two `4x4` `f32` memrefs. -/
def Xsmm.binaryExample : Xsmm.BinaryOp :=
  { operandTypeAsString := "f32"
    operands := [{ id := 0, type := .scalar "i64" }, { id := 1, type := f32MemRef [4, 4] },
                 { id := 2, type := f32MemRef [4, 4] }] }

/-- The results of `count` 64-bit integer constants created one after the other
from the SSA id `start` on. -/
def Xsmm.constantResults (start count : Nat) : List Xsmm.CallValue :=
  (List.range count).map (fun i => { id := start + i, type := Xsmm.integer64 })

/-- The `arith.constant` operations that materialise `values`, in order, as 64-bit
integers from the SSA id `start` on: the i-th one defines the i-th value of
`constantResults` and holds the i-th integer. -/
def Xsmm.constantOps (start : Nat) (values : List Int) : List Xsmm.Operation :=
  List.zipWith Xsmm.Operation.constant (Xsmm.constantResults start values.length) values

/-- One step of the lowering: a call of `buildInvokeCall` or of
`buildDispatchCall`, with its arguments. -/
inductive Xsmm.Lowering where
  | invoke (funcName : String) (operands : List Value) (useMeta : Bool)
  | dispatch (dispatchOperands : List Xsmm.CallValue)
      (dispatchOperandTypes : List Xsmm.CallTy) (fnName : String) (useMeta : Bool)
deriving DecidableEq, Repr

/-- The rewriter state after one step of the lowering. -/
def Xsmm.Lowering.run (lowering : Xsmm.Lowering) (rewriter : Xsmm.Rewriter) : Xsmm.Rewriter :=
  match lowering with
  | .invoke funcName operands useMeta =>
    (Xsmm.buildInvokeCall funcName operands useMeta rewriter).2
  | .dispatch dispatchOperands dispatchOperandTypes fnName useMeta =>
    (Xsmm.buildDispatchCall dispatchOperands dispatchOperandTypes fnName useMeta rewriter).2

/-- The rewriter state after a sequence of lowering steps, run in order on the
same module. -/
def Xsmm.runLowerings (lowerings : List Xsmm.Lowering) (rewriter : Xsmm.Rewriter) :
    Xsmm.Rewriter :=
  lowerings.foldl (fun r lowering => lowering.run r) rewriter

/-- The names that the symbol operations of the module declare, in order, one
entry per declaration. -/
def Xsmm.ModuleOp.symbolNames (module : Xsmm.ModuleOp) : List String :=
  module.getBody.map (fun f => f.name)

/-- An `xsmm.binary.dispatch` op for a `4x4` problem with leading dimensions 4. -/
def Xsmm.binaryDispatchExample : Xsmm.BinaryDispatchOp :=
  { dataType := "f32", inputs := [4, 4, 4, 4, 4], kind := 1, flags := 0 }

/-- A sequence of lowering steps in which two dispatch calls and two invoke calls
share their callee. -/
def Xsmm.exampleLowerings : List Xsmm.Lowering :=
  [.dispatch [] [] "xsmm_binary_dispatch" false,
   .invoke "xsmm_binary_invoke" Xsmm.binaryExample.operands false,
   .dispatch [] [] "xsmm_binary_dispatch" false,
   .invoke "xsmm_binary_invoke" Xsmm.binaryExample.operands false]

/-- A generic op annotated `tpp.add` whose only operand is its output, a `4x4`
`f32` memref: a buffer-semantics generic without inputs. -/
def addOneOperand : GenericOp :=
  { operands := [{ id := 0, type := f32MemRef [4, 4] }]
    numInputs := 0
    numResults := 0
    iteratorTypes := [.parallel, .parallel]
    libraryCall := some "tpp.add"
    staticLoopSizes := [4, 4] }

/-- A generic op annotated `tpp.matmul` with two `4x4` `f32` memref operands only. -/
def matmulTwoOperands : GenericOp :=
  { operands := [{ id := 0, type := f32MemRef [4, 4] }, { id := 1, type := f32MemRef [4, 4] }]
    numInputs := 1
    numResults := 0
    iteratorTypes := [.parallel, .parallel, .reduction]
    libraryCall := some "tpp.matmul"
    staticLoopSizes := [4, 4, 4] }

/-- The constant coefficient of a summand of a convolution index expression: 1 for
a bare dim, the constant for `dim * const` and for `const * dim`. Any other
expression is not such a summand. -/
def summandCoefficient : AffineExpr → Option Int
  | .dim _ => some 1
  | .binary .Mul (.dim _) (.constant c) => some c
  | .binary .Mul (.constant c) (.dim _) => some c
  | _ => none

/-- The convolution of `convExample` with a W expression whose two summands both
carry a constant: `2 * d4 + 3 * d3`. -/
def scaledConvExample : LinalgOp :=
  { convExample with
    indexingMaps :=
      [[.dim 0, .binary .Add (.dim 1) (.dim 2),
        .binary .Add (.binary .Mul (.dim 4) (.constant 2)) (.binary .Mul (.constant 3) (.dim 3)),
        .dim 6],
       [.dim 2, .dim 3, .dim 6, .dim 5],
       [.dim 0, .dim 1, .dim 4, .dim 5]] }

/-- The convolution of `convExample` with stride 2 along W: the W expression of
the image map is `d4 * 2 + d3` and the image is `1x4x7x3`. -/
def stridedConvExample : LinalgOp :=
  { convExample with
    inputs := [{ id := 0, type := f32Tensor [1, 4, 7, 3] },
               { id := 1, type := f32Tensor [1, 1, 3, 8] }]
    indexingMaps :=
      [[.dim 0, .binary .Add (.dim 1) (.dim 2),
        .binary .Add (.binary .Mul (.dim 4) (.constant 2)) (.dim 3), .dim 6],
       [.dim 2, .dim 3, .dim 6, .dim 5],
       [.dim 0, .dim 1, .dim 4, .dim 5]] }

/-! ## Theorems -/

theorem tmod_eq_zero_iff_dvd (a b : Int) : b.tmod a = 0 ↔ a ∣ b :=
  ⟨Int.dvd_of_tmod_eq_zero, Int.tmod_eq_zero_of_dvd⟩

theorem matmulImpl_eq_spec (op : GenericOp) (m n k : Int) :
    getTileSizesForOptimalMappingMatmulImpl { op with staticLoopSizes := [m, n, k] }
      = .ok (if matmulTileSpec m n k = (m, n, k) then [0, 0, 0]
             else [(matmulTileSpec m n k).1, (matmulTileSpec m n k).2.1,
                   (matmulTileSpec m n k).2.2]) := by
  simp only [getTileSizesForOptimalMappingMatmulImpl, GenericOp.computeStaticLoopSizes,
    matmulTileSpec, tmod_eq_zero_iff_dvd]
  by_cases hn : (16 : Int) ∣ n <;> by_cases hm : (32 : Int) ∣ m <;>
    simp [hn, hm, Int.tmod_eq_zero_of_dvd, List.replicate, List.set, min_def] <;>
    split_ifs <;> first | rfl | omega

/-- C1. For loop extents `(m, n, k)` the matmul heuristic computes
`tileN = min n 64` when 16 divides `n` and `n` otherwise, `tileM = 32` when 32
divides `m` and `m` otherwise, `tileK = k`; it returns `(0, 0, 0)` exactly when
`(tileM, tileN, tileK) = (m, n, k)` and `(tileM, tileN, tileK)` otherwise.
`(128, 64, 16)` gives `(32, 64, 16)` and `(64, 48, 32)` gives `(32, 48, 32)`. -/
theorem matmul_tile_sizes (op : GenericOp) (m n k : Int) :
    (getTileSizesForOptimalMappingMatmulImpl { op with staticLoopSizes := [m, n, k] }
        = .ok (if matmulTileSpec m n k = (m, n, k) then [0, 0, 0]
               else [(matmulTileSpec m n k).1, (matmulTileSpec m n k).2.1,
                     (matmulTileSpec m n k).2.2]))
    ∧ (getTileSizesForOptimalMappingMatmulImpl { op with staticLoopSizes := [m, n, k] }
        = .ok [0, 0, 0] ↔ matmulTileSpec m n k = (m, n, k))
    ∧ (matmulTileSpec m n k).2.2 = k
    ∧ getTileSizesForOptimalMappingMatmulImpl { op with staticLoopSizes := [128, 64, 16] }
        = .ok [32, 64, 16]
    ∧ getTileSizesForOptimalMappingMatmulImpl { op with staticLoopSizes := [64, 48, 32] }
        = .ok [32, 48, 32] := by
  refine ⟨matmulImpl_eq_spec op m n k, ?_, rfl, ?_, ?_⟩
  · rw [matmulImpl_eq_spec]
    by_cases h : matmulTileSpec m n k = (m, n, k)
    · simp [h]
    · simp only [h, if_false, iff_false]
      intro hz
      have h1 : (matmulTileSpec m n k).1 = 0 := by
        simpa using congrArg (fun r => match r with | .ok (a :: _) => a | _ => 1) hz
      simp only [matmulTileSpec] at h1
      split_ifs at h1 with hm
      · omega
      · exact hm (h1 ▸ dvd_zero _)
  · rw [matmulImpl_eq_spec]; decide
  · rw [matmulImpl_eq_spec]; decide

theorem implLoop_step (dims : List Int) (remaining idx : Nat) (tppTiles : List Int) :
    getTileSizesForOptimalMappingImpl.loop dims (remaining + 1) idx tppTiles
      = getTileSizesForOptimalMappingImpl.loop dims remaining (idx + 1)
          (tppTiles.set idx (tileSpec (dims.getD idx 0))) := by
  simp only [getTileSizesForOptimalMappingImpl.loop, tileSpec, tmod_eq_zero_iff_dvd]
  congr 1
  generalize dims.getD idx 0 = d
  by_cases h32 : (32 : Int) ∣ d <;> by_cases he : d = 32 <;> simp [h32, he]

theorem implLoop_length (dims : List Int) (remaining idx : Nat) (tppTiles : List Int) :
    (getTileSizesForOptimalMappingImpl.loop dims remaining idx tppTiles).length
      = tppTiles.length := by
  induction remaining generalizing idx tppTiles with
  | zero => rfl
  | succ r ih => rw [implLoop_step, ih, List.length_set]

theorem implLoop_below (dims : List Int) (remaining idx : Nat) (tppTiles : List Int)
    (i : Nat) (hi : i < idx) :
    (getTileSizesForOptimalMappingImpl.loop dims remaining idx tppTiles)[i]?
      = tppTiles[i]? := by
  induction remaining generalizing idx tppTiles with
  | zero => rfl
  | succ r ih =>
    rw [implLoop_step, ih (idx + 1) _ (by omega), List.getElem?_set_ne (by omega)]

theorem implLoop_written (dims : List Int) (remaining idx : Nat) (tppTiles : List Int)
    (i : Nat) (hlo : idx ≤ i) (hhi : i < idx + remaining) (hlen : i < tppTiles.length) :
    (getTileSizesForOptimalMappingImpl.loop dims remaining idx tppTiles)[i]?
      = some (tileSpec (dims.getD i 0)) := by
  induction remaining generalizing idx tppTiles with
  | zero => omega
  | succ r ih =>
    rw [implLoop_step]
    by_cases hEq : i = idx
    · subst hEq
      rw [implLoop_below _ _ _ _ _ (by omega)]
      simp [hlen]
    · exact ih (idx + 1) _ (by omega) (by omega) (by simpa using hlen)

theorem impl_eq_map (op : GenericOp) :
    getTileSizesForOptimalMappingImpl op = op.staticLoopSizes.map tileSpec := by
  apply List.ext_getElem?
  intro i
  simp only [getTileSizesForOptimalMappingImpl, GenericOp.computeStaticLoopSizes]
  by_cases hi : i < op.staticLoopSizes.length
  · rw [implLoop_written _ _ _ _ i (by omega) (by omega) (by simpa using hi)]
    simp [List.getD, hi]
  · rw [List.getElem?_eq_none (by simpa [implLoop_length] using hi),
      List.getElem?_eq_none (by simpa using hi)]

/-- C2. The heuristic for ops not marked `tpp.matmul` returns one tile size per
loop extent, the i-th being 32 when the i-th extent is divisible by 32 and is
not exactly 32, and 0 otherwise, each dimension independently of the others;
extent 32 gives 0, extent 64 gives 32 and extent 48 gives 0. -/
theorem other_tile_sizes (op : GenericOp) :
    (getTileSizesForOptimalMappingImpl op).length = op.computeStaticLoopSizes.length
    ∧ (∀ i : Nat, (getTileSizesForOptimalMappingImpl op)[i]?
          = (op.computeStaticLoopSizes[i]?).map
              (fun d => if (32 : Int) ∣ d ∧ d ≠ 32 then 32 else 0))
    ∧ getTileSizesForOptimalMappingImpl { op with staticLoopSizes := [32] } = [0]
    ∧ getTileSizesForOptimalMappingImpl { op with staticLoopSizes := [64] } = [32]
    ∧ getTileSizesForOptimalMappingImpl { op with staticLoopSizes := [48] } = [0]
    ∧ getTileSizesForOptimalMappingImpl { op with staticLoopSizes := [32, 64, 48] }
        = [0, 32, 0] := by
  refine ⟨?_, ?_, ?_, ?_, ?_, ?_⟩
  · simp [impl_eq_map, GenericOp.computeStaticLoopSizes]
  · intro i
    simp only [impl_eq_map, GenericOp.computeStaticLoopSizes, List.getElem?_map]
    rfl
  · rw [impl_eq_map]; exact (by decide : List.map tileSpec [32] = [0])
  · rw [impl_eq_map]; exact (by decide : List.map tileSpec [64] = [32])
  · rw [impl_eq_map]; exact (by decide : List.map tileSpec [48] = [0])
  · rw [impl_eq_map]; exact (by decide : List.map tileSpec [32, 64, 48] = [0, 32, 0])

/-! ### Conversion of an annotated generic -/

theorem getOperandForTpp_of_rank_le (v : Value) (rewriter : Rewriter)
    (h : v.type.getRank ≤ 2) : getOperandForTpp v rewriter = .ok (v, rewriter) := by
  unfold getOperandForTpp
  split_ifs <;> rfl

theorem checkOperandForTpp_eq_success_iff (v : Value) :
    checkOperandForTpp v = .success ↔ (v.type.isShaped = false ∨ v.type.getRank ≤ 2) := by
  unfold checkOperandForTpp
  cases hs : v.type.isShaped <;> by_cases hr : v.type.getRank ≤ 2 <;> simp [hr]

theorem hasTppMark_of_call (op : GenericOp) (name : String)
    (hcall : op.libraryCall = some name)
    (hname : (!name.isEmpty &&
      name.toList.takeWhile (fun c => c != '.') == "tpp".toList) = true) :
    hasTppMark op = true := by
  simpa [hasTppMark, GenericOp.getLibraryCallName, hcall] using hname

/-- C3. A generic op with buffer semantics, zero results, the annotation
`tpp.matmul` and three rank-2 memref operands `A, B, C` is rewritten with success:
the op is replaced by one `tpp.matmul` over `A, B, C` in that order and nothing
else (no rank-reducing sub-view) is inserted. -/
theorem matmul_end_to_end (op : GenericOp) (A B C : Value) (rewriter : Rewriter)
    (hbuf : op.hasBufferSemantics = true) (hres : op.getNumResults = 0)
    (hcall : op.libraryCall = some "tpp.matmul") (hops : op.operands = [A, B, C])
    (hA : A.type.isMemRef = true ∧ A.type.getRank = 2)
    (hB : B.type.isMemRef = true ∧ B.type.getRank = 2)
    (hC : C.type.isMemRef = true ∧ C.type.getRank = 2) :
    ConvertGenericOpToTpp.matchAndRewrite op rewriter
      = .ok (.success, { rewriter with root := .replacedBy (.tpp .matmul [A, B, C]) }) := by
  have hmark : hasTppMark op = true := hasTppMark_of_call op _ hcall (by decide)
  have hchk : ∀ v : Value, v.type.getRank = 2 → failed (checkOperandForTpp v) = false := by
    intro v hv
    have := (checkOperandForTpp_eq_success_iff v).2 (Or.inr (by omega))
    simp [this, failed]
  have hstage : ConvertGenericOpToTpp.checks op rewriter
      = .ok (.kernelSelection [A, B, C], rewriter) := by
    simp [ConvertGenericOpToTpp.checks, hbuf, hcall, hmark, hres, hops,
      ConvertGenericOpToTpp.operandLoop,
      getOperandForTpp_of_rank_le A _ (by omega), getOperandForTpp_of_rank_le B _ (by omega),
      getOperandForTpp_of_rank_le C _ (by omega), hchk A hA.2, hchk B hB.2, hchk C hC.2]
  simp [ConvertGenericOpToTpp.matchAndRewrite, hstage, ConvertGenericOpToTpp.rewriteToTppOp,
    GenericOp.getLibraryCallName, hcall, Rewriter.replaceOpWithNewOp]

theorem matmul_end_to_end_witness :
    ConvertGenericOpToTpp.matchAndRewrite matmulExample freshRewriter
      = .ok (.success,
          { freshRewriter with
            root := .replacedBy (.tpp .matmul
              [{ id := 0, type := f32MemRef [4, 8] }, { id := 1, type := f32MemRef [8, 4] },
               { id := 2, type := f32MemRef [4, 4] }]) }) :=
  matmul_end_to_end matmulExample _ _ _ freshRewriter (by decide) (by decide) rfl rfl
    (by decide) (by decide) (by decide)

/-- C6. The method `rewriteToTppOp` selects the kernel from the annotation and wires
the operands by position: `tpp.identity` (on its two operands) gives
`Identity(operand[0], operand[1])`, `tpp.add` gives `Add(operand[0], operand[1])`,
`tpp.matmul` gives `Matmul(operand[0], operand[1], operand[2])`, `tpp.relu` gives
`Relu(operand[0], operand[1])` when the op has exactly two inputs and
`Relu(operand[0], operand[0])` otherwise; each time the op is replaced by that one
operation, nothing else is inserted, and success is returned. The operand lists
are those that hold the operands named: `[o0, o1]` for identity, at least two
operands for add and two-input relu, at least three for matmul, at least one for
in-place relu. -/
theorem rewriteToTppOp_wiring (op : GenericOp) (o0 o1 o2 : Value) (rest : List Value)
    (rewriter : Rewriter) :
    ConvertGenericOpToTpp.rewriteToTppOp { op with libraryCall := some "tpp.identity" }
        [o0, o1] rewriter
      = .ok (.success, { rewriter with root := .replacedBy (.tpp .identity [o0, o1]) })
    ∧ ConvertGenericOpToTpp.rewriteToTppOp { op with libraryCall := some "tpp.add" }
        (o0 :: o1 :: rest) rewriter
      = .ok (.success, { rewriter with root := .replacedBy (.tpp .add [o0, o1]) })
    ∧ ConvertGenericOpToTpp.rewriteToTppOp { op with libraryCall := some "tpp.matmul" }
        (o0 :: o1 :: o2 :: rest) rewriter
      = .ok (.success, { rewriter with root := .replacedBy (.tpp .matmul [o0, o1, o2]) })
    ∧ ConvertGenericOpToTpp.rewriteToTppOp
        { op with libraryCall := some "tpp.relu", numInputs := 2 } (o0 :: o1 :: rest) rewriter
      = .ok (.success, { rewriter with root := .replacedBy (.tpp .relu [o0, o1]) })
    ∧ (op.getNumInputs ≠ 2 →
      ConvertGenericOpToTpp.rewriteToTppOp { op with libraryCall := some "tpp.relu" }
        (o0 :: rest) rewriter
      = .ok (.success, { rewriter with root := .replacedBy (.tpp .relu [o0, o0]) })) := by
  refine ⟨?_, ?_, ?_, ?_, ?_⟩
  · simp [ConvertGenericOpToTpp.rewriteToTppOp, GenericOp.getLibraryCallName,
      Rewriter.replaceOpWithNewOp]
  · simp [ConvertGenericOpToTpp.rewriteToTppOp, GenericOp.getLibraryCallName,
      Rewriter.replaceOpWithNewOp]
  · simp [ConvertGenericOpToTpp.rewriteToTppOp, GenericOp.getLibraryCallName,
      Rewriter.replaceOpWithNewOp]
  · simp [ConvertGenericOpToTpp.rewriteToTppOp, GenericOp.getLibraryCallName,
      Rewriter.replaceOpWithNewOp, GenericOp.getNumInputs]
  · intro h
    have h2 : op.numInputs ≠ 2 := h
    simp [ConvertGenericOpToTpp.rewriteToTppOp, GenericOp.getLibraryCallName,
      Rewriter.replaceOpWithNewOp, GenericOp.getNumInputs, h2]

theorem rewriteToTppOp_wiring_witness :
    ConvertGenericOpToTpp.rewriteToTppOp { unannotated5D with libraryCall := some "tpp.relu" }
        [{ id := 0, type := f32MemRef [4, 4] }] freshRewriter
      = .ok (.success,
          { freshRewriter with
            root := .replacedBy (.tpp .relu
              [{ id := 0, type := f32MemRef [4, 4] }, { id := 0, type := f32MemRef [4, 4] }]) }) :=
  (rewriteToTppOp_wiring unannotated5D { id := 0, type := f32MemRef [4, 4] }
    { id := 0, type := f32MemRef [4, 4] } { id := 0, type := f32MemRef [4, 4] } []
    freshRewriter).2.2.2.2 (by decide)

/-! ### The unannotated five-dimensional scenario -/

theorem getTileSizes_five (op : GenericOp)
    (hloops : op.iteratorTypes = List.replicate 5 .parallel) :
    getTileSizes op = .ok [1, 1, 1, 0, 0] := by
  simp [getTileSizes, GenericOp.getNumLoops, hloops, getTileSizes.pushLoop]

/-- C4, counterexample. On the unannotated generic op with five parallel loops the
pattern `ReshapeGenericOpForTpp`, one of the four registered patterns, does not
leave the op alone: when upstream tiling succeeds the op is erased and a loop
nest tiled by `(1, 1, 1, 0, 0)` is inserted, and when it fails an error is
emitted. -/
theorem unannotated5D_not_left_alone :
    Pattern.ReshapeGenericOpForTpp ∈ populateConvertLinalgToTppPatterns
    ∧ Pattern.matchAndRewrite (fun _ _ => true) .ReshapeGenericOpForTpp
        (.generic unannotated5D) freshRewriter
      = .ok (.success,
          { nextValue := 100
            inserted := [.tiledLoopNest false [1, 1, 1, 0, 0] unannotated5D]
            root := .erased })
    ∧ Pattern.matchAndRewrite (fun _ _ => false) .ReshapeGenericOpForTpp
        (.generic unannotated5D) freshRewriter
      = .ok (.error "Failed to tile linalgOp", freshRewriter) := by
  refine ⟨by decide, ?_, ?_⟩
  · simp [Pattern.matchAndRewrite, ReshapeGenericOpForTpp.matchAndRewrite, reshape2D,
      linalg.tileLinalgOp, getTileSizes_five unannotated5D rfl]
    decide
  · simp [Pattern.matchAndRewrite, ReshapeGenericOpForTpp.matchAndRewrite, reshape2D,
      linalg.tileLinalgOp, getTileSizes_five unannotated5D rfl]
    decide

/-- C4, amended. For a generic op with five loops, all parallel, and no annotation:
`ConvertGenericOpToTpp` reports a match failure and changes nothing,
`ConvertBrgemmToTpp` and `ConvertMatmulToTpp` do not match a generic op, but
`ReshapeGenericOpForTpp` applies: with buffer semantics it tiles the op by
`(1, 1, 1, 0, 0)` with sequential loops and erases it when upstream tiling succeeds
and emits the error "Failed to tile linalgOp" when it fails; without buffer
semantics it emits the error "Expect linalgOp with buffer semantics". -/
theorem unannotated_five_parallel (canTile : GenericOp → List Int → Bool) (op : GenericOp)
    (rewriter : Rewriter) (hcall : op.libraryCall = none)
    (hloops : op.iteratorTypes = List.replicate 5 .parallel) :
    (∃ reason, Pattern.matchAndRewrite canTile .ConvertGenericOpToTpp (.generic op) rewriter
        = .ok (.matchFailure reason, rewriter))
    ∧ Pattern.matchAndRewrite canTile .ConvertBrgemmToTpp (.generic op) rewriter
        = .ok (.failure, rewriter)
    ∧ Pattern.matchAndRewrite canTile .ConvertMatmulToTpp (.generic op) rewriter
        = .ok (.failure, rewriter)
    ∧ Pattern.matchAndRewrite canTile .ReshapeGenericOpForTpp (.generic op) rewriter
        = (if op.hasBufferSemantics then
            if canTile op [1, 1, 1, 0, 0] then
              .ok (.success,
                { rewriter with
                  inserted := rewriter.inserted ++ [.tiledLoopNest false [1, 1, 1, 0, 0] op]
                  root := .erased })
            else .ok (.error "Failed to tile linalgOp", rewriter)
           else .ok (.error "Expect linalgOp with buffer semantics", rewriter)) := by
  refine ⟨?_, rfl, rfl, ?_⟩
  · by_cases hbuf : op.hasBufferSemantics = true
    · exact ⟨"not enough information to map to tpps", by
        simp [Pattern.matchAndRewrite, ConvertGenericOpToTpp.matchAndRewrite,
          ConvertGenericOpToTpp.checks, hbuf, hcall]⟩
    · exact ⟨"expect buffer semantics", by
        simp [Pattern.matchAndRewrite, ConvertGenericOpToTpp.matchAndRewrite,
          ConvertGenericOpToTpp.checks, hbuf]⟩
  · have hall : op.iteratorTypes.all isParallelIterator = true := by
      rw [hloops]; decide
    have hn : ¬ op.getNumLoops ≤ 2 := by
      simp [GenericOp.getNumLoops, hloops]
    by_cases hbuf : op.hasBufferSemantics = true <;> by_cases ht : canTile op [1, 1, 1, 0, 0]
      <;> simp [Pattern.matchAndRewrite, ReshapeGenericOpForTpp.matchAndRewrite, reshape2D,
        linalg.tileLinalgOp, getTileSizes_five op hloops, hbuf, ht, hall, hn,
        Rewriter.insert, Rewriter.eraseOp]

theorem unannotated_five_parallel_witness :
    Pattern.matchAndRewrite (fun _ _ => true) .ReshapeGenericOpForTpp (.generic unannotated5D)
        freshRewriter
      = (if unannotated5D.hasBufferSemantics then
          if (fun _ _ => true) unannotated5D [1, 1, 1, 0, 0] then
            .ok (.success,
              { freshRewriter with
                inserted := freshRewriter.inserted
                  ++ [.tiledLoopNest false [1, 1, 1, 0, 0] unannotated5D]
                root := .erased })
          else .ok (.error "Failed to tile linalgOp", freshRewriter)
         else .ok (.error "Expect linalgOp with buffer semantics", freshRewriter)) :=
  (unannotated_five_parallel (fun _ _ => true) unannotated5D freshRewriter rfl rfl).2.2.2

/-! ### Shape normalizer -/

theorem computeRankReductionMask_filter (sizes : List Int) :
    computeRankReductionMask sizes (sizes.filter (fun sz => sz != 1))
      = some (sizes.map (fun sz => sz == 1)) := by
  induction sizes with
  | nil => rfl
  | cons o os ih =>
    by_cases ho : o = 1
    · subst ho
      have hf : (List.filter (fun sz => sz != 1) ((1 : Int) :: os))
          = List.filter (fun sz => sz != 1) os := by simp
      rw [hf]
      cases hr : List.filter (fun sz => sz != 1) os with
      | nil =>
        rw [hr] at ih
        simp [computeRankReductionMask, ih]
      | cons r rs =>
        rw [hr] at ih
        have hmem : r ∈ List.filter (fun sz => sz != 1) os := by rw [hr]; simp
        have hr1 : r ≠ 1 := by simpa using (List.mem_filter.1 hmem).2
        have hne : (1 : Int) ≠ r := fun h => hr1 h.symm
        simp [computeRankReductionMask, ih, hne]
    · have hf : (List.filter (fun sz => sz != 1) (o :: os))
          = o :: List.filter (fun sz => sz != 1) os := by simp [ho]
      rw [hf]
      simp [computeRankReductionMask, ih, ho]

theorem canonicalizeStridedLayout_shape (t : MemRefType) :
    (canonicalizeStridedLayout t).shape = t.shape := by
  unfold canonicalizeStridedLayout
  split
  · rfl
  · split_ifs <;> rfl

theorem filter_length_eq_imp (sizes : List Int)
    (h : sizes.length = (sizes.filter (fun sz => sz != 1)).length) :
    sizes.filter (fun sz => sz != 1) = sizes := by
  rw [List.filter_eq_self]
  by_contra hcon
  simp only [not_forall] at hcon
  obtain ⟨a, ha, hna⟩ := hcon
  have hlt : (sizes.filter (fun sz => sz != 1)).length < sizes.length :=
    List.length_filter_lt_length_iff_exists.2 ⟨a, ha, hna⟩
  omega

theorem dropUnitDims_ok (t : MemRefType) (offsets sizes strides : List Int) :
    ∃ r, dropUnitDims t offsets sizes strides = .ok r
      ∧ r.shape = (sizes.filter (fun sz => sz != 1)).map some := by
  unfold dropUnitDims inferRankReducedResultType
  have hrank : (inferResultType t offsets sizes strides).getRank = sizes.length := by
    simp [inferResultType, MemRefType.getRank]
  have hle := List.length_filter_le (fun sz : Int => sz != 1) sizes
  simp only [hrank]
  by_cases heq : sizes.length = (sizes.filter (fun sz => sz != 1)).length
  · have hnlt : ¬ sizes.length < (sizes.filter (fun sz => sz != 1)).length := by omega
    rw [if_neg hnlt, if_pos heq]
    refine ⟨_, rfl, ?_⟩
    rw [canonicalizeStridedLayout_shape, filter_length_eq_imp sizes heq]
    simp [inferResultType]
  · have hnlt : ¬ sizes.length < (sizes.filter (fun sz => sz != 1)).length := by omega
    have hshape : (inferResultType t offsets sizes strides).getShape = sizes := by
      simp [inferResultType, MemRefType.getShape, Function.comp_def]
    rw [if_neg hnlt, if_neg heq, hshape, computeRankReductionMask_filter]
    refine ⟨_, rfl, ?_⟩
    rw [canonicalizeStridedLayout_shape]

theorem shape_of_hasStaticShape (t : MemRefType) (h : t.hasStaticShape = true) :
    t.shape = t.getShape.map some := by
  unfold MemRefType.hasStaticShape at h
  unfold MemRefType.getShape
  generalize t.shape = l at h
  induction l with
  | nil => rfl
  | cons d ds ih =>
    cases d with
    | none => simp at h
    | some n =>
      simp only [List.all_cons, Bool.and_eq_true] at h
      simp only [List.map_cons, Option.getD_some, List.cons.injEq, true_and]
      exact ih h.2

theorem getShape_map_some (t : MemRefType) (l : List Int) (h : t.shape = l.map some) :
    t.getShape = l := by
  simp [MemRefType.getShape, h, Function.comp_def]

theorem prod_filter_ne_one (sizes : List Int) :
    (sizes.filter (fun sz => sz != 1)).prod = sizes.prod := by
  induction sizes with
  | nil => rfl
  | cons o os ih =>
    by_cases ho : o = 1
    · subst ho; simp [ih]
    · simp [ho, ih]

theorem rankReducing_unfold (builder : Rewriter) (input : Value) (t : MemRefType)
    (hty : input.type = .memref t) (hstatic : t.hasStaticShape = true) :
    ∃ r, r.shape = (t.getShape.filter (fun sz => sz != 1)).map some
      ∧ dropUnitDims t (List.replicate t.getRank 0) t.getShape (List.replicate t.getRank 1)
          = .ok r
      ∧ rankReducingSubviewDroppingUnitDims builder input
          = (if canonicalizeStridedLayout r = canonicalizeStridedLayout t then
              .ok (input, builder)
            else
              .ok (builder.createSubView r input (List.replicate t.getRank 0) t.getShape
                (List.replicate t.getRank 1))) := by
  obtain ⟨r, hr, hshape⟩ :=
    dropUnitDims_ok t (List.replicate t.getRank 0) t.getShape (List.replicate t.getRank 1)
  refine ⟨r, hshape, hr, ?_⟩
  simp only [rankReducingSubviewDroppingUnitDims, hty, hstatic, hr]
  rfl

/-- On a statically shaped memref the Shape Normalizer returns a memref whose shape
is the input shape without its unit extents. -/
theorem rankReducing_result_shape (builder : Rewriter) (input : Value) (t : MemRefType)
    (hty : input.type = .memref t) (hstatic : t.hasStaticShape = true) :
    ∃ v b t', rankReducingSubviewDroppingUnitDims builder input = .ok (v, b)
      ∧ v.type = .memref t'
      ∧ t'.shape = (t.getShape.filter (fun sz => sz != 1)).map some := by
  obtain ⟨r, hshape, -, hrun⟩ := rankReducing_unfold builder input t hty hstatic
  by_cases hc : canonicalizeStridedLayout r = canonicalizeStridedLayout t
  · rw [if_pos hc] at hrun
    refine ⟨input, builder, t, hrun, hty, ?_⟩
    have := congrArg MemRefType.shape hc
    rw [canonicalizeStridedLayout_shape, canonicalizeStridedLayout_shape] at this
    rw [← this, hshape]
  · rw [if_neg hc] at hrun
    exact ⟨_, _, r, hrun, rfl, hshape⟩

/-- C9. For a statically shaped view `V`, the Shape Normalizer returns a view whose
shape is `V`'s shape with exactly the extent-1 entries removed, the others in
their original order; the product of the extents is unchanged; and it either
returns `V` and creates nothing, or creates one sub-view of `V` with all-zero
offsets, `V`'s full sizes and all-one strides and returns its result. -/
theorem rank_reduction_preserves_elements (builder : Rewriter) (input : Value)
    (t : MemRefType) (hty : input.type = .memref t) (hstatic : t.hasStaticShape = true) :
    ∃ v b t', rankReducingSubviewDroppingUnitDims builder input = .ok (v, b)
      ∧ v.type = .memref t'
      ∧ t'.shape = (t.getShape.filter (fun sz => sz != 1)).map some
      ∧ t'.getShape.prod = t.getShape.prod
      ∧ ((v = input ∧ b = builder)
        ∨ (v.id = builder.nextValue
          ∧ b = { builder with
                  nextValue := builder.nextValue + 1
                  inserted := builder.inserted ++
                    [.subview v input (List.replicate t.getRank 0) t.getShape
                      (List.replicate t.getRank 1)] })) := by
  obtain ⟨r, hshape, -, hrun⟩ := rankReducing_unfold builder input t hty hstatic
  by_cases hc : canonicalizeStridedLayout r = canonicalizeStridedLayout t
  · rw [if_pos hc] at hrun
    have hts : t.shape = (t.getShape.filter (fun sz => sz != 1)).map some := by
      have := congrArg MemRefType.shape hc
      rw [canonicalizeStridedLayout_shape, canonicalizeStridedLayout_shape] at this
      rw [← this, hshape]
    refine ⟨input, builder, t, hrun, hty, hts, ?_, Or.inl ⟨rfl, rfl⟩⟩
    conv_lhs => rw [getShape_map_some t _ hts]
    exact prod_filter_ne_one _
  · rw [if_neg hc] at hrun
    refine ⟨_, _, r, hrun, rfl, hshape, ?_, Or.inr ⟨rfl, rfl⟩⟩
    rw [getShape_map_some r _ hshape]
    exact prod_filter_ne_one _

theorem rank_reduction_preserves_elements_witness :
    ∃ v b t', rankReducingSubviewDroppingUnitDims freshRewriter
          { id := 0, type := f32MemRef [4, 1, 32, 1] } = .ok (v, b)
      ∧ v.type = .memref t'
      ∧ t'.shape = [some 4, some 32]
      ∧ t'.getShape.prod = 128
      ∧ ((v = { id := 0, type := f32MemRef [4, 1, 32, 1] } ∧ b = freshRewriter)
        ∨ (v.id = 100
          ∧ b = { nextValue := 101
                  inserted := [.subview v { id := 0, type := f32MemRef [4, 1, 32, 1] }
                    [0, 0, 0, 0] [4, 1, 32, 1] [1, 1, 1, 1]]
                  root := .inPlace })) :=
  rank_reduction_preserves_elements freshRewriter { id := 0, type := f32MemRef [4, 1, 32, 1] }
    { shape := [some 4, some 1, some 32, some 1], elementType := "f32", layout := .identity,
      memorySpace := 0 } rfl (by decide)

theorem foldl_zip_zeros (n : Nat) (ss : List Int) (a : Int) :
    (List.zip (List.replicate n (0 : Int)) ss).foldl (fun acc p => acc + p.1 * p.2) a = a := by
  induction n generalizing ss a with
  | zero => simp
  | succ n ih =>
    cases ss with
    | nil => simp
    | cons x xs => simp [List.replicate_succ, ih]

theorem map_zip_ones (n : Nat) (ss : List Int) (h : ss.length ≤ n) :
    (List.zip ss (List.replicate n (1 : Int))).map (fun p => p.1 * p.2) = ss := by
  induction n generalizing ss with
  | zero =>
    cases ss with
    | nil => rfl
    | cons x xs => simp at h
  | succ n ih =>
    cases ss with
    | nil => rfl
    | cons x xs =>
      simp only [List.length_cons, Nat.add_le_add_iff_right] at h
      simp [List.replicate_succ, ih xs h]

theorem canonicalStrides_length (sizes : List Int) :
    (canonicalStrides sizes).length = sizes.length := by
  induction sizes with
  | nil => rfl
  | cons d ds ih => simp [canonicalStrides, ih]

theorem getStridesAndOffset_length (t : MemRefType) (hvalid : t.hasValidLayout = true) :
    (getStridesAndOffset t).1.length = t.getRank := by
  unfold getStridesAndOffset
  unfold MemRefType.hasValidLayout at hvalid
  cases hl : t.layout with
  | identity => simp [canonicalStrides_length, MemRefType.getShape, MemRefType.getRank]
  | strided off strs =>
    rw [hl] at hvalid
    simpa using hvalid

theorem canonicalizeStridedLayout_idem (t : MemRefType) :
    canonicalizeStridedLayout (canonicalizeStridedLayout t) = canonicalizeStridedLayout t := by
  cases hl : t.layout with
  | identity => simp [canonicalizeStridedLayout, hl]
  | strided off strs =>
    by_cases hc : off = 0 ∧ strs = canonicalStrides t.getShape
    · have h1 : canonicalizeStridedLayout t = { t with layout := .identity } := by
        simp only [canonicalizeStridedLayout, hl]
        rw [if_pos hc]
      rw [h1]
      simp [canonicalizeStridedLayout]
    · have h1 : canonicalizeStridedLayout t = t := by
        simp only [canonicalizeStridedLayout, hl]
        rw [if_neg hc]
      rw [h1, h1]

theorem canonicalizeStridedLayout_valid (t : MemRefType) (hvalid : t.hasValidLayout = true) :
    (canonicalizeStridedLayout t).hasValidLayout = true := by
  unfold canonicalizeStridedLayout
  split
  · exact hvalid
  · split_ifs
    · rfl
    · exact hvalid

/-- With all-zero offsets, full sizes and all-one strides the inferred sub-view
type is the source type in strided form. -/
theorem inferResultType_full (t : MemRefType) (hstatic : t.hasStaticShape = true)
    (hvalid : t.hasValidLayout = true) :
    inferResultType t (List.replicate t.getRank 0) t.getShape (List.replicate t.getRank 1)
      = { t with layout := .strided (getStridesAndOffset t).2 (getStridesAndOffset t).1 } := by
  have hlen := getStridesAndOffset_length t hvalid
  simp only [inferResultType]
  rw [foldl_zip_zeros, map_zip_ones _ _ (le_of_eq hlen), ← shape_of_hasStaticShape t hstatic]

theorem canonicalize_inferResultType_full (t : MemRefType) (hstatic : t.hasStaticShape = true)
    (hvalid : t.hasValidLayout = true) :
    canonicalizeStridedLayout
        (inferResultType t (List.replicate t.getRank 0) t.getShape (List.replicate t.getRank 1))
      = canonicalizeStridedLayout t := by
  rw [inferResultType_full t hstatic hvalid]
  cases hl : t.layout with
  | identity =>
    have ht : ({ t with layout := .identity } : MemRefType) = t := by
      cases t; simp_all
    simp [getStridesAndOffset, hl, canonicalizeStridedLayout, MemRefType.getShape, ht]
  | strided off strs =>
    have ht : ({ t with layout := .strided off strs } : MemRefType) = t := by
      cases t; simp_all
    simp [getStridesAndOffset, hl, ht]

theorem projectOut_length (sizes strs : List Int) (h : strs.length = sizes.length) :
    (projectOut strs (sizes.map (fun sz => sz == 1))).length
      = (sizes.filter (fun sz => sz != 1)).length := by
  induction sizes generalizing strs with
  | nil => cases strs <;> simp [projectOut]
  | cons o os ih =>
    cases strs with
    | nil => simp at h
    | cons x xs =>
      simp only [List.length_cons, Nat.add_right_cancel_iff] at h
      by_cases ho : o = 1
      · subst ho
        simp [projectOut, ih xs h]
      · simp [projectOut, ho, ih xs h]

theorem hasStaticShape_of_shape (t : MemRefType) (l : List Int) (h : t.shape = l.map some) :
    t.hasStaticShape = true := by
  simp [MemRefType.hasStaticShape, h]

theorem dropUnitDims_full_valid (t r : MemRefType) (hstatic : t.hasStaticShape = true)
    (hvalid : t.hasValidLayout = true)
    (h : dropUnitDims t (List.replicate t.getRank 0) t.getShape (List.replicate t.getRank 1)
          = .ok r) :
    r.hasValidLayout = true := by
  have hlen := getStridesAndOffset_length t hvalid
  have hrank : t.getRank = t.getShape.length := by
    simp [MemRefType.getRank, MemRefType.getShape]
  unfold dropUnitDims inferRankReducedResultType at h
  rw [inferResultType_full t hstatic hvalid] at h
  have hle := List.length_filter_le (fun sz : Int => sz != 1) t.getShape
  have hr0 : ({ t with layout := (Layout.strided (getStridesAndOffset t).2
      (getStridesAndOffset t).1) } : MemRefType).getRank = t.getShape.length := hrank
  have hs0 : ({ t with layout := (Layout.strided (getStridesAndOffset t).2
      (getStridesAndOffset t).1) } : MemRefType).getShape = t.getShape := rfl
  simp only [hr0, hs0] at h
  have hnlt : ¬ t.getShape.length < (t.getShape.filter (fun sz => sz != 1)).length := by omega
  rw [if_neg hnlt] at h
  by_cases heq : t.getShape.length = (t.getShape.filter (fun sz => sz != 1)).length
  · rw [if_pos heq] at h
    have hr : r = canonicalizeStridedLayout { t with layout := (Layout.strided
        (getStridesAndOffset t).2 (getStridesAndOffset t).1) } := by
      simpa using h.symm
    rw [hr]
    apply canonicalizeStridedLayout_valid
    simp [MemRefType.hasValidLayout, hlen, MemRefType.getRank]
  · rw [if_neg heq, computeRankReductionMask_filter] at h
    have hr : r = canonicalizeStridedLayout
        { t with
          shape := (t.getShape.filter (fun sz => sz != 1)).map some
          layout := (Layout.strided (getStridesAndOffset t).2
            (projectOut (getStridesAndOffset t).1 (t.getShape.map (fun sz => sz == 1)))) } := by
      simpa [getStridesAndOffset] using h.symm
    rw [hr]
    apply canonicalizeStridedLayout_valid
    simp [MemRefType.hasValidLayout, MemRefType.getRank,
      projectOut_length t.getShape _ (hlen.trans hrank)]

theorem rankReducing_unit_free (builder : Rewriter) (input : Value) (t : MemRefType)
    (hty : input.type = .memref t) (hstatic : t.hasStaticShape = true)
    (hvalid : t.hasValidLayout = true) (hunit : ∀ sz ∈ t.getShape, sz ≠ 1) :
    rankReducingSubviewDroppingUnitDims builder input = .ok (input, builder) := by
  obtain ⟨r, -, hdrop, hrun⟩ := rankReducing_unfold builder input t hty hstatic
  have hfilter : t.getShape.filter (fun sz => sz != 1) = t.getShape := by
    rw [List.filter_eq_self]
    intro a ha
    simpa using hunit a ha
  have hr : r = canonicalizeStridedLayout
      (inferResultType t (List.replicate t.getRank 0) t.getShape
        (List.replicate t.getRank 1)) := by
    have hrank : (inferResultType t (List.replicate t.getRank 0) t.getShape
        (List.replicate t.getRank 1)).getRank = t.getShape.length := by
      simp [inferResultType, MemRefType.getRank]
    unfold dropUnitDims inferRankReducedResultType at hdrop
    simp only [hfilter, hrank, lt_irrefl, if_false, if_true] at hdrop
    simpa using hdrop.symm
  rw [hrun, if_pos]
  rw [hr, canonicalizeStridedLayout_idem, canonicalize_inferResultType_full t hstatic hvalid]

/-- C8. Rank reduction is idempotent. For a statically shaped view `V` none of
whose extents is 1 the Shape Normalizer returns `V` itself and creates no
operation; and for every statically shaped view, it returns a view on which a
second application returns that same view and creates nothing more. -/
theorem rank_reduction_idempotent (builder : Rewriter) (input : Value) (t : MemRefType)
    (hty : input.type = .memref t) (hstatic : t.hasStaticShape = true)
    (hvalid : t.hasValidLayout = true) :
    ((∀ sz ∈ t.getShape, sz ≠ 1) →
        rankReducingSubviewDroppingUnitDims builder input = .ok (input, builder))
    ∧ ∃ v b, rankReducingSubviewDroppingUnitDims builder input = .ok (v, b)
        ∧ rankReducingSubviewDroppingUnitDims b v = .ok (v, b) := by
  refine ⟨rankReducing_unit_free builder input t hty hstatic hvalid, ?_⟩
  obtain ⟨r, hshape, hdrop, hrun⟩ := rankReducing_unfold builder input t hty hstatic
  by_cases hc : canonicalizeStridedLayout r = canonicalizeStridedLayout t
  · rw [if_pos hc] at hrun
    exact ⟨input, builder, hrun, hrun⟩
  · rw [if_neg hc] at hrun
    refine ⟨_, _, hrun, ?_⟩
    apply rankReducing_unit_free _ _ r rfl (hasStaticShape_of_shape r _ hshape)
      (dropUnitDims_full_valid t r hstatic hvalid hdrop)
    intro sz hsz
    rw [getShape_map_some r _ hshape] at hsz
    simpa using (List.mem_filter.1 hsz).2

theorem rank_reduction_idempotent_witness :
    rankReducingSubviewDroppingUnitDims freshRewriter { id := 0, type := f32MemRef [4, 32, 32] }
        = .ok ({ id := 0, type := f32MemRef [4, 32, 32] }, freshRewriter)
    ∧ ∃ v b, rankReducingSubviewDroppingUnitDims freshRewriter
            { id := 0, type := f32MemRef [4, 32, 32] } = .ok (v, b)
        ∧ rankReducingSubviewDroppingUnitDims b v = .ok (v, b) :=
  ⟨(rank_reduction_idempotent freshRewriter { id := 0, type := f32MemRef [4, 32, 32] }
      { shape := [some 4, some 32, some 32], elementType := "f32", layout := .identity,
        memorySpace := 0 } rfl (by decide) (by decide)).1 (by decide),
   (rank_reduction_idempotent freshRewriter { id := 0, type := f32MemRef [4, 32, 32] }
      { shape := [some 4, some 32, some 32], elementType := "f32", layout := .identity,
        memorySpace := 0 } rfl (by decide) (by decide)).2⟩

/-! ### The applicability checks of `ConvertGenericOpToTpp` -/

/-- C5, failing input. The op `dynamicIdentity` has buffer semantics, a marked
annotation and no result, but its first operand is a `?x4x4` memref, which
`getOperandForTpp` hands to the Shape Normalizer unchecked: the checks neither
reach kernel selection nor report a match failure, the static-shape assertion
of the Shape Normalizer fails. -/
theorem dynamic_operand_no_match_failure :
    dynamicIdentity.hasBufferSemantics = true
    ∧ dynamicIdentity.libraryCall.isSome = true
    ∧ hasTppMark dynamicIdentity = true
    ∧ dynamicIdentity.getNumResults = 0
    ∧ ConvertGenericOpToTpp.checks dynamicIdentity freshRewriter = .error "expect static shape"
    ∧ ConvertGenericOpToTpp.matchAndRewrite dynamicIdentity freshRewriter
        = .error "expect static shape" := by
  decide

/-- C10, failing input. On the `?x4x4` memref the Shape Normalizer does not return
a failure value: its assertion "expect static shape" fails, and so does
`getOperandForTpp`, which hands it the operand unchecked; the operand loop of
the enclosing match, run on two such operands, does not fail normally either. -/
theorem dynamic_view_asserts :
    rankReducingSubviewDroppingUnitDims freshRewriter { id := 0, type := dynamicMemRef }
        = .error "expect static shape"
    ∧ getOperandForTpp { id := 0, type := dynamicMemRef } freshRewriter
        = .error "expect static shape"
    ∧ ConvertGenericOpToTpp.operandLoop dynamicIdentity.operands freshRewriter []
        = .error "expect static shape" := by
  decide

/-- On every memref with a dynamic extent the static-shape assertion of the Shape
Normalizer fails and no sub-view is created; `getOperandForTpp` hands it such an
operand unchecked when its rank exceeds 2. -/
theorem rankReducing_dynamic_asserts (builder : Rewriter) (input : Value) (t : MemRefType)
    (hty : input.type = .memref t) (hdyn : t.hasStaticShape = false) :
    rankReducingSubviewDroppingUnitDims builder input = .error "expect static shape"
    ∧ (2 < t.getRank → getOperandForTpp input builder = .error "expect static shape") := by
  have h1 : rankReducingSubviewDroppingUnitDims builder input
      = .error "expect static shape" := by
    simp [rankReducingSubviewDroppingUnitDims, hty, hdyn]
  refine ⟨h1, fun hrank => ?_⟩
  unfold getOperandForTpp
  have hnle : ¬ input.type.getRank ≤ 2 := by
    simp only [hty, Ty.getRank]
    omega
  simp only [hty, Ty.isShaped, Bool.not_true, Bool.false_eq_true, if_false]
  simp only [hty] at hnle
  rw [if_neg hnle]
  simpa [hty] using h1

/-- C7, failing input. On `unknownKernel`, whose annotation `tpp.foo` is none of the
four known names, the pattern reports a match failure and leaves the generic op
in place, but the rank-reducing sub-view it created for the `1x32x32` operand
stays inserted. -/
theorem unknown_annotation_leaves_subview :
    unknownKernel.getLibraryCallName ∉ ["tpp.identity", "tpp.relu", "tpp.add", "tpp.matmul"]
    ∧ hasTppMark unknownKernel = true
    ∧ ConvertGenericOpToTpp.matchAndRewrite unknownKernel freshRewriter
      = .ok (.matchFailure "failed to match a known library_call attribute",
          { nextValue := 101
            inserted := [.subview { id := 100, type := f32MemRef [32, 32] }
              { id := 0, type := f32MemRef [1, 32, 32] } [0, 0, 0] [1, 32, 32] [1, 1, 1]]
            root := .inPlace }) := by
  decide

theorem failed_check_eq_false_iff (v : Value) :
    failed (checkOperandForTpp v) = false ↔ (v.type.isShaped = false ∨ v.type.getRank ≤ 2) := by
  rw [← checkOperandForTpp_eq_success_iff]
  cases h : checkOperandForTpp v <;> simp [failed]

/-- What `getOperandForTpp` does on a scalar or on a memref that is statically
shaped when its rank exceeds 2: it returns an operand that passes
`checkOperandForTpp` exactly when the input is eligible, and returns the input
itself, creating nothing, when the input is a scalar or has rank at most 2. -/
theorem getOperandForTpp_static (v : Value) (rewriter : Rewriter)
    (hkind : v.type.isShaped = false ∨ v.type.isMemRef = true)
    (hstatic : ∀ t, v.type = .memref t → 2 < t.getRank → t.hasStaticShape = true) :
    ∃ v' rewriter', getOperandForTpp v rewriter = .ok (v', rewriter')
      ∧ (failed (checkOperandForTpp v') = false ↔ operandEligible v = true)
      ∧ ((v.type.isShaped = false ∨ v.type.getRank ≤ 2) → v' = v ∧ rewriter' = rewriter) := by
  by_cases hsmall : v.type.isShaped = false ∨ v.type.getRank ≤ 2
  · have hrun : getOperandForTpp v rewriter = .ok (v, rewriter) := by
      unfold getOperandForTpp
      rcases hsmall with h | h
      · simp [h]
      · split_ifs <;> rfl
    refine ⟨v, rewriter, hrun, ?_, fun _ => ⟨rfl, rfl⟩⟩
    rw [failed_check_eq_false_iff]
    simp only [hsmall, true_iff]
    rcases hsmall with h | h
    · simp [operandEligible, h]
    · cases hv : v.type with
      | scalar n => simp [operandEligible, hv, Ty.isShaped]
      | memref t =>
        have ht : t.getRank ≤ 2 := by simpa [hv, Ty.getRank] using h
        simp [operandEligible, hv, reducedRank, ht]
      | tensor sh e =>
        have ht : sh.length ≤ 2 := by simpa [hv, Ty.getRank] using h
        simp [operandEligible, hv, reducedRank, Ty.getRank, ht]
  · have hshaped : v.type.isShaped = true := by
      cases hs : v.type.isShaped
      · exact absurd (Or.inl hs) hsmall
      · rfl
    have hrank : 2 < v.type.getRank := by
      by_contra hcon
      exact hsmall (Or.inr (by omega))
    have hmem : v.type.isMemRef = true := by
      rcases hkind with h | h
      · rw [hshaped] at h; cases h
      · exact h
    cases hv : v.type with
    | scalar n => rw [hv] at hmem; cases hmem
    | tensor sh e => rw [hv] at hmem; cases hmem
    | memref t =>
      have ht : 2 < t.getRank := by simpa [hv, Ty.getRank] using hrank
      obtain ⟨v', b, t', hrun, hty', hshape'⟩ :=
        rankReducing_result_shape rewriter v t hv (hstatic t hv ht)
      have hget : getOperandForTpp v rewriter = .ok (v', b) := by
        unfold getOperandForTpp
        rw [hv] at hrank hshaped
        simp only [hv, hshaped, Bool.not_true, Bool.false_eq_true, if_false]
        rw [if_neg (by omega)]
        exact hrun
      refine ⟨v', b, hget, ?_, fun h => absurd (hv ▸ h) hsmall⟩
      rw [failed_check_eq_false_iff]
      have hnt : ¬ t.shape.length ≤ 2 := by
        have := ht
        simp only [MemRefType.getRank] at this
        omega
      simp [hty', hv, Ty.isShaped, Ty.getRank, MemRefType.getRank, hshape', operandEligible,
        reducedRank, hnt]

theorem operandLoop_spec (operands : List Value) (rewriter : Rewriter) (acc : List Value)
    (hkind : ∀ v ∈ operands, v.type.isShaped = false ∨ v.type.isMemRef = true)
    (hstatic : ∀ v ∈ operands, ∀ t, v.type = .memref t → 2 < t.getRank →
      t.hasStaticShape = true) :
    ((∀ v ∈ operands, operandEligible v = true) →
      ∃ news rewriter',
        ConvertGenericOpToTpp.operandLoop operands rewriter acc
          = .ok (.kernelSelection (acc ++ news), rewriter')
        ∧ List.Forall₂
            (fun v v' => (v.type.isShaped = false ∨ v.type.getRank ≤ 2) → v' = v)
            operands news)
    ∧ ((¬ ∀ v ∈ operands, operandEligible v = true) →
      ∃ rewriter',
        ConvertGenericOpToTpp.operandLoop operands rewriter acc
          = .ok (.returned (.matchFailure "expect scalar or rank 2 memref"), rewriter')) := by
  induction operands generalizing rewriter acc with
  | nil =>
    refine ⟨fun _ => ⟨[], rewriter, by simp [ConvertGenericOpToTpp.operandLoop], .nil⟩, ?_⟩
    intro h
    exact absurd (by simp) h
  | cons v rest ih =>
    obtain ⟨v', rewriter', hrun, hiff, hsame⟩ :=
      getOperandForTpp_static v rewriter (hkind v (List.mem_cons_self _ _))
        (hstatic v (List.mem_cons_self _ _))
    have ih' := ih rewriter' (acc ++ [v'])
      (fun w hw => hkind w (List.mem_cons_of_mem _ hw))
      (fun w hw => hstatic w (List.mem_cons_of_mem _ hw))
    by_cases hv : operandEligible v = true
    · have hf : failed (checkOperandForTpp v') = false := hiff.2 hv
      have hstep : ConvertGenericOpToTpp.operandLoop (v :: rest) rewriter acc
          = ConvertGenericOpToTpp.operandLoop rest rewriter' (acc ++ [v']) := by
        simp [ConvertGenericOpToTpp.operandLoop, hrun, hf]
      rw [hstep]
      constructor
      · intro hall
        obtain ⟨news, rw2, h1, h2⟩ := ih'.1 (fun w hw => hall w (List.mem_cons_of_mem _ hw))
        refine ⟨v' :: news, rw2, ?_, .cons (fun h => (hsame h).1) h2⟩
        rw [h1]
        simp
      · intro hnall
        apply ih'.2
        intro hall
        apply hnall
        intro w hw
        rcases List.mem_cons.1 hw with h | h
        · rw [h]; exact hv
        · exact hall w h
    · have hf : failed (checkOperandForTpp v') = true := by
        cases hb : failed (checkOperandForTpp v')
        · exact absurd (hiff.1 hb) hv
        · rfl
      have hstep : ConvertGenericOpToTpp.operandLoop (v :: rest) rewriter acc
          = .ok (.returned (.matchFailure "expect scalar or rank 2 memref"), rewriter') := by
        simp [ConvertGenericOpToTpp.operandLoop, hrun, hf]
      rw [hstep]
      constructor
      · intro hall
        exact absurd (hall v (List.mem_cons_self _ _)) hv
      · intro _
        exact ⟨rewriter', rfl⟩

/-- The checks on statically shaped operands. When every memref operand of rank
greater than 2 is statically shaped, so that the assertion of the Shape
Normalizer holds, `ConvertGenericOpToTpp.matchAndRewrite` reaches kernel
selection (its call
of `rewriteToTppOp`) if and only if the op has buffer semantics, carries a
library-call annotation bearing the tpp mark, has zero results, and every operand
is a scalar or, after rank reduction, of rank at most 2; otherwise it reports a
match failure. Scalars and operands of rank at most 2 are passed to kernel
selection unchanged, and `checkOperandForTpp` succeeds exactly on non-shaped
values and shaped values of rank at most 2. -/
theorem checks_reach_kernel_selection (op : GenericOp) (rewriter : Rewriter)
    (hstatic : ∀ v ∈ op.operands, ∀ t, v.type = .memref t → 2 < t.getRank →
      t.hasStaticShape = true) :
    (applicable op →
      ∃ newOperands rewriter',
        ConvertGenericOpToTpp.checks op rewriter = .ok (.kernelSelection newOperands, rewriter')
        ∧ ConvertGenericOpToTpp.matchAndRewrite op rewriter
            = ConvertGenericOpToTpp.rewriteToTppOp op newOperands rewriter'
        ∧ List.Forall₂
            (fun v v' => (v.type.isShaped = false ∨ v.type.getRank ≤ 2) → v' = v)
            op.operands newOperands)
    ∧ (¬ applicable op →
      ∃ reason rewriter',
        ConvertGenericOpToTpp.checks op rewriter
          = .ok (.returned (.matchFailure reason), rewriter')
        ∧ ConvertGenericOpToTpp.matchAndRewrite op rewriter
            = .ok (.matchFailure reason, rewriter'))
    ∧ (∀ v : Value, checkOperandForTpp v = .success
        ↔ (v.type.isShaped = false ∨ v.type.getRank ≤ 2)) := by
  refine ⟨?_, ?_, checkOperandForTpp_eq_success_iff⟩
  · rintro ⟨hbuf, hcall, hmark, hres, hall⟩
    have hkind : ∀ v ∈ op.operands, v.type.isShaped = false ∨ v.type.isMemRef = true := by
      intro v hv
      have := hbuf
      simp only [GenericOp.hasBufferSemantics, Bool.and_eq_true, List.all_eq_true] at this
      simpa using this.2 v hv
    obtain ⟨news, rw', h1, h2⟩ :=
      (operandLoop_spec op.operands rewriter [] hkind hstatic).1 hall
    have hchecks : ConvertGenericOpToTpp.checks op rewriter
        = .ok (.kernelSelection news, rw') := by
      have hcond : (op.libraryCall.isNone || !hasTppMark op) = false := by
        cases h1 : op.libraryCall <;> simp_all
      simp [ConvertGenericOpToTpp.checks, hbuf, hcond, hres, h1]
    refine ⟨news, rw', hchecks, ?_, h2⟩
    simp [ConvertGenericOpToTpp.matchAndRewrite, hchecks]
  · intro hna
    by_cases hbuf : op.hasBufferSemantics = true
    swap
    · refine ⟨"expect buffer semantics", rewriter, ?_, ?_⟩ <;>
        simp [ConvertGenericOpToTpp.matchAndRewrite, ConvertGenericOpToTpp.checks, hbuf]
    by_cases hcm : op.libraryCall.isSome = true ∧ hasTppMark op = true
    swap
    · have hcond : (op.libraryCall.isNone || !hasTppMark op) = true := by
        cases h1 : op.libraryCall <;> cases h2 : hasTppMark op <;> simp_all
      refine ⟨"not enough information to map to tpps", rewriter, ?_, ?_⟩ <;>
        simp [ConvertGenericOpToTpp.matchAndRewrite, ConvertGenericOpToTpp.checks, hbuf, hcond]
    have hcond : (op.libraryCall.isNone || !hasTppMark op) = false := by
      cases h1 : op.libraryCall <;> cases h2 : hasTppMark op <;> simp_all
    by_cases hres : op.getNumResults = 0
    swap
    · refine ⟨"expect at least 1 result", rewriter, ?_, ?_⟩ <;>
        simp [ConvertGenericOpToTpp.matchAndRewrite, ConvertGenericOpToTpp.checks, hbuf, hcond,
          hres]
    have hnall : ¬ ∀ v ∈ op.operands, operandEligible v = true :=
      fun hall => hna ⟨hbuf, hcm.1, hcm.2, hres, hall⟩
    have hkind : ∀ v ∈ op.operands, v.type.isShaped = false ∨ v.type.isMemRef = true := by
      intro v hv
      have := hbuf
      simp only [GenericOp.hasBufferSemantics, Bool.and_eq_true, List.all_eq_true] at this
      simpa using this.2 v hv
    obtain ⟨rw', h1⟩ := (operandLoop_spec op.operands rewriter [] hkind hstatic).2 hnall
    refine ⟨"expect scalar or rank 2 memref", rw', ?_, ?_⟩ <;>
      simp [ConvertGenericOpToTpp.matchAndRewrite, ConvertGenericOpToTpp.checks, hbuf, hcond,
        hres, h1]

theorem static_operands_of_all (operands : List Value)
    (h : operands.all (fun v =>
      match v.type with
      | .memref t => t.hasStaticShape
      | _ => true) = true) :
    ∀ v ∈ operands, ∀ t, v.type = .memref t → 2 < t.getRank → t.hasStaticShape = true := by
  intro v hv t hty _
  have := List.all_eq_true.1 h v hv
  simpa [hty] using this

theorem checks_reach_kernel_selection_witness :
    (∃ newOperands rewriter',
        ConvertGenericOpToTpp.checks matmulExample freshRewriter
          = .ok (.kernelSelection newOperands, rewriter')
        ∧ ConvertGenericOpToTpp.matchAndRewrite matmulExample freshRewriter
            = ConvertGenericOpToTpp.rewriteToTppOp matmulExample newOperands rewriter'
        ∧ List.Forall₂
            (fun v v' => (v.type.isShaped = false ∨ v.type.getRank ≤ 2) → v' = v)
            matmulExample.operands newOperands)
    ∧ (∃ reason rewriter',
        ConvertGenericOpToTpp.checks unannotated5D freshRewriter
          = .ok (.returned (.matchFailure reason), rewriter')
        ∧ ConvertGenericOpToTpp.matchAndRewrite unannotated5D freshRewriter
            = .ok (.matchFailure reason, rewriter')) :=
  ⟨(checks_reach_kernel_selection matmulExample freshRewriter
      (static_operands_of_all _ (by decide))).1
      ⟨by decide, by decide, by decide, by decide, by decide⟩,
   (checks_reach_kernel_selection unannotated5D freshRewriter
      (static_operands_of_all _ (by decide))).2.1
      (fun h => absurd h.2.1 (by decide))⟩

/-! ### Reshaping, tiling and the pass -/

/-- C12, counterexample. The generic op `tensorGeneric` has two loop dimensions but
value semantics: `reshape2D` does not return success, it emits the error "Expect
linalgOp with buffer semantics". -/
theorem reshape2D_tensor_two_loops_errors :
    tensorGeneric.getNumLoops ≤ 2
    ∧ reshape2D (fun _ _ => true) freshRewriter tensorGeneric false
        = .ok (.error "Expect linalgOp with buffer semantics", freshRewriter) := by
  decide

/-- C12, amended. For every generic op with buffer semantics that has at most 2
loop dimensions, and for every generic op with buffer semantics at least one of
whose loop dimensions is a reduction, `reshape2D` returns success and changes
nothing: no operation is inserted and the op stays in place. -/
theorem reshape2D_noop (canTile : GenericOp → List Int → Bool) (rewriter : Rewriter)
    (op : GenericOp) (useParallelLoops : Bool) (hbuf : op.hasBufferSemantics = true)
    (h : op.getNumLoops ≤ 2 ∨ IteratorType.reduction ∈ op.iteratorTypes) :
    reshape2D canTile rewriter op useParallelLoops = .ok (.success, rewriter) := by
  unfold reshape2D
  simp only [hbuf, Bool.not_true, Bool.false_eq_true, if_false]
  by_cases hn : op.getNumLoops ≤ 2
  · rw [if_pos hn]
  · rw [if_neg hn]
    have hred : IteratorType.reduction ∈ op.iteratorTypes := h.resolve_left hn
    have hall : op.iteratorTypes.all isParallelIterator = false := by
      rw [List.all_eq_false]
      exact ⟨.reduction, hred, by decide⟩
    simp [hall]

theorem reshape2D_noop_witness :
    reshape2D (fun _ _ => true) freshRewriter matmulExample false
      = .ok (.success, freshRewriter) :=
  reshape2D_noop (fun _ _ => true) freshRewriter matmulExample false (by decide)
    (Or.inr (by decide))

theorem pushLoop_eq (n : Nat) (acc : List Int) :
    getTileSizes.pushLoop n acc = acc ++ List.replicate n 1 := by
  induction n generalizing acc with
  | zero => simp [getTileSizes.pushLoop]
  | succ n ih =>
    rw [getTileSizes.pushLoop, ih, List.replicate_succ]
    simp

theorem replicate_set_last_two (k : Nat) :
    ((List.replicate (k + 2) (1 : Int)).set (k + 1) 0).set k 0
      = List.replicate k 1 ++ [0, 0] := by
  have h : List.replicate (k + 2) (1 : Int) = List.replicate k 1 ++ [1, 1] := by
    rw [List.replicate_add]; rfl
  rw [h]
  simp [List.set_append]

theorem getTileSizes_eq (op : GenericOp) (n : Nat) (hn : op.getNumLoops = n) (h2 : 2 ≤ n)
    (hsz : n < 2 ^ 64) :
    getTileSizes op = .ok (List.replicate (n - 2) 1 ++ [0, 0]) := by
  obtain ⟨k, rfl⟩ : ∃ k, n = k + 2 := ⟨n - 2, by omega⟩
  have h1 : (k + 2 + 2 ^ 64 - 1) % 2 ^ 64 = k + 1 := by omega
  have h0 : (k + 2 + 2 ^ 64 - 2) % 2 ^ 64 = k := by omega
  simp only [getTileSizes, hn, pushLoop_eq, List.nil_append, h1, h0, List.length_replicate,
    List.length_set]
  rw [if_pos (by omega), if_pos (by omega), replicate_set_last_two]
  simp

/-- C13. For a generic op with `n > 2` loop dimensions the tile-size vector of
`getTileSizes` has exactly `n` entries, 1 for each of the `n - 2` outer
dimensions and 0 for the two innermost ones; the positions `n - 1` and `n - 2` it
writes are inside the vector, so it does not abort; and when the op has buffer
semantics and only parallel loops, `reshape2D` hands exactly this vector to
upstream tiling, which materialises the outer `n - 2` dimensions as loops. -/
theorem getTileSizes_outer_loops (canTile : GenericOp → List Int → Bool)
    (rewriter : Rewriter) (op : GenericOp) (useParallelLoops : Bool) (n : Nat)
    (hn : op.getNumLoops = n) (h2 : 2 < n) (hsz : n < 2 ^ 64) :
    getTileSizes op = .ok (List.replicate (n - 2) 1 ++ [0, 0])
    ∧ (List.replicate (n - 2) (1 : Int) ++ [0, 0]).length = n
    ∧ (n + 2 ^ 64 - 1) % 2 ^ 64 = n - 1 ∧ (n + 2 ^ 64 - 2) % 2 ^ 64 = n - 2
    ∧ n - 1 < n ∧ n - 2 < n
    ∧ (op.hasBufferSemantics = true → op.iteratorTypes.all isParallelIterator = true →
        reshape2D canTile rewriter op useParallelLoops
          = (if canTile op (List.replicate (n - 2) 1 ++ [0, 0]) then
              .ok (.success,
                { rewriter with
                  inserted := rewriter.inserted ++
                    [.tiledLoopNest useParallelLoops (List.replicate (n - 2) 1 ++ [0, 0]) op]
                  root := .erased })
             else .ok (.error "Failed to tile linalgOp", rewriter))) := by
  have hts := getTileSizes_eq op n hn (by omega) hsz
  refine ⟨hts, ?_, by omega, by omega, by omega, by omega, ?_⟩
  · simp; omega
  · intro hbuf hall
    have hnl : ¬ op.getNumLoops ≤ 2 := by omega
    by_cases ht : canTile op (List.replicate (n - 2) 1 ++ [0, 0]) = true <;>
      simp [reshape2D, hbuf, hall, hnl, linalg.tileLinalgOp, hts, ht, Rewriter.insert,
        Rewriter.eraseOp]

theorem getTileSizes_outer_loops_witness :
    getTileSizes unannotated5D = .ok (List.replicate (5 - 2) 1 ++ [0, 0])
    ∧ reshape2D (fun _ _ => true) freshRewriter unannotated5D false
        = .ok (.success,
            { freshRewriter with
              inserted := freshRewriter.inserted ++
                [.tiledLoopNest false (List.replicate (5 - 2) 1 ++ [0, 0]) unannotated5D]
              root := .erased }) :=
  ⟨(getTileSizes_outer_loops (fun _ _ => true) freshRewriter unannotated5D false 5 rfl
      (by decide) (by decide)).1,
   (getTileSizes_outer_loops (fun _ _ => true) freshRewriter unannotated5D false 5 rfl
      (by decide) (by decide)).2.2.2.2.2.2 (by decide) (by decide)⟩

/-- C14. When the supplied tile-size list is non-empty, `tileLinalgOp` hands
exactly that list to upstream tiling, for every op that it tiles (buffer
semantics and a tpp mark are required first) and whatever its annotation, and its
result does not depend on either heuristic; when the list is empty the tile
sizes are those of the heuristic, the matmul heuristic exactly when the op is
marked `tpp.matmul` and the per-dimension heuristic otherwise. -/
theorem tileLinalgOp_tile_sizes (canTile : GenericOp → List Int → Bool) (op : GenericOp)
    (tileSizes : List Int) (rewriter : Rewriter) :
    (tileSizes ≠ [] →
      tileLinalgOp canTile op tileSizes rewriter
        = (if !op.hasBufferSemantics then
            .ok (.error "Expect linalgOp with buffer semantics", rewriter)
           else if !hasTppMark op then .ok (.failure, rewriter)
           else if canTile op tileSizes then
            .ok (.success,
              { rewriter with
                inserted := rewriter.inserted ++ [.tiledLoopNest false tileSizes op]
                root := .erased })
           else .ok (.error "Failed to tile linalgOp", rewriter)))
    ∧ tileLinalgOp canTile op [] rewriter
        = (if !op.hasBufferSemantics then
            .ok (.error "Expect linalgOp with buffer semantics", rewriter)
           else if !hasTppMark op then .ok (.failure, rewriter)
           else
            match (if isMarkedWithTpp op "tpp.matmul" then
                    getTileSizesForOptimalMappingMatmulImpl op
                   else .ok (getTileSizesForOptimalMappingImpl op)) with
            | .error e => .error e
            | .ok heuristicSizes =>
              if canTile op heuristicSizes then
                .ok (.success,
                  { rewriter with
                    inserted := rewriter.inserted ++ [.tiledLoopNest false heuristicSizes op]
                    root := .erased })
              else .ok (.error "Failed to tile linalgOp", rewriter)) := by
  constructor
  · intro hne
    have hlen : (tileSizes.length != 0) = true := by
      cases tileSizes with
      | nil => exact absurd rfl hne
      | cons a l => simp
    unfold tileLinalgOp
    by_cases hbuf : op.hasBufferSemantics = true <;> by_cases hmark : hasTppMark op = true <;>
      by_cases ht : canTile op tileSizes = true <;>
      simp [hbuf, hmark, ht, hlen, LinalgTilingOptions.setTileSizes, linalg.tileLinalgOp,
        Rewriter.insert, Rewriter.eraseOp]
  · unfold tileLinalgOp
    by_cases hbuf : op.hasBufferSemantics = true <;> by_cases hmark : hasTppMark op = true <;>
      simp only [hbuf, hmark, Bool.not_true, Bool.not_false, Bool.false_eq_true, if_false,
        if_true, Bool.not_eq_true]
    simp only [List.length_nil, bne_self_eq_false, Bool.false_eq_true, if_false,
      LinalgTilingOptions.setTileSizeComputationFunction, linalg.tileLinalgOp,
      getTileSizesForOptimalMapping]
    cases hh : (if isMarkedWithTpp op "tpp.matmul" = true then
        getTileSizesForOptimalMappingMatmulImpl op
      else Except.ok (getTileSizesForOptimalMappingImpl op)) with
    | error e => rfl
    | ok sizes =>
      by_cases ht : canTile op sizes = true <;>
        simp [ht, Rewriter.insert, Rewriter.eraseOp]

theorem tileLinalgOp_tile_sizes_witness :
    tileLinalgOp (fun _ _ => true) matmulExample [2, 2, 2] freshRewriter
      = .ok (.success,
          { freshRewriter with
            inserted := freshRewriter.inserted ++ [.tiledLoopNest false [2, 2, 2] matmulExample]
            root := .erased }) :=
  (tileLinalgOp_tile_sizes (fun _ _ => true) matmulExample [2, 2, 2] freshRewriter).1
    (by decide)

theorem getTileSizes_ok (op : GenericOp) (h2 : 2 ≤ op.getNumLoops) :
    ∃ ts, getTileSizes op = .ok ts := by
  have hl1 : (op.getNumLoops + 2 ^ 64 - 1) % 2 ^ 64 < op.getNumLoops := by omega
  have hl0 : (op.getNumLoops + 2 ^ 64 - 2) % 2 ^ 64 < op.getNumLoops := by omega
  simp only [getTileSizes, pushLoop_eq, List.nil_append, List.length_replicate,
    List.length_set]
  rw [if_pos hl1, if_pos hl0]
  exact ⟨_, rfl⟩

theorem reshape2D_ok (canTile : GenericOp → List Int → Bool) (rewriter : Rewriter)
    (op : GenericOp) (useParallelLoops : Bool) :
    ∃ out, reshape2D canTile rewriter op useParallelLoops = .ok out := by
  unfold reshape2D
  by_cases hbuf : op.hasBufferSemantics = true
  swap
  · exact ⟨(.error "Expect linalgOp with buffer semantics", rewriter), by simp [hbuf]⟩
  by_cases hn : op.getNumLoops ≤ 2
  · exact ⟨(.success, rewriter), by simp [hbuf, hn]⟩
  by_cases hall : op.iteratorTypes.all isParallelIterator = true
  swap
  · exact ⟨(.success, rewriter), by simp [hbuf, hn, hall]⟩
  obtain ⟨ts, hts⟩ := getTileSizes_ok op (by omega)
  by_cases ht : canTile op ts = true
  · exact ⟨(.success, (rewriter.insert (.tiledLoopNest useParallelLoops ts op)).eraseOp),
      by simp [hbuf, hn, hall, linalg.tileLinalgOp, hts, ht]⟩
  · exact ⟨(.error "Failed to tile linalgOp", rewriter),
      by simp [hbuf, hn, hall, linalg.tileLinalgOp, hts, ht]⟩

theorem reshape2D_no_buffer (canTile : GenericOp → List Int → Bool) (rewriter : Rewriter)
    (op : GenericOp) (useParallelLoops : Bool) (hbuf : op.hasBufferSemantics = false) :
    reshape2D canTile rewriter op useParallelLoops
      = .ok (.error "Expect linalgOp with buffer semantics", rewriter) := by
  simp [reshape2D, hbuf]

theorem reshapeWalk_spec (canTile : GenericOp → List Int → Bool) (pass : ConvertLinalgToTpp)
    (ops : List GenericOp) (passFailed : Bool) :
    ∃ outcomes,
      ConvertLinalgToTpp.reshapeWalk canTile pass ops passFailed
        = .ok (passFailed || outcomes.any (fun o => failed o.1), outcomes)
      ∧ List.Forall₂
          (fun op o => reshape2D canTile Rewriter.atOp op pass.useParallelLoops = .ok o)
          ops outcomes := by
  induction ops generalizing passFailed with
  | nil => exact ⟨[], by simp [ConvertLinalgToTpp.reshapeWalk], .nil⟩
  | cons op rest ih =>
    obtain ⟨out, hout⟩ := reshape2D_ok canTile Rewriter.atOp op pass.useParallelLoops
    obtain ⟨outs, hwalk, hall⟩ := ih (passFailed || failed out.1)
    refine ⟨out :: outs, ?_, .cons hout hall⟩
    simp [ConvertLinalgToTpp.reshapeWalk, hout, hwalk, Bool.or_assoc]

/-- C15, counterexample. A function whose only generic op is `tensorGeneric`, an op
with value semantics: the walk of `runOnOperation` that calls `reshape2D` signals
pass failure on account of it, `reshape2D` having emitted the error "Expect
linalgOp with buffer semantics". -/
theorem tensor_op_signals_pass_failure :
    tensorGeneric.hasBufferSemantics = false
    ∧ ConvertLinalgToTpp.reshapeWalk (fun _ _ => true)
        { enableTiling := false, useParallelLoops := false, tileSizes := [] }
        [tensorGeneric] false
      = .ok (true, [(.error "Expect linalgOp with buffer semantics", Rewriter.atOp)]) := by
  decide

/-- C15, amended. A generic op without buffer semantics is a non-fatal match failure
only for the pattern `ConvertGenericOpToTpp`, which leaves it unmodified. In the
pass, `reshape2D` (and `tileLinalgOp`) leave the op unmodified too but emit the
error "Expect linalgOp with buffer semantics", and the first walk of
`runOnOperation` signals pass failure for every function that contains such an
op. -/
theorem no_buffer_semantics_in_pass (canTile : GenericOp → List Int → Bool)
    (pass : ConvertLinalgToTpp) (ops : List GenericOp) (op : GenericOp)
    (rewriter : Rewriter) (hmem : op ∈ ops) (hbuf : op.hasBufferSemantics = false) :
    ConvertGenericOpToTpp.matchAndRewrite op rewriter
        = .ok (.matchFailure "expect buffer semantics", rewriter)
    ∧ reshape2D canTile rewriter op pass.useParallelLoops
        = .ok (.error "Expect linalgOp with buffer semantics", rewriter)
    ∧ tileLinalgOp canTile op pass.tileSizes rewriter
        = .ok (.error "Expect linalgOp with buffer semantics", rewriter)
    ∧ ∃ outcomes,
        ConvertLinalgToTpp.reshapeWalk canTile pass ops false = .ok (true, outcomes)
        ∧ (LogicalResult.error "Expect linalgOp with buffer semantics", Rewriter.atOp)
            ∈ outcomes := by
  refine ⟨?_, reshape2D_no_buffer canTile rewriter op _ hbuf, ?_, ?_⟩
  · simp [ConvertGenericOpToTpp.matchAndRewrite, ConvertGenericOpToTpp.checks, hbuf]
  · simp [tileLinalgOp, hbuf]
  · obtain ⟨outs, hwalk, hall⟩ := reshapeWalk_spec canTile pass ops false
    have hin : (LogicalResult.error "Expect linalgOp with buffer semantics", Rewriter.atOp)
        ∈ outs := by
      clear hwalk
      induction hall with
      | nil => cases hmem
      | cons hhead _ ih =>
        rcases List.mem_cons.1 hmem with h | h
        · subst h
          rw [reshape2D_no_buffer canTile Rewriter.atOp op _ hbuf] at hhead
          have := Except.ok.inj hhead
          rw [← this]
          exact List.mem_cons_self _ _
        · exact List.mem_cons_of_mem _ (ih h)
    refine ⟨outs, ?_, hin⟩
    rw [hwalk]
    have hany : outs.any (fun o => failed o.1) = true := by
      rw [List.any_eq_true]
      exact ⟨_, hin, by decide⟩
    simp [hany]

theorem no_buffer_semantics_in_pass_witness :
    ∃ outcomes,
      ConvertLinalgToTpp.reshapeWalk (fun _ _ => true)
          { enableTiling := true, useParallelLoops := false, tileSizes := [] }
          [matmulExample, tensorGeneric] false = .ok (true, outcomes)
      ∧ (LogicalResult.error "Expect linalgOp with buffer semantics", Rewriter.atOp)
          ∈ outcomes :=
  (no_buffer_semantics_in_pass (fun _ _ => true)
    { enableTiling := true, useParallelLoops := false, tileSizes := [] }
    [matmulExample, tensorGeneric] tensorGeneric freshRewriter (by decide) (by decide)).2.2.2

/-! ### Folding a sub-view of a sub-view -/

/-- C11, failing input. The outer sub-view `S2` of the example has offsets
`[0, 1, 0]` and sizes `[1, 1, 2]`: it is not a pure removal of unit dimensions.
The rule fires all the same, and its replacement, `S1`'s sub-view with `S2`'s
result type, reaches the addresses `4, 5, 6, 7` where `S2` reached `6, 7`. -/
theorem subview_fold_fires_on_offset_subview :
    outerSubView.offsets ≠ [.attr 0, .attr 0, .attr 0]
    ∧ SubViewOfSubViewWithUnitDims.matchAndRewrite exampleDefiningSubView outerSubView 3
        = .ok (.success,
            some { source := innerSubView.source
                   offsets := innerSubView.offsets
                   sizes := innerSubView.sizes
                   strides := innerSubView.strides
                   result := { id := 3, type := outerSubView.result.type } })
    ∧ outerSubView.addresses = some [6, 7]
    ∧ SubViewOp.addresses
        { source := innerSubView.source
          offsets := innerSubView.offsets
          sizes := innerSubView.sizes
          strides := innerSubView.strides
          result := { id := 3, type := outerSubView.result.type } }
        = some [4, 5, 6, 7] := by
  decide

/-- The rule inspects the source type and the producer of the source only: the
offsets, sizes and strides of the outer sub-view play no part in the decision. -/
theorem subview_fold_decision (getDefiningSubView : Value → Option SubViewOp)
    (subViewOp : SubViewOp) (nextValue : Nat) (sourceType resultType : MemRefType)
    (hsrc : subViewOp.source.type = .memref sourceType)
    (hres : subViewOp.result.type = .memref resultType) :
    SubViewOfSubViewWithUnitDims.matchAndRewrite getDefiningSubView subViewOp nextValue
      = (if sourceType.hasStaticShape = true ∧ (1 : Int) ∈ sourceType.getShape then
          match getDefiningSubView subViewOp.source with
          | none => .ok (.failure, none)
          | some producer =>
            .ok (.success,
              some { source := producer.source
                     offsets := producer.offsets
                     sizes := producer.sizes
                     strides := producer.strides
                     result := { id := nextValue, type := .memref resultType } })
         else .ok (.failure, none)) := by
  unfold SubViewOfSubViewWithUnitDims.matchAndRewrite
  simp only [hsrc, hres]
  by_cases hstatic : sourceType.hasStaticShape = true
  swap
  · simp [hstatic]
  by_cases hone : (1 : Int) ∈ sourceType.getShape
  · have hlen : ((sourceType.getShape.filter (fun sz => sz == 1)).length == 0) = false := by
      have hmem : (1 : Int) ∈ sourceType.getShape.filter (fun sz => sz == 1) :=
        List.mem_filter.2 ⟨hone, by simp⟩
      cases hf : sourceType.getShape.filter (fun sz => sz == 1) with
      | nil => rw [hf] at hmem; cases hmem
      | cons a l => simp
    simp only [hstatic, hone, hlen, Bool.not_true, Bool.false_eq_true, if_false, and_self,
      if_true]
  · have hlen : ((sourceType.getShape.filter (fun sz => sz == 1)).length == 0) = true := by
      have hf : sourceType.getShape.filter (fun sz => sz == 1) = [] := by
        rw [List.filter_eq_nil_iff]
        intro a ha h1
        have : a = 1 := by simpa using h1
        exact hone (this ▸ ha)
      simp [hf]
    simp [hstatic, hone, hlen]

theorem staticValues_map_attr (l : List Int) :
    staticValues (l.map OpFoldResult.attr) = some l := by
  induction l with
  | nil => rfl
  | cons a l ih => simp [staticValues, ih]

/-- When the outer sub-view does nothing but remove unit dimensions (all-zero
offsets, the full sizes of its source, all-one strides), the sub-view built from
the producer's source, offsets, sizes and strides reaches the same addresses. -/
theorem subview_fold_identity_preserves_addresses (producer subViewOp : SubViewOp)
    (sourceType : MemRefType) (offsets sizes strides : List Int) (resultValue : Value)
    (hsrc : producer.source.type = .memref sourceType)
    (ho : producer.offsets = offsets.map .attr) (hs : producer.sizes = sizes.map .attr)
    (ht : producer.strides = strides.map .attr)
    (hmid : subViewOp.source.type
      = .memref (inferResultType sourceType offsets sizes strides))
    (hvalid : (inferResultType sourceType offsets sizes strides).hasValidLayout = true)
    (ho2 : subViewOp.offsets = (List.replicate sizes.length (0 : Int)).map .attr)
    (hs2 : subViewOp.sizes = sizes.map .attr)
    (ht2 : subViewOp.strides = (List.replicate sizes.length (1 : Int)).map .attr) :
    subViewOp.addresses
      = SubViewOp.addresses
          { source := producer.source, offsets := producer.offsets, sizes := producer.sizes,
            strides := producer.strides, result := resultValue } := by
  have hstatic : (inferResultType sourceType offsets sizes strides).hasStaticShape = true :=
    hasStaticShape_of_shape _ sizes rfl
  have hshape : (inferResultType sourceType offsets sizes strides).getShape = sizes :=
    getShape_map_some _ sizes rfl
  have hrank : (inferResultType sourceType offsets sizes strides).getRank = sizes.length := by
    simp [inferResultType, MemRefType.getRank]
  have hfull := inferResultType_full _ hstatic hvalid
  rw [hrank, hshape] at hfull
  simp only [SubViewOp.addresses, hmid, ho2, hs2, ht2, hsrc, ho, hs, ht, staticValues_map_attr,
    hfull]
  rfl

/-! ### Mapping a convolution to a matmul -/

theorem toUnsigned_of_range (x : Nat) (h : x < 2 ^ 32) : toUnsigned (x : Int) = x := by
  unfold toUnsigned
  have : ((x : Int) % 2 ^ 32) = (x : Int) := Int.emod_eq_of_lt (by omega) (by omega)
  rw [this]
  exact Int.toNat_natCast x

theorem isValidRandS_eq (filter : Value) (shape : List (Option Int)) (rPos sPos : Nat)
    (hshape : filter.type.getShape = .ok shape) (hr : rPos < 2 ^ 32) (hs : sPos < 2 ^ 32)
    (hrank : shape.length < 2 ^ 32) :
    isValidRandS filter rPos sPos
      = .ok (decide (sPos = rPos + 1 ∧ rPos < shape.length ∧ sPos < shape.length)) := by
  have hmod : shape.length % 2 ^ 32 = shape.length := Nat.mod_eq_of_lt hrank
  simp only [isValidRandS, hshape, hmod]
  by_cases hwrap : rPos + 1 < 2 ^ 32
  · have hm : (rPos + 1) % 2 ^ 32 = rPos + 1 := Nat.mod_eq_of_lt hwrap
    rw [hm]
    by_cases h1 : sPos = rPos + 1
    · subst h1
      by_cases ha : rPos < shape.length <;> by_cases hb : rPos + 1 < shape.length <;>
        first
          | (simp [ha, hb]; done)
          | (simp [ha, hb]; omega)
    · simp [h1]
  · have hr' : rPos = 2 ^ 32 - 1 := by omega
    have hm : (rPos + 1) % 2 ^ 32 = 0 := by omega
    rw [hm]
    have hne : sPos ≠ rPos + 1 := by omega
    have hnr : ¬ rPos < shape.length := by omega
    by_cases h0 : sPos = 0
    · simp [h0, hne, hnr]
    · simp [h0, hne]

/-- C16. For every filter rank and every pair of `unsigned` positions, `isValidRandS`
returns true if and only if `sPos = rPos + 1` and both positions are smaller than
the rank; it returns false whenever `sPos` differs from `rPos + 1`. When it
returns false for the positions it receives, `mapConvToMatmul` fails with "invalid
rPos and SPos" without modifying the op and without indexing the filter shape
(no abort, whatever the positions); when it returns true, the positions are
inside the shape that `isValidFilterShape` indexes. -/
theorem isValidRandS_adjacent (filter : Value) (shape : List (Option Int)) (rPos sPos : Nat)
    (hshape : filter.type.getShape = .ok shape) (hr : rPos < 2 ^ 32) (hs : sPos < 2 ^ 32)
    (hrank : shape.length < 2 ^ 32) :
    (isValidRandS filter rPos sPos = .ok true
        ↔ (sPos = rPos + 1 ∧ rPos < shape.length ∧ sPos < shape.length))
    ∧ (sPos ≠ rPos + 1 → isValidRandS filter rPos sPos = .ok false)
    ∧ (∀ (peelAndRewrite : LinalgOp → Int → Int → Except String LogicalResult)
        (linalgOp : LinalgOp),
        linalgOp.isGeneric = true → linalgOp.isConvolution = true →
        checkMappingToMatmul linalgOp = .ok true → linalgOp.inputs[1]? = some filter →
        isValidRandS filter rPos sPos = .ok false →
        mapConvToMatmul peelAndRewrite linalgOp rPos sPos
          = .ok (.matchFailure "invalid rPos and SPos", false))
    ∧ (isValidRandS filter rPos sPos = .ok true →
        ∃ b, isValidFilterShape filter rPos sPos = .ok b) := by
  have heq := isValidRandS_eq filter shape rPos sPos hshape hr hs hrank
  refine ⟨?_, ?_, ?_, ?_⟩
  · rw [heq]
    simp
  · intro hne
    rw [heq]
    simp [hne]
  · intro peel linalgOp hgen hconv hcheck hfilter hfalse
    simp [mapConvToMatmul, hgen, hconv, hcheck, hfilter, toUnsigned_of_range rPos hr,
      toUnsigned_of_range sPos hs, hfalse]
  · intro htrue
    rw [heq] at htrue
    have hcond : sPos = rPos + 1 ∧ rPos < shape.length ∧ sPos < shape.length := by
      simpa using htrue
    obtain ⟨-, h1, h2⟩ := hcond
    refine ⟨(shape[rPos]).isSome && (shape[sPos]).isSome, ?_⟩
    simp [isValidFilterShape, hshape, List.getElem?_eq_getElem h1, List.getElem?_eq_getElem h2]

theorem isValidRandS_adjacent_witness :
    (isValidRandS { id := 1, type := f32Tensor [1, 1, 3, 8] } 0 1 = .ok true
        ↔ (1 = 0 + 1 ∧ 0 < [some (1 : Int), some 1, some 3, some 8].length
            ∧ 1 < [some (1 : Int), some 1, some 3, some 8].length))
    ∧ mapConvToMatmul alwaysRewrites convExample (1 : Nat) (3 : Nat)
        = .ok (.matchFailure "invalid rPos and SPos", false) :=
  ⟨(isValidRandS_adjacent { id := 1, type := f32Tensor [1, 1, 3, 8] }
      [some 1, some 1, some 3, some 8] 0 1 rfl (by decide) (by decide) (by decide)).1,
   (isValidRandS_adjacent { id := 1, type := f32Tensor [1, 1, 3, 8] }
      [some 1, some 1, some 3, some 8] 1 3 rfl (by decide) (by decide) (by decide)).2.2.1
      alwaysRewrites convExample rfl rfl (by decide) rfl (by decide)⟩

theorem getElem?_reverse_append_tail {α : Type} (front tail : List α) (n i : Nat)
    (h : n = front.length + i) : (front.reverse ++ tail)[n]? = tail[i]? := by
  subst h
  rw [List.getElem?_append_right (by simp)]
  simp

theorem checkMappingToMatmul_eq (linalgOp : LinalgOp) :
    checkMappingToMatmul linalgOp
      = .ok (linalgOp.hasMatmulBody
          && decide (linalgOp.iteratorTypes.reverse.take 3
              = [.reduction, .parallel, .parallel])) := by
  unfold checkMappingToMatmul
  cases hbody : linalgOp.hasMatmulBody
  · simp
  · simp only [Bool.not_true, Bool.false_eq_true, if_false, Bool.true_and]
    obtain ⟨r, hr⟩ : ∃ r, linalgOp.iteratorTypes = r.reverse :=
      ⟨linalgOp.iteratorTypes.reverse, (List.reverse_reverse _).symm⟩
    rw [hr, List.reverse_reverse]
    match r with
    | [] => simp
    | [_] => simp
    | [_, _] => simp
    | t0 :: t1 :: t2 :: rest =>
      have hrev : (t0 :: t1 :: t2 :: rest).reverse = rest.reverse ++ [t2, t1, t0] := by simp
      rw [hrev]
      have hl : (rest.reverse ++ [t2, t1, t0]).length = rest.length + 3 := by simp
      have hlen : ¬ (rest.reverse ++ [t2, t1, t0]).length < 3 := by omega
      rw [if_neg hlen, hl]
      have h0 : (rest.reverse ++ [t2, t1, t0])[rest.length + 3 - 1]? = some t0 := by
        rw [getElem?_reverse_append_tail rest _ (rest.length + 3 - 1) 2 (by omega)]
        rfl
      have h1 : (rest.reverse ++ [t2, t1, t0])[rest.length + 3 - 1 - 1]? = some t1 := by
        rw [getElem?_reverse_append_tail rest _ (rest.length + 3 - 1 - 1) 1 (by omega)]
        rfl
      have h2 : (rest.reverse ++ [t2, t1, t0])[rest.length + 3 - 1 - 2]? = some t2 := by
        rw [getElem?_reverse_append_tail rest _ (rest.length + 3 - 1 - 2) 0 (by omega)]
        rfl
      simp only [h0, h1, h2]
      cases t0 <;> cases t1 <;> cases t2 <;> simp [isReductionIterator, isParallelIterator]

/-- C17. The check `checkMappingToMatmul` returns true if and only if the op has a
matmul body, at least three loop dimensions, and its last three iterator kinds
are, from the innermost outwards, reduction, parallel, parallel; with fewer than
three loop dimensions it returns false without reading an iterator kind (no
out-of-range read); and whenever it returns false inside `mapConvToMatmul`
(which calls it on a generic op that passed the convolution check), that
function fails with "cannot match operation iterators with matmul iterators" and
does not modify the op. -/
theorem checkMappingToMatmul_iff (linalgOp : LinalgOp) :
    (checkMappingToMatmul linalgOp = .ok true
        ↔ (linalgOp.hasMatmulBody = true ∧ 3 ≤ linalgOp.iteratorTypes.length
            ∧ linalgOp.iteratorTypes.reverse.take 3 = [.reduction, .parallel, .parallel]))
    ∧ (∃ b, checkMappingToMatmul linalgOp = .ok b)
    ∧ (linalgOp.iteratorTypes.length < 3 → checkMappingToMatmul linalgOp = .ok false)
    ∧ (∀ (peelAndRewrite : LinalgOp → Int → Int → Except String LogicalResult)
        (rPos sPos : Int),
        linalgOp.isGeneric = true → linalgOp.isConvolution = true →
        checkMappingToMatmul linalgOp = .ok false →
        mapConvToMatmul peelAndRewrite linalgOp rPos sPos
          = .ok (.matchFailure "cannot match operation iterators with matmul iterators",
              false)) := by
  have heq := checkMappingToMatmul_eq linalgOp
  have hlen3 : linalgOp.iteratorTypes.reverse.take 3 = [.reduction, .parallel, .parallel] →
      3 ≤ linalgOp.iteratorTypes.length := by
    intro h
    have := congrArg List.length h
    simp at this
    omega
  refine ⟨?_, ⟨_, heq⟩, ?_, ?_⟩
  · rw [heq]
    constructor
    · intro h
      have h' : linalgOp.hasMatmulBody = true
          ∧ linalgOp.iteratorTypes.reverse.take 3 = [.reduction, .parallel, .parallel] := by
        simpa using h
      exact ⟨h'.1, hlen3 h'.2, h'.2⟩
    · rintro ⟨hb, -, ht⟩
      simp [hb, ht]
  · intro hlt
    rw [heq]
    have hne : linalgOp.iteratorTypes.reverse.take 3 ≠ [.reduction, .parallel, .parallel] :=
      fun h => absurd (hlen3 h) (by omega)
    simp [hne]
  · intro peel rPos sPos hgen hconv hfalse
    simp [mapConvToMatmul, hgen, hconv, hfalse]

theorem checkMappingToMatmul_iff_witness :
    checkMappingToMatmul { convExample with iteratorTypes := [.parallel, .reduction] }
        = .ok false
    ∧ mapConvToMatmul alwaysRewrites
        { convExample with iteratorTypes := [.parallel, .parallel, .parallel] } 0 1
        = .ok (.matchFailure "cannot match operation iterators with matmul iterators",
            false) :=
  ⟨(checkMappingToMatmul_iff
      { convExample with iteratorTypes := [.parallel, .reduction] }).2.2.1 (by decide),
   (checkMappingToMatmul_iff
      { convExample with iteratorTypes := [.parallel, .parallel, .parallel] }).2.2.2
      alwaysRewrites 0 1 rfl rfl (by decide)⟩

/-- C19, counterexample. Started with factor 1, `walkConvExpr` does not succeed on
the index expressions `d0 * 3` and `3 * d0`: a product at the top is rejected
because it is not a sum. -/
theorem walkConvExpr_rejects_products :
    walkConvExpr (.binary .Mul (.dim 0) (.constant 3)) 1 = .ok (.failure, 1)
    ∧ walkConvExpr (.binary .Mul (.constant 3) (.dim 0)) 1 = .ok (.failure, 1) := by
  decide

/-- C19, amended. Started with factor 1, `walkConvExpr` succeeds on a bare dim, with
factor 1, and on a sum of a dim and a product `dim * const` or `const * dim`
(in either order), with factor `const`, the linear coefficient of the scaled
loop variable; on a sum of two dims the factor is 1. A product `dim * const` or
`const * dim` is accepted only as an operand of a sum, by `isDimExprOrMulExpr`,
which multiplies the factor by `const`; at the top `walkConvExpr` fails on it and
leaves the factor at 1. -/
theorem walkConvExpr_shapes (i j : Nat) (c f : Int) :
    walkConvExpr (.dim i) 1 = .ok (.success, 1)
    ∧ walkConvExpr (.binary .Add (.dim i) (.dim j)) 1 = .ok (.success, 1)
    ∧ walkConvExpr (.binary .Add (.dim i) (.binary .Mul (.dim j) (.constant c))) 1
        = .ok (.success, c)
    ∧ walkConvExpr (.binary .Add (.dim i) (.binary .Mul (.constant c) (.dim j))) 1
        = .ok (.success, c)
    ∧ walkConvExpr (.binary .Add (.binary .Mul (.dim j) (.constant c)) (.dim i)) 1
        = .ok (.success, c)
    ∧ walkConvExpr (.binary .Add (.binary .Mul (.constant c) (.dim j)) (.dim i)) 1
        = .ok (.success, c)
    ∧ isDimExprOrMulExpr (.dim i) f = .ok (.success, f)
    ∧ isDimExprOrMulExpr (.binary .Mul (.dim i) (.constant c)) f = .ok (.success, f * c)
    ∧ isDimExprOrMulExpr (.binary .Mul (.constant c) (.dim i)) f = .ok (.success, f * c)
    ∧ walkConvExpr (.binary .Mul (.dim i) (.constant c)) 1 = .ok (.failure, 1)
    ∧ walkConvExpr (.binary .Mul (.constant c) (.dim i)) 1 = .ok (.failure, 1) := by
  refine ⟨rfl, ?_, ?_, ?_, ?_, ?_, rfl, ?_, ?_, ?_, ?_⟩ <;>
    simp [walkConvExpr, isDimExprOrMulExpr, succeeded]

theorem createFoldedDimOp_eq (v : Value) (shape : List (Option Int)) (idx : Nat)
    (hshape : v.type.getShape = .ok shape) (h : idx < shape.length) :
    createFoldedDimOp v (idx : Int) = .ok (foldedExtent v shape idx) := by
  have hget : shape[idx]? = some shape[idx] := List.getElem?_eq_getElem h
  simp only [createFoldedDimOp, hshape, foldedExtent, Int.toNat_natCast, hget]
  have hneg : ¬ ((idx : Int) < 0) := by omega
  rw [if_neg hneg]
  cases shape[idx] <;> rfl

theorem plainSizes_eq (operand : Value) (shape : List (Option Int))
    (hshape : operand.type.getShape = .ok shape) (h2 : 2 ≤ shape.length)
    (hsz : shape.length < 2 ^ 64) :
    getSlicedConvOperandImpl.dimLoop operand
        (shape.length - (shape.length + 2 ^ 64 - 2) % 2 ^ 64)
        ((shape.length + 2 ^ 64 - 2) % 2 ^ 64)
        (List.replicate ((shape.length + 2 ^ 64 - 2) % 2 ^ 64) (.attr 1))
      = .ok (tailSliceSizes operand shape) := by
  have he : (shape.length + 2 ^ 64 - 2) % 2 ^ 64 = shape.length - 2 := by omega
  have hc : shape.length - (shape.length - 2) = 2 := by omega
  rw [he, hc]
  have h1 : shape.length - 2 + 1 = shape.length - 1 := by omega
  simp only [getSlicedConvOperandImpl.dimLoop,
    createFoldedDimOp_eq operand shape (shape.length - 2) hshape (by omega), h1,
    createFoldedDimOp_eq operand shape (shape.length - 1) hshape (by omega), tailSliceSizes]
  simp

/-- The whole of `getSlicedConvOperandImpl` on an operand other than the image:
offsets from the induction variables, the plain tail slice as sizes and unit
strides. -/
theorem getSlicedConvOperandImpl_non_image (ndebug : Bool) (linalgOp : LinalgOp)
    (operandNumber : Nat) (ivs valuesToUse : List Value) (rAndSPos : List Int) (operandToUse operand filter : Value)
    (shape : List (Option Int)) (hn : operandNumber ≠ 0)
    (huse : valuesToUse[operandNumber]? = some operandToUse)
    (hop : (linalgOp.inputs ++ linalgOp.outputs)[operandNumber]? = some operand)
    (hfilter : linalgOp.inputs[1]? = some filter)
    (hushape : operandToUse.type.getShape = .ok shape)
    (hshape : operand.type.getShape = .ok shape) (h2 : 2 ≤ shape.length)
    (hsz : shape.length < 2 ^ 64) :
    getSlicedConvOperandImpl ndebug linalgOp operandNumber ivs valuesToUse rAndSPos
      = .ok { operandToUse := operandToUse
              offsets := ivs.map .value ++ List.replicate (shape.length - ivs.length) (.attr 0)
              sizes := tailSliceSizes operand shape
              strides := List.replicate shape.length (.attr 1)
              desiredResultRank := 2 } := by
  have hplain := plainSizes_eq operand shape hshape h2 hsz
  have hsizes : getSlicedConvOperandImpl.sizes linalgOp operand shape.length false rAndSPos
      = .ok (tailSliceSizes operand shape) := by
    simp only [getSlicedConvOperandImpl.sizes, hfilter, Bool.false_eq_true, if_false]
    exact hplain
  have hnum : (operandNumber == 0) = false := by simpa using hn
  simp [getSlicedConvOperandImpl, huse, hop, hushape, hnum, hsizes,
    getSlicedConvOperandImpl.strides, getSlicedConvOperandImpl.offsets]

/-- The whole of `getSlicedConvOperandImpl` on the image of the example, whose
filter window is `1x1` and whose W expression is `d4 + d3`: the plain tail slice
`[1, 1, 4, 3]` with unit strides, whether the build defines `NDEBUG` or not. -/
theorem getSlicedConvOperandImpl_image_example (ndebug : Bool) :
    getSlicedConvOperandImpl ndebug convExample 0 []
        (convExample.inputs ++ convExample.outputs) [0, 1]
      = .ok { operandToUse := { id := 0, type := f32Tensor [1, 4, 4, 3] }
              offsets := [.attr 0, .attr 0, .attr 0, .attr 0]
              sizes := [.attr 1, .attr 1, .attr 4, .attr 3]
              strides := [.attr 1, .attr 1, .attr 1, .attr 1]
              desiredResultRank := 2 } := by
  cases ndebug <;> decide

/-! ### Lowering of xsmm operations to function calls -/

theorem Xsmm.lastCallee_insert_call (rewriter : Xsmm.Rewriter) (callee : String)
    (operands results : List Xsmm.CallValue) :
    (rewriter.insert (.call callee operands results)).lastCallee = some callee := by
  simp [Xsmm.Rewriter.insert, Xsmm.Rewriter.lastCallee]

theorem Xsmm.buildInvokeCall_callee (funcName : String) (operands : List Value)
    (useMeta : Bool) (rewriter : Xsmm.Rewriter) :
    (Xsmm.buildInvokeCall funcName operands useMeta rewriter).1 = .success
    ∧ (Xsmm.buildInvokeCall funcName operands useMeta rewriter).2.lastCallee
        = some funcName := by
  unfold Xsmm.buildInvokeCall
  exact ⟨rfl, Xsmm.lastCallee_insert_call _ _ _ _⟩

theorem Xsmm.buildDispatchCall_callee (dispatchOperands : List Xsmm.CallValue)
    (dispatchOperandTypes : List Xsmm.CallTy) (fnName : String) (useMeta : Bool)
    (rewriter : Xsmm.Rewriter) :
    (Xsmm.buildDispatchCall dispatchOperands dispatchOperandTypes fnName useMeta
      rewriter).2.lastCallee = some fnName := by
  unfold Xsmm.buildDispatchCall
  exact Xsmm.lastCallee_insert_call _ _ _ _

/-- C20, counterexample. The binary invoke op of the example, whose element-type tag
is `f32`, is lowered to a call to `xsmm_binary_invoke`, not to
`xsmm_binary_invoke_f32`: the name carries no dtype suffix. -/
theorem binary_invoke_without_dtype :
    (Xsmm.ConvertBinaryXsmmOp.matchAndRewrite false Xsmm.binaryExample
        Xsmm.freshRewriter).2.lastCallee = some "xsmm_binary_invoke"
    ∧ "xsmm_binary_invoke" ≠ "xsmm_binary_" ++ "invoke_" ++ Xsmm.binaryExample.operandTypeAsString
    ∧ Xsmm.lookupSymbol
        (Xsmm.ConvertBinaryXsmmOp.matchAndRewrite false Xsmm.binaryExample
          Xsmm.freshRewriter).2.module "xsmm_binary_invoke_f32" = none := by
  decide

/-- C20, amended. The name of the called function is a function of the op kind,
the element-type tag and, for unary, whether the input is a scalar. A ternary
invoke op is lowered to a call to `xsmm_<callee>_invoke_<dtype>`, a unary invoke
op to `xsmm_unary_invoke_<dtype>`, or `xsmm_unary_scalar_invoke_<dtype>` when its
input is a scalar, and a binary invoke op to exactly `xsmm_binary_invoke`, with
no dtype suffix; a ternary dispatch op to `xsmm_<kind>_dispatch_<dtype>`, a unary
dispatch op to `xsmm_unary_dispatch_<dtype>` and a binary dispatch op to exactly
`xsmm_binary_dispatch`. Each lowering succeeds. -/
theorem lowered_call_names (useMeta : Bool) (rewriter : Xsmm.Rewriter)
    (ternaryOp : Xsmm.TernaryOp) (unaryOp : Xsmm.UnaryOp) (binaryOp : Xsmm.BinaryOp)
    (ternaryDispatch : Xsmm.TernaryDispatchOp) (unaryDispatch : Xsmm.UnaryDispatchOp)
    (binaryDispatch : Xsmm.BinaryDispatchOp) :
    ((Xsmm.ConvertTernaryXsmmOp.matchAndRewrite useMeta ternaryOp rewriter).1 = .success
      ∧ (Xsmm.ConvertTernaryXsmmOp.matchAndRewrite useMeta ternaryOp rewriter).2.lastCallee
          = some ("xsmm_" ++ ternaryOp.callee ++ "_invoke_" ++ ternaryOp.operandTypeAsString))
    ∧ ((Xsmm.ConvertUnaryXsmmOp.matchAndRewrite useMeta unaryOp rewriter).1 = .success
      ∧ (Xsmm.ConvertUnaryXsmmOp.matchAndRewrite useMeta unaryOp rewriter).2.lastCallee
          = some (if unaryOp.hasScalarInput then
                    "xsmm_unary_scalar_invoke_" ++ unaryOp.operandTypeAsString
                  else "xsmm_unary_invoke_" ++ unaryOp.operandTypeAsString))
    ∧ ((Xsmm.ConvertBinaryXsmmOp.matchAndRewrite useMeta binaryOp rewriter).1 = .success
      ∧ (Xsmm.ConvertBinaryXsmmOp.matchAndRewrite useMeta binaryOp rewriter).2.lastCallee
          = some "xsmm_binary_invoke")
    ∧ ((Xsmm.ConvertTernaryDispatch.matchAndRewrite useMeta ternaryDispatch rewriter).1
          = .success
      ∧ (Xsmm.ConvertTernaryDispatch.matchAndRewrite useMeta ternaryDispatch
            rewriter).2.lastCallee
          = some ("xsmm_" ++ ternaryDispatch.kind ++ "_dispatch_" ++ ternaryDispatch.dataType))
    ∧ ((Xsmm.ConvertUnaryDispatch.matchAndRewrite useMeta unaryDispatch rewriter).1 = .success
      ∧ (Xsmm.ConvertUnaryDispatch.matchAndRewrite useMeta unaryDispatch
            rewriter).2.lastCallee
          = some ("xsmm_unary_dispatch_" ++ unaryDispatch.dataType))
    ∧ ((Xsmm.ConvertBinaryDispatch.matchAndRewrite useMeta binaryDispatch rewriter).1
          = .success
      ∧ (Xsmm.ConvertBinaryDispatch.matchAndRewrite useMeta binaryDispatch
            rewriter).2.lastCallee
          = some "xsmm_binary_dispatch") := by
  have hinvoke : ∀ (name : String) (operands : List Value),
      (match Xsmm.buildInvokeCall name operands useMeta rewriter with
        | (.success, r) => ((LogicalResult.success, { r with root := Xsmm.RootState.erased })
            : LogicalResult × Xsmm.Rewriter)
        | (_, r) => (.failure, r))
        = (.success, { (Xsmm.buildInvokeCall name operands useMeta rewriter).2 with
                       root := .erased }) := by
    intro name operands
    have h1 := (Xsmm.buildInvokeCall_callee name operands useMeta rewriter).1
    generalize Xsmm.buildInvokeCall name operands useMeta rewriter = res at h1
    obtain ⟨r1, r2⟩ := res
    simp only at h1
    subst h1
    rfl
  have hlast : ∀ (name : String) (operands : List Value),
      Xsmm.Rewriter.lastCallee
        { (Xsmm.buildInvokeCall name operands useMeta rewriter).2 with root := .erased }
        = some name := fun name operands =>
    (Xsmm.buildInvokeCall_callee name operands useMeta rewriter).2
  refine ⟨?_, ?_, ?_, ?_, ?_, ?_⟩
  · unfold Xsmm.ConvertTernaryXsmmOp.matchAndRewrite
    simp only [hinvoke]
    exact ⟨trivial, hlast _ _⟩
  · unfold Xsmm.ConvertUnaryXsmmOp.matchAndRewrite
    simp only [hinvoke]
    exact ⟨trivial, hlast _ _⟩
  · unfold Xsmm.ConvertBinaryXsmmOp.matchAndRewrite
    simp only [hinvoke]
    exact ⟨trivial, hlast _ _⟩
  · unfold Xsmm.ConvertTernaryDispatch.matchAndRewrite
    exact ⟨rfl, Xsmm.buildDispatchCall_callee _ _ _ _ _⟩
  · unfold Xsmm.ConvertUnaryDispatch.matchAndRewrite
    exact ⟨rfl, Xsmm.buildDispatchCall_callee _ _ _ _ _⟩
  · unfold Xsmm.ConvertBinaryDispatch.matchAndRewrite
    exact ⟨rfl, Xsmm.buildDispatchCall_callee _ _ _ _ _⟩

/-! ### Dispatch calls -/

theorem Xsmm.constantResults_succ (start count : Nat) :
    Xsmm.constantResults start (count + 1)
      = { id := start, type := Xsmm.integer64 } :: Xsmm.constantResults (start + 1) count := by
  simp only [Xsmm.constantResults, List.range_succ_eq_map, List.map_cons, List.map_map,
    Nat.add_zero]
  congr 1
  apply List.map_congr_left
  intro i _
  simp only [Function.comp, Nat.succ_eq_add_one]
  congr 1
  omega

theorem Xsmm.constantResults_length (start count : Nat) :
    (Xsmm.constantResults start count).length = count := by
  simp [Xsmm.constantResults]

theorem Xsmm.constantResults_type (start count : Nat) :
    ∀ v ∈ Xsmm.constantResults start count, v.type = Xsmm.integer64 := by
  intro v hv
  simp only [Xsmm.constantResults, List.mem_map] at hv
  obtain ⟨i, _, rfl⟩ := hv
  rfl

theorem Xsmm.constantOps_cons (start : Nat) (value : Int) (rest : List Int) :
    Xsmm.constantOps start (value :: rest)
      = .constant { id := start, type := Xsmm.integer64 } value
          :: Xsmm.constantOps (start + 1) rest := by
  simp [Xsmm.constantOps, Xsmm.constantResults_succ]

theorem Xsmm.dispatchConstants_eq (values : List Int) (rewriter : Xsmm.Rewriter)
    (dispatchOperands : List Xsmm.CallValue) (dispatchOperandTypes : List Xsmm.CallTy) :
    Xsmm.dispatchConstants rewriter values dispatchOperands dispatchOperandTypes
      = (dispatchOperands ++ Xsmm.constantResults rewriter.nextValue values.length,
         dispatchOperandTypes ++ List.replicate values.length Xsmm.integer64,
         { rewriter with
           inserted := rewriter.inserted ++ Xsmm.constantOps rewriter.nextValue values
           nextValue := rewriter.nextValue + values.length }) := by
  induction values generalizing rewriter dispatchOperands dispatchOperandTypes with
  | nil => simp [Xsmm.dispatchConstants, Xsmm.constantResults, Xsmm.constantOps]
  | cons value rest ih =>
    rw [Xsmm.dispatchConstants]
    simp only [Xsmm.Rewriter.fresh, Xsmm.Rewriter.insert, ih, Xsmm.constantResults_succ,
      Xsmm.constantOps_cons, List.length_cons, List.replicate_succ, List.append_assoc,
      List.singleton_append, Nat.add_assoc, Nat.add_comm 1]

theorem Xsmm.declareIfAbsent_eq (rewriter : Xsmm.Rewriter) (fnName : String)
    (inputs results : List Xsmm.CallTy) (useMeta : Bool) :
    Xsmm.declareIfAbsent rewriter fnName inputs results useMeta
      = { rewriter with
          module := (Xsmm.declareIfAbsent rewriter fnName inputs results useMeta).module } := by
  unfold Xsmm.declareIfAbsent
  cases Xsmm.lookupSymbol rewriter.module fnName <;> rfl

theorem Xsmm.declareIfAbsent_module (rewriter other : Xsmm.Rewriter) (fnName : String)
    (inputs results : List Xsmm.CallTy) (useMeta : Bool) (h : rewriter.module = other.module) :
    (Xsmm.declareIfAbsent rewriter fnName inputs results useMeta).module
      = (Xsmm.declareIfAbsent other fnName inputs results useMeta).module := by
  unfold Xsmm.declareIfAbsent
  rw [h]
  cases Xsmm.lookupSymbol other.module fnName <;> simp [h]

theorem Xsmm.buildDispatchCall_eq (dispatchOperands : List Xsmm.CallValue)
    (dispatchOperandTypes : List Xsmm.CallTy) (fnName : String) (useMeta : Bool)
    (rewriter : Xsmm.Rewriter) :
    Xsmm.buildDispatchCall dispatchOperands dispatchOperandTypes fnName useMeta rewriter
      = ({ id := rewriter.nextValue, type := Xsmm.integer64 },
         { module := (Xsmm.declareIfAbsent rewriter fnName dispatchOperandTypes
                        [Xsmm.integer64] useMeta).module
           inserted := rewriter.inserted
             ++ [.call fnName dispatchOperands
                   [{ id := rewriter.nextValue, type := Xsmm.integer64 }]]
           nextValue := rewriter.nextValue + 1
           root := rewriter.root }) := by
  unfold Xsmm.buildDispatchCall
  rw [Xsmm.declareIfAbsent_eq]
  rfl

/-- C21. For a dispatch op whose `inputs` attribute is `[d1, ..., dn]`, the lowering
creates one 64-bit integer constant per argument and calls the dispatch function
on the results of these constants, in order: `d1, ..., dn` and nothing else for a
ternary dispatch, `d1, ..., dn, kind, flags` (`n + 2` arguments) for a binary and
for a unary dispatch. The call returns one 64-bit integer, and the dispatch op
is replaced by that value (`replaceOp`: its uses now read the call result and
the op is erased). -/
theorem dispatch_call_arguments (useMeta : Bool) (rewriter : Xsmm.Rewriter)
    (ternaryDispatch : Xsmm.TernaryDispatchOp) (binaryDispatch : Xsmm.BinaryDispatchOp)
    (unaryDispatch : Xsmm.UnaryDispatchOp) :
    Xsmm.ConvertTernaryDispatch.matchAndRewrite useMeta ternaryDispatch rewriter
      = (.success,
          { module :=
              (Xsmm.declareIfAbsent rewriter
                ("xsmm_" ++ ternaryDispatch.kind ++ "_dispatch_" ++ ternaryDispatch.dataType)
                (List.replicate ternaryDispatch.inputs.length Xsmm.integer64)
                [Xsmm.integer64] useMeta).module
            inserted := rewriter.inserted
              ++ Xsmm.constantOps rewriter.nextValue ternaryDispatch.inputs
              ++ [.call
                    ("xsmm_" ++ ternaryDispatch.kind ++ "_dispatch_" ++ ternaryDispatch.dataType)
                    (Xsmm.constantResults rewriter.nextValue ternaryDispatch.inputs.length)
                    [{ id := rewriter.nextValue + ternaryDispatch.inputs.length
                       type := Xsmm.integer64 }]]
            nextValue := rewriter.nextValue + ternaryDispatch.inputs.length + 1
            root := .replacedWith
              { id := rewriter.nextValue + ternaryDispatch.inputs.length
                type := Xsmm.integer64 } })
    ∧ Xsmm.ConvertBinaryDispatch.matchAndRewrite useMeta binaryDispatch rewriter
      = (.success,
          { module :=
              (Xsmm.declareIfAbsent rewriter "xsmm_binary_dispatch"
                (List.replicate (binaryDispatch.inputs.length + 2) Xsmm.integer64)
                [Xsmm.integer64] useMeta).module
            inserted := rewriter.inserted
              ++ Xsmm.constantOps rewriter.nextValue
                  (binaryDispatch.inputs ++ [binaryDispatch.kind, binaryDispatch.flags])
              ++ [.call "xsmm_binary_dispatch"
                    (Xsmm.constantResults rewriter.nextValue (binaryDispatch.inputs.length + 2))
                    [{ id := rewriter.nextValue + (binaryDispatch.inputs.length + 2)
                       type := Xsmm.integer64 }]]
            nextValue := rewriter.nextValue + (binaryDispatch.inputs.length + 2) + 1
            root := .replacedWith
              { id := rewriter.nextValue + (binaryDispatch.inputs.length + 2)
                type := Xsmm.integer64 } })
    ∧ Xsmm.ConvertUnaryDispatch.matchAndRewrite useMeta unaryDispatch rewriter
      = (.success,
          { module :=
              (Xsmm.declareIfAbsent rewriter ("xsmm_unary_dispatch_" ++ unaryDispatch.dataType)
                (List.replicate (unaryDispatch.inputs.length + 2) Xsmm.integer64)
                [Xsmm.integer64] useMeta).module
            inserted := rewriter.inserted
              ++ Xsmm.constantOps rewriter.nextValue
                  (unaryDispatch.inputs ++ [unaryDispatch.kind, unaryDispatch.flags])
              ++ [.call ("xsmm_unary_dispatch_" ++ unaryDispatch.dataType)
                    (Xsmm.constantResults rewriter.nextValue (unaryDispatch.inputs.length + 2))
                    [{ id := rewriter.nextValue + (unaryDispatch.inputs.length + 2)
                       type := Xsmm.integer64 }]]
            nextValue := rewriter.nextValue + (unaryDispatch.inputs.length + 2) + 1
            root := .replacedWith
              { id := rewriter.nextValue + (unaryDispatch.inputs.length + 2)
                type := Xsmm.integer64 } })
    ∧ (∀ start count : Nat,
        (Xsmm.constantResults start count).length = count
        ∧ ∀ v ∈ Xsmm.constantResults start count, v.type = Xsmm.integer64) := by
  have hmod : ∀ (inserted : List Xsmm.Operation) (nextValue : Nat) (root : Xsmm.RootState)
      (name : String) (tys : List Xsmm.CallTy),
      (Xsmm.declareIfAbsent
          { module := rewriter.module, inserted := inserted, nextValue := nextValue,
            root := root } name tys [Xsmm.integer64] useMeta).module
        = (Xsmm.declareIfAbsent rewriter name tys [Xsmm.integer64] useMeta).module :=
    fun _ _ _ name tys => Xsmm.declareIfAbsent_module _ rewriter name tys _ useMeta rfl
  have hlast : ∀ (values : List Int) (a b : Int),
      Xsmm.constantOps rewriter.nextValue (values ++ [a, b])
        = Xsmm.constantOps rewriter.nextValue values
          ++ [.constant { id := rewriter.nextValue + values.length, type := Xsmm.integer64 } a,
              .constant { id := rewriter.nextValue + values.length + 1,
                          type := Xsmm.integer64 } b] := by
    intro values a b
    generalize rewriter.nextValue = start
    induction values generalizing start with
    | nil =>
      simp only [List.nil_append, Xsmm.constantOps_cons, List.length_nil, Nat.add_zero]
      simp [Xsmm.constantOps]
    | cons v rest ih =>
      simp only [List.cons_append, Xsmm.constantOps_cons, ih, List.length_cons]
      simp only [Nat.add_assoc, Nat.add_comm 1]
  have hres : ∀ (count : Nat),
      Xsmm.constantResults rewriter.nextValue (count + 2)
        = Xsmm.constantResults rewriter.nextValue count
          ++ [{ id := rewriter.nextValue + count, type := Xsmm.integer64 },
              { id := rewriter.nextValue + count + 1, type := Xsmm.integer64 }] := by
    intro count
    simp [Xsmm.constantResults, List.range_succ, Nat.add_assoc]
  refine ⟨?_, ?_, ?_, fun start count =>
    ⟨Xsmm.constantResults_length start count, Xsmm.constantResults_type start count⟩⟩
  · simp only [Xsmm.ConvertTernaryDispatch.matchAndRewrite, Xsmm.dispatchConstants_eq,
      Xsmm.buildDispatchCall_eq, List.nil_append, hmod]
  · simp only [Xsmm.ConvertBinaryDispatch.matchAndRewrite, Xsmm.dispatchConstants_eq,
      Xsmm.buildDispatchCall_eq, List.nil_append, Xsmm.Rewriter.fresh, Xsmm.Rewriter.insert,
      hlast, hres, hmod]
    simp [List.replicate_add, Nat.add_assoc]
  · simp only [Xsmm.ConvertUnaryDispatch.matchAndRewrite, Xsmm.dispatchConstants_eq,
      Xsmm.buildDispatchCall_eq, List.nil_append, Xsmm.Rewriter.fresh, Xsmm.Rewriter.insert,
      hlast, hres, hmod]
    simp [List.replicate_add, Nat.add_assoc]

/-! ### Declaration of the external functions -/

theorem Xsmm.freshMany_module (type : Xsmm.CallTy) (count : Nat) (rewriter : Xsmm.Rewriter) :
    (rewriter.freshMany type count).2.module = rewriter.module := by
  induction count generalizing rewriter with
  | zero => rfl
  | succ n ih =>
    simp only [Xsmm.Rewriter.freshMany]
    rw [ih]
    rfl

theorem Xsmm.getMemRefOperands_module (operands : List Value) (b : Xsmm.Rewriter) :
    (Xsmm.getMemRefOperands b operands).2.module = b.module := by
  induction operands generalizing b with
  | nil => rfl
  | cons op rest ih =>
    unfold Xsmm.getMemRefOperands
    split
    · simp only [ih]
      rfl
    · simp only [ih]

theorem Xsmm.getMemRefOperandsUsingMetadata_module (operands : List Value)
    (builder : Xsmm.Rewriter) :
    (Xsmm.getMemRefOperandsUsingMetadata builder operands).2.module = builder.module := by
  induction operands generalizing builder with
  | nil => rfl
  | cons op rest ih =>
    unfold Xsmm.getMemRefOperandsUsingMetadata
    split
    · simp only [ih, Xsmm.Rewriter.insert, Xsmm.Rewriter.fresh, Xsmm.freshMany_module]
    · simp only [ih]

theorem Xsmm.buildInvokeCall_module (funcName : String) (operands : List Value)
    (useMeta : Bool) (rewriter : Xsmm.Rewriter) :
    (Xsmm.buildInvokeCall funcName operands useMeta rewriter).2.module
      = (Xsmm.declareIfAbsent rewriter funcName
          (if useMeta == false then Xsmm.extractInvokeOperandTypes operands
           else Xsmm.extractInvokeOperandTypesForMeta Xsmm.indexType operands)
          [] useMeta).module := by
  unfold Xsmm.buildInvokeCall
  cases useMeta
  · simp only [beq_self_eq_true, if_true, Xsmm.Rewriter.insert, Xsmm.getMemRefOperands_module]
  · simp only [Bool.true_beq, Bool.not_true, Bool.false_eq_true, if_false,
      Bool.true_eq_false, Xsmm.Rewriter.insert, Xsmm.getMemRefOperandsUsingMetadata_module]

theorem Xsmm.buildDispatchCall_module (dispatchOperands : List Xsmm.CallValue)
    (dispatchOperandTypes : List Xsmm.CallTy) (fnName : String) (useMeta : Bool)
    (rewriter : Xsmm.Rewriter) :
    (Xsmm.buildDispatchCall dispatchOperands dispatchOperandTypes fnName useMeta
        rewriter).2.module
      = (Xsmm.declareIfAbsent rewriter fnName dispatchOperandTypes [Xsmm.integer64]
          useMeta).module := by
  rw [Xsmm.buildDispatchCall_eq]

theorem Xsmm.lookupSymbol_eq_none_iff (module : Xsmm.ModuleOp) (name : String) :
    Xsmm.lookupSymbol module name = none ↔ name ∉ module.symbolNames := by
  simp only [Xsmm.lookupSymbol, Xsmm.ModuleOp.symbolNames, List.find?_eq_none, List.mem_map,
    beq_iff_eq, not_exists, not_and]

theorem Xsmm.declareIfAbsent_cases (rewriter : Xsmm.Rewriter) (fnName : String)
    (inputs results : List Xsmm.CallTy) (useMeta : Bool) :
    (fnName ∈ rewriter.module.symbolNames
      ∧ (Xsmm.declareIfAbsent rewriter fnName inputs results useMeta).module = rewriter.module)
    ∨ (fnName ∉ rewriter.module.symbolNames
      ∧ (Xsmm.declareIfAbsent rewriter fnName inputs results useMeta).module
          = { symbols := rewriter.module.symbols
                ++ [{ name := fnName, inputs := inputs, results := results,
                      emitCInterface := !useMeta, isPrivate := true }]
              last := rewriter.module.last }) := by
  unfold Xsmm.declareIfAbsent
  cases h : Xsmm.lookupSymbol rewriter.module fnName with
  | some f =>
    left
    refine ⟨?_, rfl⟩
    by_contra hn
    rw [← Xsmm.lookupSymbol_eq_none_iff, h] at hn
    exact absurd hn (by simp)
  | none =>
    right
    refine ⟨(Xsmm.lookupSymbol_eq_none_iff _ _).1 h, ?_⟩
    cases useMeta <;> rfl

theorem Xsmm.declareIfAbsent_nodup (rewriter : Xsmm.Rewriter) (fnName : String)
    (inputs results : List Xsmm.CallTy) (useMeta : Bool)
    (hnodup : rewriter.module.symbolNames.Nodup) :
    (Xsmm.declareIfAbsent rewriter fnName inputs results useMeta).module.symbolNames.Nodup := by
  rcases Xsmm.declareIfAbsent_cases rewriter fnName inputs results useMeta with
    ⟨_, h⟩ | ⟨hnot, h⟩
  · rw [h]
    exact hnodup
  · rw [h]
    simp only [Xsmm.ModuleOp.symbolNames, Xsmm.ModuleOp.getBody, List.map_append,
      List.map_cons, List.map_nil] at hnodup hnot ⊢
    have hperm : List.Perm
        (List.map (fun f => f.name) rewriter.module.symbols ++ [fnName]
          ++ List.map (fun f => f.name) rewriter.module.last.toList)
        (fnName :: (List.map (fun f => f.name) rewriter.module.symbols
          ++ List.map (fun f => f.name) rewriter.module.last.toList)) := by
      rw [List.append_assoc]
      exact List.perm_middle
    rw [hperm.nodup_iff]
    exact List.nodup_cons.2 ⟨hnot, hnodup⟩

theorem Xsmm.declareIfAbsent_mem (rewriter : Xsmm.Rewriter) (fnName : String)
    (inputs results : List Xsmm.CallTy) (useMeta : Bool) :
    fnName ∈ (Xsmm.declareIfAbsent rewriter fnName inputs results useMeta).module.symbolNames := by
  rcases Xsmm.declareIfAbsent_cases rewriter fnName inputs results useMeta with
    ⟨hin, h⟩ | ⟨_, h⟩
  · rw [h]
    exact hin
  · rw [h]
    simp [Xsmm.ModuleOp.symbolNames, Xsmm.ModuleOp.getBody]

theorem Xsmm.declareIfAbsent_declared (rewriter : Xsmm.Rewriter) (fnName : String)
    (inputs results : List Xsmm.CallTy) (useMeta : Bool)
    (hin : fnName ∈ rewriter.module.symbolNames) :
    (Xsmm.declareIfAbsent rewriter fnName inputs results useMeta).module = rewriter.module := by
  rcases Xsmm.declareIfAbsent_cases rewriter fnName inputs results useMeta with
    ⟨_, h⟩ | ⟨hnot, _⟩
  · exact h
  · exact absurd hin hnot

theorem Xsmm.Lowering.run_module (lowering : Xsmm.Lowering) (rewriter : Xsmm.Rewriter) :
    ∃ (fnName : String) (inputs results : List Xsmm.CallTy) (useMeta : Bool),
      (lowering.run rewriter).module
        = (Xsmm.declareIfAbsent rewriter fnName inputs results useMeta).module := by
  cases lowering with
  | invoke funcName operands useMeta =>
    exact ⟨funcName, _, [], useMeta, Xsmm.buildInvokeCall_module funcName operands useMeta rewriter⟩
  | dispatch dispatchOperands dispatchOperandTypes fnName useMeta =>
    exact ⟨fnName, dispatchOperandTypes, [Xsmm.integer64], useMeta,
      Xsmm.buildDispatchCall_module _ _ _ _ _⟩

theorem Xsmm.Lowering.run_step (lowering : Xsmm.Lowering) (rewriter : Xsmm.Rewriter) :
    (lowering.run rewriter).module = rewriter.module
    ∨ ∃ decl : Xsmm.FuncOp, decl.isPrivate = true
        ∧ (lowering.run rewriter).module
            = { symbols := rewriter.module.symbols ++ [decl], last := rewriter.module.last } := by
  obtain ⟨fnName, inputs, results, useMeta, h⟩ := Xsmm.Lowering.run_module lowering rewriter
  rw [h]
  rcases Xsmm.declareIfAbsent_cases rewriter fnName inputs results useMeta with
    ⟨_, h1⟩ | ⟨_, h1⟩
  · exact Or.inl h1
  · exact Or.inr ⟨_, rfl, h1⟩

theorem Xsmm.runLowerings_spec (lowerings : List Xsmm.Lowering) (rewriter : Xsmm.Rewriter)
    (hnodup : rewriter.module.symbolNames.Nodup) :
    (Xsmm.runLowerings lowerings rewriter).module.symbolNames.Nodup
    ∧ ∃ added : List Xsmm.FuncOp,
        (Xsmm.runLowerings lowerings rewriter).module
          = { symbols := rewriter.module.symbols ++ added, last := rewriter.module.last }
        ∧ ∀ f ∈ added, f.isPrivate = true := by
  induction lowerings generalizing rewriter with
  | nil => exact ⟨hnodup, [], by simp [Xsmm.runLowerings], by simp⟩
  | cons lowering rest ih =>
    have hstep : (lowering.run rewriter).module.symbolNames.Nodup := by
      obtain ⟨fnName, inputs, results, useMeta, h⟩ := Xsmm.Lowering.run_module lowering rewriter
      rw [h]
      exact Xsmm.declareIfAbsent_nodup _ _ _ _ _ hnodup
    obtain ⟨hn, added, hmod, hpriv⟩ := ih (lowering.run rewriter) hstep
    have hrun : Xsmm.runLowerings (lowering :: rest) rewriter
        = Xsmm.runLowerings rest (lowering.run rewriter) := rfl
    rw [hrun]
    refine ⟨hn, ?_⟩
    rcases Xsmm.Lowering.run_step lowering rewriter with h | ⟨decl, hd, h⟩
    · exact ⟨added, by rw [hmod, h], hpriv⟩
    · refine ⟨decl :: added, by rw [hmod, h]; simp, ?_⟩
      intro f hf
      rcases List.mem_cons.1 hf with rfl | hf
      · exact hd
      · exact hpriv f hf

theorem Xsmm.ConvertTernaryDispatch_module (useMeta : Bool)
    (dispatchOp : Xsmm.TernaryDispatchOp) (rewriter : Xsmm.Rewriter) :
    ∃ inputs : List Xsmm.CallTy,
      (Xsmm.ConvertTernaryDispatch.matchAndRewrite useMeta dispatchOp rewriter).2.module
        = (Xsmm.declareIfAbsent rewriter
            ("xsmm_" ++ dispatchOp.kind ++ "_dispatch_" ++ dispatchOp.dataType) inputs
            [Xsmm.integer64] useMeta).module := by
  simp only [Xsmm.ConvertTernaryDispatch.matchAndRewrite, Xsmm.dispatchConstants_eq,
    Xsmm.buildDispatchCall_eq]
  exact ⟨_, Xsmm.declareIfAbsent_module _ rewriter _ _ _ _ rfl⟩

theorem Xsmm.ConvertBinaryDispatch_module (useMeta : Bool)
    (dispatchOp : Xsmm.BinaryDispatchOp) (rewriter : Xsmm.Rewriter) :
    ∃ inputs : List Xsmm.CallTy,
      (Xsmm.ConvertBinaryDispatch.matchAndRewrite useMeta dispatchOp rewriter).2.module
        = (Xsmm.declareIfAbsent rewriter "xsmm_binary_dispatch" inputs
            [Xsmm.integer64] useMeta).module := by
  simp only [Xsmm.ConvertBinaryDispatch.matchAndRewrite, Xsmm.dispatchConstants_eq,
    Xsmm.buildDispatchCall_eq, Xsmm.Rewriter.fresh, Xsmm.Rewriter.insert]
  exact ⟨_, Xsmm.declareIfAbsent_module _ rewriter _ _ _ _ rfl⟩

theorem Xsmm.ConvertUnaryDispatch_module (useMeta : Bool)
    (dispatchOp : Xsmm.UnaryDispatchOp) (rewriter : Xsmm.Rewriter) :
    ∃ inputs : List Xsmm.CallTy,
      (Xsmm.ConvertUnaryDispatch.matchAndRewrite useMeta dispatchOp rewriter).2.module
        = (Xsmm.declareIfAbsent rewriter ("xsmm_unary_dispatch_" ++ dispatchOp.dataType) inputs
            [Xsmm.integer64] useMeta).module := by
  simp only [Xsmm.ConvertUnaryDispatch.matchAndRewrite, Xsmm.dispatchConstants_eq,
    Xsmm.buildDispatchCall_eq, Xsmm.Rewriter.fresh, Xsmm.Rewriter.insert]
  exact ⟨_, Xsmm.declareIfAbsent_module _ rewriter _ _ _ _ rfl⟩

theorem Xsmm.declared_twice (rewriter second : Xsmm.Rewriter) (fnName : String)
    (inputs inputs2 results : List Xsmm.CallTy) (useMeta : Bool)
    (hnodup : rewriter.module.symbolNames.Nodup)
    (hsecond : second.module
      = (Xsmm.declareIfAbsent rewriter fnName inputs results useMeta).module) :
    (Xsmm.declareIfAbsent second fnName inputs2 results useMeta).module = second.module
    ∧ second.module.symbolNames.count fnName = 1 := by
  have hmem : fnName ∈ second.module.symbolNames := by
    rw [hsecond]
    exact Xsmm.declareIfAbsent_mem _ _ _ _ _
  refine ⟨Xsmm.declareIfAbsent_declared _ _ _ _ _ hmem, ?_⟩
  have hn : second.module.symbolNames.Nodup := by
    rw [hsecond]
    exact Xsmm.declareIfAbsent_nodup _ _ _ _ _ hnodup
  exact List.count_eq_one_of_mem hn hmem

/-- C22. Declaration is declare-if-absent. Starting from a module in which no
symbol name is declared twice, after any sequence of calls of `buildInvokeCall`
and `buildDispatchCall` no name is declared twice; the module has only grown by
private declarations placed before its last operation, and each step either
leaves the module as it is or inserts one private declaration immediately before
the last operation of the body, the position the source calls the module
terminator. Lowering a dispatch op a second time, on the module that the first
lowering left, leaves the module unchanged, and the callee is declared exactly
once. -/
theorem declare_if_absent (lowerings : List Xsmm.Lowering) (rewriter : Xsmm.Rewriter)
    (hnodup : rewriter.module.symbolNames.Nodup) :
    (Xsmm.runLowerings lowerings rewriter).module.symbolNames.Nodup
    ∧ (∀ name : String,
        (Xsmm.runLowerings lowerings rewriter).module.symbolNames.count name ≤ 1)
    ∧ (∃ added : List Xsmm.FuncOp,
        (Xsmm.runLowerings lowerings rewriter).module
          = { symbols := rewriter.module.symbols ++ added, last := rewriter.module.last }
        ∧ ∀ f ∈ added, f.isPrivate = true)
    ∧ (∀ (lowering : Xsmm.Lowering) (r : Xsmm.Rewriter),
        (lowering.run r).module = r.module
        ∨ ∃ decl : Xsmm.FuncOp, decl.isPrivate = true
            ∧ (lowering.run r).module
                = { symbols := r.module.symbols ++ [decl], last := r.module.last })
    ∧ (∀ (useMeta : Bool) (dispatchOp : Xsmm.TernaryDispatchOp) (second : Xsmm.Rewriter),
        second.module
          = (Xsmm.ConvertTernaryDispatch.matchAndRewrite useMeta dispatchOp rewriter).2.module →
        (Xsmm.ConvertTernaryDispatch.matchAndRewrite useMeta dispatchOp second).2.module
          = second.module
        ∧ (Xsmm.ConvertTernaryDispatch.matchAndRewrite useMeta dispatchOp
              second).2.module.symbolNames.count
            ("xsmm_" ++ dispatchOp.kind ++ "_dispatch_" ++ dispatchOp.dataType) = 1)
    ∧ (∀ (useMeta : Bool) (dispatchOp : Xsmm.BinaryDispatchOp) (second : Xsmm.Rewriter),
        second.module
          = (Xsmm.ConvertBinaryDispatch.matchAndRewrite useMeta dispatchOp rewriter).2.module →
        (Xsmm.ConvertBinaryDispatch.matchAndRewrite useMeta dispatchOp second).2.module
          = second.module
        ∧ (Xsmm.ConvertBinaryDispatch.matchAndRewrite useMeta dispatchOp
              second).2.module.symbolNames.count "xsmm_binary_dispatch" = 1)
    ∧ (∀ (useMeta : Bool) (dispatchOp : Xsmm.UnaryDispatchOp) (second : Xsmm.Rewriter),
        second.module
          = (Xsmm.ConvertUnaryDispatch.matchAndRewrite useMeta dispatchOp rewriter).2.module →
        (Xsmm.ConvertUnaryDispatch.matchAndRewrite useMeta dispatchOp second).2.module
          = second.module
        ∧ (Xsmm.ConvertUnaryDispatch.matchAndRewrite useMeta dispatchOp
              second).2.module.symbolNames.count
            ("xsmm_unary_dispatch_" ++ dispatchOp.dataType) = 1) := by
  obtain ⟨hn, hadded⟩ := Xsmm.runLowerings_spec lowerings rewriter hnodup
  refine ⟨hn, fun name => List.nodup_iff_count_le_one.1 hn name, hadded,
    Xsmm.Lowering.run_step, ?_, ?_, ?_⟩
  · intro useMeta dispatchOp second hsecond
    obtain ⟨i1, h1⟩ := Xsmm.ConvertTernaryDispatch_module useMeta dispatchOp rewriter
    obtain ⟨i2, h2⟩ := Xsmm.ConvertTernaryDispatch_module useMeta dispatchOp second
    have h := Xsmm.declared_twice rewriter second _ i1 i2 _ useMeta hnodup (hsecond.trans h1)
    rw [h2, h.1]
    exact ⟨rfl, h.2⟩
  · intro useMeta dispatchOp second hsecond
    obtain ⟨i1, h1⟩ := Xsmm.ConvertBinaryDispatch_module useMeta dispatchOp rewriter
    obtain ⟨i2, h2⟩ := Xsmm.ConvertBinaryDispatch_module useMeta dispatchOp second
    have h := Xsmm.declared_twice rewriter second _ i1 i2 _ useMeta hnodup (hsecond.trans h1)
    rw [h2, h.1]
    exact ⟨rfl, h.2⟩
  · intro useMeta dispatchOp second hsecond
    obtain ⟨i1, h1⟩ := Xsmm.ConvertUnaryDispatch_module useMeta dispatchOp rewriter
    obtain ⟨i2, h2⟩ := Xsmm.ConvertUnaryDispatch_module useMeta dispatchOp second
    have h := Xsmm.declared_twice rewriter second _ i1 i2 _ useMeta hnodup (hsecond.trans h1)
    rw [h2, h.1]
    exact ⟨rfl, h.2⟩

theorem declare_if_absent_witness :
    (Xsmm.runLowerings Xsmm.exampleLowerings Xsmm.freshRewriter).module.symbolNames.Nodup
    ∧ (Xsmm.ConvertBinaryDispatch.matchAndRewrite false Xsmm.binaryDispatchExample
          (Xsmm.ConvertBinaryDispatch.matchAndRewrite false Xsmm.binaryDispatchExample
            Xsmm.freshRewriter).2).2.module.symbolNames.count "xsmm_binary_dispatch" = 1 :=
  ⟨(declare_if_absent Xsmm.exampleLowerings Xsmm.freshRewriter (by decide)).1,
   ((declare_if_absent [] Xsmm.freshRewriter (by decide)).2.2.2.2.2.1 false
      Xsmm.binaryDispatchExample _ rfl).2⟩

/-! ### The signature of the declared function -/

/-- C24. The three-argument constructor of the pass ignores its first argument:
for any two values of it, with the same `useParallelLoops` and `tileSizes`, the
constructed passes are the same; their `enableTiling` option is the value the
member had before the assignment, not the argument (it differs from the argument
when the argument is the negation of that value); `useParallelLoops` and
`tileSizes` are stored as given; the factory forwards to the constructor; and
the tiling walk of `runOnOperation` takes the same decision and gives the same
result for both passes: it is skipped exactly when the prior value of
`enableTiling` is false and `tileSizes` is empty. -/
theorem constructor_ignores_first_argument (defaults : ConvertLinalgToTpp)
    (first second useParallelLoops : Bool) (tileSizes : List Int) :
    (ConvertLinalgToTpp.new defaults first useParallelLoops tileSizes).enableTiling
      = (ConvertLinalgToTpp.new defaults second useParallelLoops tileSizes).enableTiling
    ∧ (ConvertLinalgToTpp.new defaults first useParallelLoops tileSizes).enableTiling
      = defaults.enableTiling
    ∧ (ConvertLinalgToTpp.new defaults (!defaults.enableTiling) useParallelLoops
        tileSizes).enableTiling ≠ !defaults.enableTiling
    ∧ (ConvertLinalgToTpp.new defaults first useParallelLoops tileSizes).useParallelLoops
      = useParallelLoops
    ∧ (ConvertLinalgToTpp.new defaults first useParallelLoops tileSizes).tileSizes = tileSizes
    ∧ createConvertLinalgToTppPass defaults first useParallelLoops tileSizes
      = createConvertLinalgToTppPass defaults second useParallelLoops tileSizes
    ∧ ∀ (canTile : GenericOp → List Int → Bool) (ops : List GenericOp),
        ConvertLinalgToTpp.tilingWalk canTile
            (createConvertLinalgToTppPass defaults first useParallelLoops tileSizes) ops
          = ConvertLinalgToTpp.tilingWalk canTile
              (createConvertLinalgToTppPass defaults second useParallelLoops tileSizes) ops
        ∧ (ConvertLinalgToTpp.tilingWalk canTile
              (createConvertLinalgToTppPass defaults first useParallelLoops tileSizes) ops
            = .ok none
          ↔ (defaults.enableTiling = false ∧ tileSizes = [])) := by
  refine ⟨rfl, rfl, ?_, rfl, rfl, rfl, fun canTile ops => ⟨rfl, ?_⟩⟩
  · simp [ConvertLinalgToTpp.new]
  · simp only [ConvertLinalgToTpp.tilingWalk, createConvertLinalgToTppPass,
      ConvertLinalgToTpp.new]
    cases hd : defaults.enableTiling <;> cases tileSizes <;>
      simp <;>
      cases ConvertLinalgToTpp.tilingLoop canTile _ ops <;> simp

/-! ### Operand positions read by the kernel selection -/

/-- C25, failing input. The generic op `addOneOperand` has buffer semantics, the
annotation `tpp.add`, no result and a single operand of rank 2: it passes every
check of `matchAndRewrite`, which reaches `rewriteToTppOp` with a one-element
operand list; the `tpp.add` branch then reads `operands[1]`, outside the list.
The same holds for `matmulTwoOperands`, whose `tpp.matmul` branch reads
`operands[2]` of a two-element list. -/
theorem add_with_one_operand_reads_out_of_range :
    addOneOperand.operands.length = 1
    ∧ ConvertGenericOpToTpp.checks addOneOperand freshRewriter
        = .ok (.kernelSelection addOneOperand.operands, freshRewriter)
    ∧ addOneOperand.operands[1]? = none
    ∧ ConvertGenericOpToTpp.matchAndRewrite addOneOperand freshRewriter
        = .error "Invalid index!"
    ∧ ConvertGenericOpToTpp.checks matmulTwoOperands freshRewriter
        = .ok (.kernelSelection matmulTwoOperands.operands, freshRewriter)
    ∧ matmulTwoOperands.operands[2]? = none
    ∧ ConvertGenericOpToTpp.matchAndRewrite matmulTwoOperands freshRewriter
        = .error "Invalid index!" := by
  decide

/-! ### The factor left by the walk of a convolution expression -/

theorem isDimExprOrMulExpr_of_coefficient (expr : AffineExpr) (c f : Int)
    (h : summandCoefficient expr = some c) :
    isDimExprOrMulExpr expr f = .ok (.success, f * c) := by
  unfold summandCoefficient at h
  split at h
  · cases h
    simp [isDimExprOrMulExpr]
  · cases h
    simp [isDimExprOrMulExpr]
  · cases h
    simp [isDimExprOrMulExpr]
  · cases h

theorem isDimExprOrMulExpr_success (expr : AffineExpr) (f g : Int)
    (h : isDimExprOrMulExpr expr f = .ok (.success, g)) :
    ∃ c, summandCoefficient expr = some c ∧ g = f * c := by
  cases expr with
  | dim i =>
    simp only [isDimExprOrMulExpr, Except.ok.injEq, Prod.mk.injEq, true_and] at h
    exact ⟨1, rfl, by rw [← h]; simp⟩
  | symbol i => simp [isDimExprOrMulExpr] at h
  | constant v => simp [isDimExprOrMulExpr] at h
  | binary kind lhs rhs =>
    cases kind <;> cases lhs <;> cases rhs <;>
      simp [isDimExprOrMulExpr, summandCoefficient] at h ⊢ <;>
      exact h.symm

theorem walkConvExpr_add_of_coefficients (lhs rhs : AffineExpr) (c1 c2 f : Int)
    (hlhs : summandCoefficient lhs = some c1) (hrhs : summandCoefficient rhs = some c2) :
    walkConvExpr (.binary .Add lhs rhs) f = .ok (.success, f * c1 * c2) := by
  simp [walkConvExpr, isDimExprOrMulExpr_of_coefficient lhs c1 f hlhs,
    isDimExprOrMulExpr_of_coefficient rhs c2 (f * c1) hrhs, succeeded]

theorem walkConvExpr_add_success (lhs rhs : AffineExpr) (f g : Int)
    (h : walkConvExpr (.binary .Add lhs rhs) f = .ok (.success, g)) :
    ∃ c1 c2, summandCoefficient lhs = some c1 ∧ summandCoefficient rhs = some c2
      ∧ g = f * c1 * c2 := by
  simp only [walkConvExpr, bne_self_eq_false, Bool.false_eq_true, if_false] at h
  cases h1 : isDimExprOrMulExpr lhs f with
  | error e => simp [h1] at h
  | ok res1 =>
    obtain ⟨r1, g1⟩ := res1
    simp only [h1] at h
    by_cases hr1 : succeeded r1 = true
    · have hr1eq : r1 = .success := by simpa [succeeded] using hr1
      subst hr1eq
      obtain ⟨c1, hc1, hg1⟩ := isDimExprOrMulExpr_success lhs f g1 h1
      simp only [succeeded, beq_self_eq_true, Bool.not_true, Bool.false_eq_true,
        if_false] at h
      cases h2 : isDimExprOrMulExpr rhs g1 with
      | error e => simp [h2] at h
      | ok res2 =>
        obtain ⟨r2, g2⟩ := res2
        simp only [h2, Except.ok.injEq, Prod.mk.injEq] at h
        obtain ⟨hres, hg⟩ := h
        have hr2eq : r2 = .success := by
          by_contra hne
          simp [hne] at hres
        subst hr2eq
        obtain ⟨c2, hc2, hg2⟩ := isDimExprOrMulExpr_success rhs g1 g2 h2
        exact ⟨c1, c2, hc1, hc2, by rw [← hg, hg2, hg1]⟩
    · simp [hr1] at h

/-- What the walk leaves and what the strides block writes. Whenever
`walkConvExpr` succeeds on a sum `lhs + rhs`, both summands are a bare dim or a
product of a dim and a constant, and the factor it leaves is the incoming factor
multiplied by the constant coefficient of `lhs` and by that of `rhs`, a bare dim
counting as 1; conversely the walk succeeds on every such sum, whatever the
order of the summands and the side on which a constant stands. For an image map
whose W expression (its result before the last) is such a sum with coefficients
`c1` and `c2`, the stride written at position `rank - 2` of the image slice is
the product `c1 * c2` (an `int64_t` product, assumed in range) in a build with
assertions, and 1 in a build that defines `NDEBUG`, where the walk does not run;
all other strides are 1. The product equals `c1` exactly when `c1 = 0` or
`c2 = 1`, and `c2` exactly when `c2 = 0` or `c1 = 1`. -/
theorem stride_of_coefficients (ndebug : Bool) (linalgOp : LinalgOp)
    (imageMap : List AffineExpr) (lhs rhs : AffineExpr) (c1 c2 f : Int) (rank : Nat)
    (hlhs : summandCoefficient lhs = some c1) (hrhs : summandCoefficient rhs = some c2) :
    (∀ (l r : AffineExpr) (f0 g : Int),
        walkConvExpr (.binary .Add l r) f0 = .ok (.success, g) →
        ∃ k1 k2, summandCoefficient l = some k1 ∧ summandCoefficient r = some k2
          ∧ g = f0 * k1 * k2)
    ∧ walkConvExpr (.binary .Add lhs rhs) f = .ok (.success, f * c1 * c2)
    ∧ walkConvExpr (.binary .Add rhs lhs) f = walkConvExpr (.binary .Add lhs rhs) f
    ∧ (∀ (i : Nat) (c : Int),
        summandCoefficient (.dim i) = some 1
        ∧ summandCoefficient (.binary .Mul (.dim i) (.constant c)) = some c
        ∧ summandCoefficient (.binary .Mul (.constant c) (.dim i)) = some c)
    ∧ (linalgOp.indexingMaps[0]? = some imageMap →
        2 ≤ imageMap.length → imageMap.length < 2 ^ 32 →
        imageMap[imageMap.length - 2]? = some (.binary .Add lhs rhs) →
        2 ≤ rank → rank < 2 ^ 64 →
        (-(2 : Int) ^ 63 ≤ c1 * c2 ∧ c1 * c2 < 2 ^ 63) →
        getSlicedConvOperandImpl.strides ndebug linalgOp 0 rank true
          = .ok ((List.replicate rank (.attr 1)).set (rank - 2)
              (.attr (if ndebug then 1 else c1 * c2))))
    ∧ (c1 * c2 = c1 ↔ (c1 = 0 ∨ c2 = 1))
    ∧ (c1 * c2 = c2 ↔ (c2 = 0 ∨ c1 = 1))
    ∧ (c1 ≠ 0 → c2 ≠ 0 → (c1 * c2 = c1 ∨ c1 * c2 = c2) → (c1 = 1 ∨ c2 = 1)) := by
  have hm1 : c1 * c2 = c1 ↔ (c1 = 0 ∨ c2 = 1) := by
    rw [mul_right_eq_self₀]
    exact Or.comm
  have hm2 : c1 * c2 = c2 ↔ (c2 = 0 ∨ c1 = 1) := by
    rw [mul_left_eq_self₀]
    exact Or.comm
  refine ⟨walkConvExpr_add_success, walkConvExpr_add_of_coefficients lhs rhs c1 c2 f hlhs hrhs,
    ?_, fun i c => ⟨rfl, rfl, rfl⟩, ?_, hm1, hm2, ?_⟩
  · rw [walkConvExpr_add_of_coefficients lhs rhs c1 c2 f hlhs hrhs,
      walkConvExpr_add_of_coefficients rhs lhs c2 c1 f hrhs hlhs, mul_assoc, mul_comm c2 c1,
      ← mul_assoc]
  · intro hmap h2 h32 hw hr2 hr64 _
    have hidx : ((imageMap.length % 2 ^ 32) + 2 ^ 32 - 2) % 2 ^ 32 = imageMap.length - 2 := by
      omega
    have hpos : ((List.replicate rank (OpFoldResult.attr 1)).length + 2 ^ 64 - 2) % 2 ^ 64
        = rank - 2 := by
      rw [List.length_replicate]
      omega
    have hlt : rank - 2 < (List.replicate rank (OpFoldResult.attr 1)).length := by
      rw [List.length_replicate]
      omega
    cases ndebug
    · simp only [getSlicedConvOperandImpl.strides, getSlicedConvOperandImpl.assertWalk,
        if_true, hmap, hidx, hw, walkConvExpr_add_of_coefficients lhs rhs c1 c2 1 hlhs hrhs,
        hpos, if_pos hlt, Bool.false_eq_true, if_false]
      simp [succeeded]
    · simp only [getSlicedConvOperandImpl.strides, getSlicedConvOperandImpl.assertWalk,
        if_true, hmap, hidx, hw, hpos, if_pos hlt]
  · intro h1 h2 h
    rcases h with h | h
    · exact Or.inr ((hm1.1 h).resolve_left h1)
    · exact Or.inl ((hm2.1 h).resolve_left h2)

theorem stride_of_coefficients_witness :
    getSlicedConvOperandImpl.strides false scaledConvExample 0 4 true
      = .ok ((List.replicate 4 (.attr 1)).set (4 - 2) (.attr (if false then 1 else 2 * 3)))
    ∧ ((1 : Int) = 1 ∨ (3 : Int) = 1) :=
  ⟨(stride_of_coefficients false scaledConvExample
      [.dim 0, .binary .Add (.dim 1) (.dim 2),
        .binary .Add (.binary .Mul (.dim 4) (.constant 2)) (.binary .Mul (.constant 3) (.dim 3)),
        .dim 6]
      (.binary .Mul (.dim 4) (.constant 2)) (.binary .Mul (.constant 3) (.dim 3)) 2 3 1 4
      rfl rfl).2.2.2.2.1 rfl (by decide) (by decide) rfl (by decide) (by decide)
      ⟨by decide, by decide⟩,
   (stride_of_coefficients false scaledConvExample [] (.dim 4)
      (.binary .Mul (.constant 3) (.dim 3)) 1 3 1 4 rfl rfl).2.2.2.2.2.2.2
      (by decide) (by decide) (Or.inr (by decide))⟩

/-- C26, failing input. The image map of `stridedConvExample` has the W expression
`d4 * 2 + d3` of a convolution with stride 2: `walkConvExpr`, started with
factor 1, succeeds on it and leaves 2, the product of the coefficients 2 and 1.
In a build with assertions the strides block writes 2 at position `rank - 2`
of the image slice. In a build that defines `NDEBUG` the walk, which is the
argument of `assert`, does not run: the factor stays 1 and the stride written is
1, so the slice of the image ignores the stride of the convolution. The same
holds for `scaledConvExample`, with W expression `d4 * 2 + 3 * d3`: 6 with
assertions, 1 without. -/
theorem ndebug_stride_stays_one :
    walkConvExpr (.binary .Add (.binary .Mul (.dim 4) (.constant 2)) (.dim 3)) 1
        = .ok (.success, 2)
    ∧ getSlicedConvOperandImpl.strides false stridedConvExample 0 4 true
        = .ok [.attr 1, .attr 1, .attr 2, .attr 1]
    ∧ getSlicedConvOperandImpl.strides true stridedConvExample 0 4 true
        = .ok [.attr 1, .attr 1, .attr 1, .attr 1]
    ∧ (getSlicedConvOperandImpl true stridedConvExample 0 []
          (stridedConvExample.inputs ++ stridedConvExample.outputs) [0, 1]).map
          (fun args => args.strides)
        = .ok [.attr 1, .attr 1, .attr 1, .attr 1]
    ∧ (getSlicedConvOperandImpl false stridedConvExample 0 []
          (stridedConvExample.inputs ++ stridedConvExample.outputs) [0, 1]).map
          (fun args => args.strides)
        = .ok [.attr 1, .attr 1, .attr 2, .attr 1]
    ∧ getSlicedConvOperandImpl.strides false scaledConvExample 0 4 true
        = .ok [.attr 1, .attr 1, .attr 6, .attr 1]
    ∧ getSlicedConvOperandImpl.strides true scaledConvExample 0 4 true
        = .ok [.attr 1, .attr 1, .attr 1, .attr 1] := by
  decide

end Tpp
